import Mathlib

/-!
# Unified Calendar backend: the sync and reconciliation engine

A shallow embedding of `controllers/calendarController.js` (with the schemas of
`models/Event.js` and `models/ExternalCalendarAccount.js` and the error handler of
`middleware/errorMiddleware.js`), followed by theorems about it.

Conventions of the embedding

* A JavaScript value that may be `undefined` is an `Option`; a string is falsy when it
  is absent or empty (`truthy`), and `a || b` on such values is `jsOr`.
* The persisted state, the credentials held by the shared `googleOAuth2Client` and the
  list of requests sent to the provider are the fields of `World`; every handler is a
  function from a `World` to a result carrying the `World` it leaves behind.
* What the outside answers (the provider's responses, the clock, the rendering of a
  date) is the `Env` a handler runs in.
* A thrown exception is the `threw` constructor of `Outcome`, with the state persisted
  at the time of the throw.
* Document ids are numbers, user ids are strings (they are compared through
  `toString()`); a `Date` is kept as the text it was built from.
-/

namespace UnifiedCalendar

/-! ## JavaScript helpers -/

/-- Truthiness of a string that may be `undefined`: absent and empty strings are falsy. -/
def truthy : Option String → Bool
  | none => false
  | some s => s != ""

/-- The JavaScript `a || b` on strings that may be `undefined`. -/
def jsOr (a b : Option String) : Option String :=
  if truthy a then a else b

/-! ## Token encoding (`encrypt` / `decrypt`, lines 31-42) -/

/-- The base64 alphabet. -/
def base64Alphabet : List Char :=
  "ABCDEFGHIJKLMNOPQRSTUVWXYZabcdefghijklmnopqrstuvwxyz0123456789+/".data

/-- The base64 digit of a sextet. -/
def base64Digit (n : Nat) : Char :=
  base64Alphabet.getD n 'A'

/-- The text of `buffer.toString('base64')` for a list of bytes. -/
def base64Encode : List Nat → List Char
  | [] => []
  | [a] => [base64Digit (a / 4), base64Digit (a % 4 * 16), '=', '=']
  | [a, b] =>
    [base64Digit (a / 4), base64Digit (a % 4 * 16 + b / 16), base64Digit (b % 16 * 4), '=']
  | a :: b :: c :: rest =>
    base64Digit (a / 4) :: base64Digit (a % 4 * 16 + b / 16) ::
      base64Digit (b % 16 * 4 + c / 64) :: base64Digit (c % 64) :: base64Encode rest

/-- The sextet a character stands for in `Buffer.from(text, 'base64')`, which reads
the URL-safe digits as well; `none` for a character that is no digit. -/
def base64Value (c : Char) : Option Nat :=
  if 'A' ≤ c ∧ c ≤ 'Z' then some (c.toNat - 65)
  else if 'a' ≤ c ∧ c ≤ 'z' then some (c.toNat - 97 + 26)
  else if '0' ≤ c ∧ c ≤ '9' then some (c.toNat - 48 + 52)
  else if c = '+' ∨ c = '-' then some 62
  else if c = '/' ∨ c = '_' then some 63
  else none

/-- The sextets read by the decoder: it stops at the first `=` and skips every other
character that is no digit. -/
def base64Sextets : List Char → List Nat
  | [] => []
  | c :: rest =>
    if c = '=' then []
    else
      match base64Value c with
      | some v => v :: base64Sextets rest
      | none => base64Sextets rest

/-- Bytes of a list of sextets, four sextets giving three bytes. -/
def sextetsToBytes : List Nat → List Nat
  | a :: b :: c :: d :: rest =>
    (a * 4 + b / 16) :: (b % 16 * 16 + c / 4) :: (c % 4 * 64 + d) :: sextetsToBytes rest
  | [a, b, c] => [a * 4 + b / 16, b % 16 * 16 + c / 4]
  | [a, b] => [a * 4 + b / 16]
  | _ => []

/-- The bytes of `Buffer.from(text, 'base64')`. -/
def base64Decode (text : List Char) : List Nat :=
  sextetsToBytes (base64Sextets text)

/-- The UTF-8 bytes of one character. -/
def utf8EncodeChar (c : Char) : List Nat :=
  if c.toNat < 0x80 then [c.toNat]
  else if c.toNat < 0x800 then [0xC0 + c.toNat / 64, 0x80 + c.toNat % 64]
  else if c.toNat < 0x10000 then
    [0xE0 + c.toNat / 4096, 0x80 + c.toNat / 64 % 64, 0x80 + c.toNat % 64]
  else
    [0xF0 + c.toNat / 262144, 0x80 + c.toNat / 4096 % 64, 0x80 + c.toNat / 64 % 64,
      0x80 + c.toNat % 64]

/-- The bytes of `Buffer.from(text)`, the UTF-8 encoding of the text. -/
def utf8Bytes (text : String) : List Nat :=
  text.data.flatMap utf8EncodeChar

/-- State of the UTF-8 decoder between two bytes: the code point collected so far, the
number of continuation bytes still to come, and the range allowed for the next byte. -/
structure Utf8State where
  codePoint : Nat
  needed : Nat
  lower : Nat
  upper : Nat
deriving DecidableEq, Repr

/-- The replacement character written for an ill-formed byte sequence. -/
def replacementChar : Char := Char.ofNat 0xFFFD

/-- The state entered on a lead byte, `none` when the byte cannot start a sequence. -/
def utf8Lead (b : Nat) : Option Utf8State :=
  if 0xC2 ≤ b ∧ b ≤ 0xDF then some ⟨b % 32, 1, 0x80, 0xBF⟩
  else if 0xE0 ≤ b ∧ b ≤ 0xEF then
    some ⟨b % 16, 2, if b = 0xE0 then 0xA0 else 0x80, if b = 0xED then 0x9F else 0xBF⟩
  else if 0xF0 ≤ b ∧ b ≤ 0xF4 then
    some ⟨b % 8, 3, if b = 0xF0 then 0x90 else 0x80, if b = 0xF4 then 0x8F else 0xBF⟩
  else none

/-- The text of `buffer.toString('utf8')`, ill-formed sequences being replaced. The
first argument is the state of a sequence under way, if any. -/
def utf8Decode : Option Utf8State → List Nat → List Char
  | none, [] => []
  | some _, [] => [replacementChar]
  | none, b :: rest =>
    if b < 0x80 then Char.ofNat b :: utf8Decode none rest
    else
      match utf8Lead b with
      | some st => utf8Decode (some st) rest
      | none => replacementChar :: utf8Decode none rest
  | some st, b :: rest =>
    if st.lower ≤ b ∧ b ≤ st.upper then
      let cp := st.codePoint * 64 + b % 64
      if st.needed = 1 then Char.ofNat cp :: utf8Decode none rest
      else utf8Decode (some ⟨cp, st.needed - 1, 0x80, 0xBF⟩) rest
    else if b < 0x80 then replacementChar :: Char.ofNat b :: utf8Decode none rest
    else
      match utf8Lead b with
      | some st2 => replacementChar :: utf8Decode (some st2) rest
      | none => replacementChar :: replacementChar :: utf8Decode none rest

/-- Source `encrypt`: `'N/A'` for a missing or empty text, else its base64 text. -/
def encrypt (text : Option String) : String :=
  match text with
  | none => "N/A"
  | some t => if t = "" then "N/A" else String.mk (base64Encode (utf8Bytes t))

/-- Source `decrypt`: `'N/A'` is kept, any other text is read as base64. -/
def decrypt (encryptedText : String) : String :=
  if encryptedText = "N/A" then "N/A"
  else String.mk (utf8Decode none (base64Decode encryptedText.data))

/-- Whether JavaScript's `trim` removes the character. -/
def jsWhitespace (c : Char) : Bool :=
  let n := c.toNat
  (9 ≤ n && n ≤ 13) || n == 0x20 || n == 0xA0 || n == 0x1680 || (0x2000 ≤ n && n ≤ 0x200A) ||
    n == 0x2028 || n == 0x2029 || n == 0x202F || n == 0x205F || n == 0x3000 || n == 0xFEFF

/-- The setters `lowercase: true, trim: true` of the attendee schema's `email`. Letters
outside ASCII are kept as they are. -/
def lowercaseTrim (s : String) : String :=
  String.mk ((((s.data.map Char.toLower).dropWhile jsWhitespace).reverse.dropWhile
    jsWhitespace).reverse)

/-! ## Data model (`models/Event.js`, `models/ExternalCalendarAccount.js`) -/

/-- A stored attendee (`attendeeSchema`). -/
structure Attendee where
  email : String
  status : String
  isOrganizer : Bool
deriving DecidableEq, Repr

/-- A stored event (`eventSchema`). A `Date` is kept as the text it was built from. -/
structure Event where
  _id : Nat
  userId : String
  externalCalendarAccountId : Nat
  externalEventId : Option String
  title : String
  description : Option String
  startTime : String
  endTime : String
  location : Option String
  attendees : List Attendee
  isAllDay : Bool
  sourceType : String
  isNewlyAccepted : Bool
  lastSynced : Int
deriving DecidableEq, Repr

/-- A stored account (`externalCalendarAccountSchema`); `expiresAt` in milliseconds. -/
structure ExternalCalendarAccount where
  _id : Nat
  userId : String
  calendarType : String
  externalCalendarId : String
  accountName : String
  accountEmail : String
  displayColor : String
  accessToken : String
  refreshToken : String
  expiresAt : Int
  lastSyncToken : Option String
deriving DecidableEq, Repr

/-- An attendee as handed to the Event model, before casting and validation. -/
structure AttendeeDoc where
  email : Option String
  status : Option String
  isOrganizer : Option Bool
deriving DecidableEq, Repr

/-- A value handed to a `Boolean` path: `undefined`, a boolean, or the empty string
(what `date && ...` yields for an empty `date`). -/
inductive RawBool where
  | undefined
  | bool (b : Bool)
  | emptyString
deriving DecidableEq, Repr

/-- A `location` value: a string (Google) or an object with a `displayName` (Outlook). -/
inductive ExtLocation where
  | str (s : String)
  | obj (displayName : Option String)
deriving DecidableEq, Repr

/-- The fields handed to `Event.create`, or held by a loaded document at `save()`,
before casting and validation. -/
structure EventDoc where
  userId : String
  externalCalendarAccountId : Nat
  externalEventId : Option String
  title : Option String
  description : Option String
  startTime : Option String
  endTime : Option String
  location : Option ExtLocation
  attendees : List AttendeeDoc
  isAllDay : RawBool
  sourceType : Option String
  isNewlyAccepted : Bool
  lastSynced : Int
deriving DecidableEq, Repr

/-! ## Provider payloads -/

/-- Outlook's `emailAddress` object. -/
structure EmailAddress where
  address : Option String
deriving DecidableEq, Repr

/-- Outlook's attendee `status` object. -/
structure ResponseStatus where
  response : Option String
deriving DecidableEq, Repr

/-- An attendee of a fetched payload, with the fields the sync reads: Google's `email`
and `responseStatus`, Outlook's `emailAddress`, `status` and `type`. -/
structure ExtAttendee where
  emailAddress : Option EmailAddress
  email : Option String
  status : Option ResponseStatus
  responseStatus : Option String
  type : Option String
deriving DecidableEq, Repr

/-- The `organizer` of a fetched payload. -/
structure ExtOrganizer where
  emailAddress : Option EmailAddress
  email : Option String
deriving DecidableEq, Repr

/-- The `start` or `end` object of a fetched payload. -/
structure ExtTime where
  dateTime : Option String
  date : Option String
deriving DecidableEq, Repr

/-- A fetched payload (`extEvent`), with the fields the sync reads. -/
structure ExtEvent where
  id : Option String
  iCalUId : Option String
  summary : Option String
  subject : Option String
  description : Option String
  bodyPreview : Option String
  start : Option ExtTime
  end_ : Option ExtTime
  location : Option ExtLocation
  isAllDay : Option Bool
  attendees : Option (List ExtAttendee)
  organizer : Option ExtOrganizer
deriving DecidableEq, Repr

/-- The credentials object of the shared `googleOAuth2Client`. -/
structure Credentials where
  access_token : Option String
  refresh_token : Option String
deriving DecidableEq, Repr

/-- The `credentials` of the answer to `refreshAccessToken()`. -/
structure RefreshedCredentials where
  access_token : Option String
  refresh_token : Option String
  expires_in : Option Int
deriving DecidableEq, Repr

/-- The answer to `events.list`. -/
structure ListResponse where
  status : Nat
  items : Option (List ExtEvent)
  nextSyncToken : Option String
deriving DecidableEq, Repr

/-- An attendee of the provider's copy of an event, as `events.get` returns it. -/
structure GoogleAttendee where
  email : Option String
  responseStatus : Option String
deriving DecidableEq, Repr

/-- A `start` or `end` object sent to the provider. -/
structure WireTime where
  dateTime : Option String
  date : Option String
  timeZone : String
deriving DecidableEq, Repr

/-- The resource sent with `events.insert` and `events.patch` (`googleEvent`). -/
structure GoogleEventResource where
  summary : Option String
  description : Option String
  location : Option String
  start : WireTime
  end_ : WireTime
  attendees : List (Option String)
deriving DecidableEq, Repr

/-- A request sent to the provider, with the credentials the shared client held when
it was sent. -/
inductive ProviderCall where
  | refreshAccessToken (credentials : Credentials)
  | eventsList (credentials : Credentials) (calendarId : String) (syncToken : Option String)
  | eventsInsert (credentials : Credentials) (calendarId : String)
      (resource : GoogleEventResource)
  | eventsPatch (credentials : Credentials) (calendarId : String) (eventId : String)
      (resource : GoogleEventResource)
  | eventsPatchAttendees (credentials : Credentials) (calendarId : String) (eventId : String)
      (attendees : Option (List GoogleAttendee))
  | eventsDelete (credentials : Credentials) (calendarId : String) (eventId : String)
  | eventsGet (credentials : Credentials) (calendarId : String) (eventId : String)
deriving DecidableEq, Repr

/-- What the outside answers during one run: the clock, the rendering of dates, and
the provider's answers (`none` or `false`: the call throws). `eventsList n` is the
answer to the `n`-th `events.list` request of the run, counted from zero. -/
structure Env where
  now : Int
  timeZone : String
  toISOString : String → Option String
  refreshAccessToken : Option RefreshedCredentials
  eventsList : Nat → Option ListResponse
  eventsInsert : Option (Option String)
  eventsPatch : Bool
  eventsDelete : Bool
  eventsGet : Option (Option (List GoogleAttendee))

/-- What a call of `calendarService.events.list` gives the code for an HTTP answer of the
provider. The `googleapis` client, a library that is not part of this repository,
accepts an answer only when its status is in 200-299; for any other status the call
throws and the code sees no response (`none`). -/
def eventsListCall (answer : Option ListResponse) : Option ListResponse :=
  answer.bind fun response =>
    if 200 ≤ response.status ∧ response.status < 300 then some response else none

/-- The persisted collections, the shared OAuth client and the requests sent so far
(oldest first). -/
structure World where
  accounts : List ExternalCalendarAccount
  events : List Event
  nextId : Nat
  client : Credentials
  calls : List ProviderCall
deriving DecidableEq, Repr

/-- How a block of code ends: normally, or by a throw, in both cases with the state it
leaves behind. -/
inductive Outcome (σ : Type) where
  | done (s : σ)
  | threw (s : σ)
deriving DecidableEq, Repr

/-- The state a block leaves behind. -/
def Outcome.state {σ : Type} : Outcome σ → σ
  | .done s => s
  | .threw s => s

/-- Whether the block ended normally. -/
def Outcome.isDone {σ : Type} : Outcome σ → Bool
  | .done _ => true
  | .threw _ => false

/-! ## The Event model: casting, validation and the store operations -/

/-- The values of the `status` enum of `attendeeSchema`. -/
def attendeeStatusEnum : List String := ["accepted", "declined", "pending"]

/-- The values of the `sourceType` and `calendarType` enums. -/
def sourceTypeEnum : List String := ["google", "outlook", "apple", "custom"]

/-- Casting and validation of one attendee by `attendeeSchema`: `email` is required
(after the setters), `status` defaults to `'pending'` and must be in the enum,
`isOrganizer` defaults to `false`. `none`: the document is rejected. -/
def castAttendee (a : AttendeeDoc) : Option Attendee :=
  match a.email with
  | none => none
  | some e =>
    if lowercaseTrim e = "" then none
    else if a.status.getD "pending" ∈ attendeeStatusEnum then
      some ⟨lowercaseTrim e, a.status.getD "pending", a.isOrganizer.getD false⟩
    else none

/-- Casting and validation of all attendees of a document. -/
def castAttendees : List AttendeeDoc → Option (List Attendee)
  | [] => some []
  | a :: rest =>
    match castAttendee a, castAttendees rest with
    | some a', some rest' => some (a' :: rest')
    | _, _ => none

/-- Casting of a value handed to the `Boolean` path `isAllDay` (default `false`); the
empty string cannot be cast. -/
def castBoolean : RawBool → Option Bool
  | .undefined => some false
  | .bool b => some b
  | .emptyString => none

/-- Casting of a value handed to the `String` path `location`; a plain object cannot
be cast. -/
def castLocation : Option ExtLocation → Option (Option String)
  | none => some none
  | some (.str s) => some (some s)
  | some (.obj _) => none

/-- Casting and validation of a document by `eventSchema`, giving the event stored under
`id`: `title`, `startTime`, `endTime` and `sourceType` are required, a date must be a
valid date (one `toISOString` renders), `sourceType` must be in its enum. `none`: the
document is rejected and the write throws. -/
def castEvent (env : Env) (id : Nat) (doc : EventDoc) : Option Event :=
  match doc.title, doc.startTime, doc.endTime, doc.sourceType, castLocation doc.location,
    castAttendees doc.attendees, castBoolean doc.isAllDay with
  | some title, some startTime, some endTime, some sourceType, some location, some attendees,
    some isAllDay =>
    if title ≠ "" ∧ (env.toISOString startTime).isSome ∧ (env.toISOString endTime).isSome ∧
        sourceType ∈ sourceTypeEnum then
      some
        { _id := id
          userId := doc.userId
          externalCalendarAccountId := doc.externalCalendarAccountId
          externalEventId := doc.externalEventId
          title := title
          description := doc.description
          startTime := startTime
          endTime := endTime
          location := location
          attendees := attendees
          isAllDay := isAllDay
          sourceType := sourceType
          isNewlyAccepted := doc.isNewlyAccepted
          lastSynced := doc.lastSynced }
    else none
  | _, _, _, _, _, _, _ => none

/-- The document of a loaded event, as `save()` sees it before any assignment. -/
def Event.toDoc (e : Event) : EventDoc :=
  { userId := e.userId
    externalCalendarAccountId := e.externalCalendarAccountId
    externalEventId := e.externalEventId
    title := some e.title
    description := e.description
    startTime := some e.startTime
    endTime := some e.endTime
    location := e.location.map ExtLocation.str
    attendees := e.attendees.map fun a => ⟨some a.email, some a.status, some a.isOrganizer⟩
    isAllDay := .bool e.isAllDay
    sourceType := some e.sourceType
    isNewlyAccepted := e.isNewlyAccepted
    lastSynced := e.lastSynced }

/-- Model method `Event.create(doc)`: the cast document is appended under a fresh id, or
the call throws. -/
def eventCreate (env : Env) (w : World) (doc : EventDoc) : Outcome World :=
  match castEvent env w.nextId doc with
  | none => .threw w
  | some e => .done { w with events := w.events ++ [e], nextId := w.nextId + 1 }

/-- Document method `save()` of the event loaded under `id`: the cast document replaces
the stored one, or the call throws. -/
def eventSave (env : Env) (w : World) (id : Nat) (doc : EventDoc) : Outcome World :=
  match castEvent env id doc with
  | none => .threw w
  | some e => .done { w with events := w.events.map fun x => if x._id = id then e else x }

/-- Model method `Event.findById(id)`. -/
def eventFindById (w : World) (id : Nat) : Option Event :=
  w.events.find? fun e => e._id == id

/-- Model method `Event.findOne({ externalCalendarAccountId, externalEventId })`. -/
def eventFindOne (w : World) (accountId : Nat) (externalEventId : Option String) :
    Option Event :=
  w.events.find? fun e =>
    e.externalCalendarAccountId == accountId && e.externalEventId == externalEventId

/-- Model method `Event.deleteMany({ externalCalendarAccountId, externalEventId: { $in } })`.
An absent `externalEventId` matches an absent (`undefined`, sent as `null`) entry of
the `$in` list. -/
def eventDeleteMany (w : World) (accountId : Nat) (ids : List (Option String)) : World :=
  { w with
    events := w.events.filter fun e =>
      !(e.externalCalendarAccountId == accountId && ids.contains e.externalEventId) }

/-- Document method `deleteOne()` of the event loaded under `id`. -/
def eventDeleteOne (w : World) (id : Nat) : World :=
  { w with events := w.events.filter fun e => !(e._id == id) }

/-- Model method `ExternalCalendarAccount.findById(id)`. -/
def accountFindById (w : World) (id : Nat) : Option ExternalCalendarAccount :=
  w.accounts.find? fun a => a._id == id

/-- Document method `account.save()`: the in-memory account replaces the stored one. -/
def accountSave (w : World) (account : ExternalCalendarAccount) : World :=
  { w with accounts := w.accounts.map fun a => if a._id = account._id then account else a }

/-- The shared client's `setCredentials`. -/
def setCredentials (w : World) (credentials : Credentials) : World :=
  { w with client := credentials }

/-- Records a request sent to the provider with the client's current credentials. -/
def World.send (w : World) (call : Credentials → ProviderCall) : World :=
  { w with calls := w.calls ++ [call w.client] }

/-! ## `syncExternalCalendar` (lines 292-515) -/

/-- The attendee mapping of the create path (lines 464-468) and of the update path
(lines 494-498), which are the same text. In `'declined' ? 'declined' : 'pending'` the
condition is a non-empty string. -/
def mapAttendee (extEvent : ExtEvent) (att : ExtAttendee) : AttendeeDoc :=
  { email := jsOr (att.emailAddress.bind (·.address)) att.email
    status :=
      jsOr att.responseStatus
        (some
          (if att.status.bind (·.response) = some "accepted" ∨
              att.status.bind (·.response) = some "tentativelyAccepted" then "accepted"
           else if truthy (some "declined") then "declined" else "pending"))
    isOrganizer :=
      some
        (((extEvent.organizer.bind (·.emailAddress)).bind (·.address) ==
            jsOr (att.emailAddress.bind (·.address)) att.email) ||
          att.type == some "organizer") }

/-- The value of `extEvent.attendees ? extEvent.attendees.map(...) : []`. -/
def mapAttendees (extEvent : ExtEvent) : List AttendeeDoc :=
  match extEvent.attendees with
  | none => []
  | some atts => atts.map (mapAttendee extEvent)

/-- The value of `extEvent.location?.displayName || extEvent.location` (lines 462, 492). -/
def mapLocation : Option ExtLocation → Option ExtLocation
  | none => none
  | some (.str s) => some (.str s)
  | some (.obj displayName) =>
    if truthy displayName then displayName.map ExtLocation.str else some (.obj displayName)

/-- The value of `start.date && !start.dateTime` (line 463). -/
def isAllDayCreate (start : ExtTime) : RawBool :=
  match start.date with
  | none => .undefined
  | some d => if d = "" then .emptyString else .bool (!truthy start.dateTime)

/-- The value of `start.date && !start.dateTime || extEvent.isAllDay` (line 493). -/
def isAllDayUpdate (start : ExtTime) (isAllDay : Option Bool) : RawBool :=
  match isAllDayCreate start with
  | .bool true => .bool true
  | _ =>
    match isAllDay with
    | none => .undefined
    | some b => .bool b

/-- The value of `extEvent.id || extEvent.iCalUId` (lines 412, 457, 478). -/
def eventIdOf (extEvent : ExtEvent) : Option String :=
  jsOr extEvent.id extEvent.iCalUId

/-- The three working collections of the reconciler (lines 407-409). The set
`eventsToDeleteIds` is a list without repetition. -/
structure Partition where
  eventsToUpdate : List ExtEvent
  eventsToCreate : List ExtEvent
  eventsToDeleteIds : List (Option String)
deriving DecidableEq, Repr

/-- One turn of the loop of lines 411-444. The attendee values computed at lines 415-433
are read nowhere and are left out. -/
def partitionStep (existingEventIds : List (Option String)) (p : Partition)
    (extEvent : ExtEvent) : Partition :=
  if !truthy (eventIdOf extEvent) then p
  else if existingEventIds.contains (eventIdOf extEvent) then
    { p with
      eventsToUpdate := p.eventsToUpdate ++ [extEvent]
      eventsToDeleteIds := p.eventsToDeleteIds.erase (eventIdOf extEvent) }
  else { p with eventsToCreate := p.eventsToCreate ++ [extEvent] }

/-- The set `existingEventIds` (lines 402-406): the `externalEventId`s of the events
stored for the account. -/
def existingEventIds (w : World) (accountId : Nat) : List (Option String) :=
  ((w.events.filter fun e => e.externalCalendarAccountId == accountId).map
    (·.externalEventId)).dedup

/-- The collections after the loop of lines 411-444. -/
def partitionEvents (existing : List (Option String)) (externalEvents : List ExtEvent) :
    Partition :=
  externalEvents.foldl (partitionStep existing) ⟨[], [], existing⟩

/-- The document built at lines 454-471; `none` when `start` or `end` is missing
(`extEvent.start.dateTime` throws a TypeError). -/
def createDoc (env : Env) (account : ExternalCalendarAccount) (userId : String)
    (extEvent : ExtEvent) : Option EventDoc :=
  match extEvent.start, extEvent.end_ with
  | some start, some end_ =>
    some
      { userId := userId
        externalCalendarAccountId := account._id
        externalEventId := eventIdOf extEvent
        title := jsOr extEvent.summary extEvent.subject
        description := jsOr extEvent.description extEvent.bodyPreview
        startTime := jsOr start.dateTime start.date
        endTime := jsOr end_.dateTime end_.date
        location := mapLocation extEvent.location
        attendees := mapAttendees extEvent
        isAllDay := isAllDayCreate start
        sourceType := some account.calendarType
        isNewlyAccepted := false
        lastSynced := env.now }
  | _, _ => none

/-- The loop of lines 453-472. -/
def createEvents (env : Env) (account : ExternalCalendarAccount) (userId : String) :
    World → List ExtEvent → Outcome World
  | w, [] => .done w
  | w, extEvent :: rest =>
    match createDoc env account userId extEvent with
    | none => .threw w
    | some doc =>
      match eventCreate env w doc with
      | .threw w1 => .threw w1
      | .done w1 => createEvents env account userId w1 rest

/-- The owner's stored status (line 482). -/
def currentUserResponseStatus (account : ExternalCalendarAccount) (existingLocalEvent : Event) :
    Option String :=
  (existingLocalEvent.attendees.find? fun att => att.email == account.accountEmail).map
    (·.status)

/-- The owner's new status as lines 483-486 compute it. The callback of `find` is
`att.emailAddress?.address || att.email === account.accountEmail`. -/
def newCurrentUserResponseStatus (account : ExternalCalendarAccount) (extEvent : ExtEvent) :
    String :=
  let found :=
    extEvent.attendees.bind fun atts =>
      atts.find? fun att =>
        truthy (att.emailAddress.bind (·.address)) || att.email == some account.accountEmail
  let response := (found.bind (·.status)).bind (·.response)
  if response = some "accepted" ∨ response = some "tentativelyAccepted" then "accepted"
  else if response = some "declined" then "declined"
  else "pending"

/-- The document saved at line 506 for a matched event; `none` when `start` or `end` is
missing. -/
def updateDoc (env : Env) (account : ExternalCalendarAccount) (existingLocalEvent : Event)
    (extEvent : ExtEvent) : Option EventDoc :=
  match extEvent.start, extEvent.end_ with
  | some start, some end_ =>
    some
      { existingLocalEvent.toDoc with
        title := jsOr extEvent.summary extEvent.subject
        description := jsOr extEvent.description extEvent.bodyPreview
        startTime := jsOr start.dateTime start.date
        endTime := jsOr end_.dateTime end_.date
        location := mapLocation extEvent.location
        isAllDay := isAllDayUpdate start extEvent.isAllDay
        attendees := mapAttendees extEvent
        isNewlyAccepted :=
          currentUserResponseStatus account existingLocalEvent == some "pending" &&
            newCurrentUserResponseStatus account extEvent == "accepted"
        lastSynced := env.now }
  | _, _ => none

/-- One turn of the loop of lines 477-508. -/
def updateEventFromPayload (env : Env) (account : ExternalCalendarAccount) (w : World)
    (extEvent : ExtEvent) : Outcome World :=
  match eventFindOne w account._id (eventIdOf extEvent) with
  | none => .done w
  | some existingLocalEvent =>
    match updateDoc env account existingLocalEvent extEvent with
    | none => .threw w
    | some doc => eventSave env w existingLocalEvent._id doc

/-- The loop of lines 477-508. -/
def updateEvents (env : Env) (account : ExternalCalendarAccount) :
    World → List ExtEvent → Outcome World
  | w, [] => .done w
  | w, extEvent :: rest =>
    match updateEventFromPayload env account w extEvent with
    | .threw w1 => .threw w1
    | .done w1 => updateEvents env account w1 rest

/-- Step 3 of the sync (lines 398-509): the reconciliation of the account's stored
events with the fetched list. -/
def reconcile (env : Env) (w : World) (account : ExternalCalendarAccount) (userId : String)
    (externalEvents : List ExtEvent) : Outcome World :=
  let p := partitionEvents (existingEventIds w account._id) externalEvents
  let w1 :=
    if p.eventsToDeleteIds.length > 0 then eventDeleteMany w account._id p.eventsToDeleteIds
    else w
  match createEvents env account userId w1 p.eventsToCreate with
  | .threw w2 => .threw w2
  | .done w2 => updateEvents env account w2 p.eventsToUpdate

/-- Step 1 of the sync (lines 303-335): the token check. The result carries the
in-memory account next to the world. A refresh answer without `expires_in` makes
`expiresAt` an invalid date, which `account.save()` rejects. -/
def refreshStep (env : Env) (w : World) (account : ExternalCalendarAccount) :
    Outcome (World × ExternalCalendarAccount) :=
  if account.expiresAt ≤ env.now then
    if account.calendarType = "google" then
      let w1 :=
        (setCredentials w ⟨none, some (decrypt account.refreshToken)⟩).send
          ProviderCall.refreshAccessToken
      match env.refreshAccessToken with
      | none => .threw (w1, account)
      | some credentials =>
        match credentials.expires_in with
        | none => .threw (w1, account)
        | some expires_in =>
          let account1 :=
            { account with
              accessToken := encrypt credentials.access_token
              refreshToken :=
                encrypt (jsOr credentials.refresh_token (some (decrypt account.refreshToken)))
              expiresAt := env.now + expires_in * 1000 }
          .done (setCredentials (accountSave w1 account1) ⟨credentials.access_token, none⟩,
            account1)
    else .done (w, account)
  else .done (w, account)

/-- The body of `syncExternalCalendar` with the `catch` of line 511 made visible:
`threw` means that the `catch` block of this run, or of the run it started at line 357,
was entered. The first argument bounds the depth of the recursion of line 357, the
second counts the `events.list` requests made so far; `none`: the bound was reached. -/
def syncRun (env : Env) : Nat → Nat → World → Nat → String → Option (Outcome World)
  | 0, _, _, _, _ => none
  | fuel + 1, fetches, w, accountId, userId =>
    match accountFindById w accountId with
    | none => some (.done w)
    | some account =>
      match refreshStep env w account with
      | .threw (w1, _) => some (.threw w1)
      | .done (w1, account1) =>
        if account1.calendarType = "google" then
          let w2 :=
            w1.send fun c =>
              ProviderCall.eventsList c account1.externalCalendarId account1.lastSyncToken
          match env.eventsList fetches with
          | none => some (.threw w2)
          | some response =>
            if response.status = 410 then
              syncRun env fuel (fetches + 1)
                (accountSave w2 { account1 with lastSyncToken := none }) accountId userId
            else
              let account2 :=
                { account1 with
                  lastSyncToken := jsOr response.nextSyncToken account1.lastSyncToken }
              some (reconcile env (accountSave w2 account2) account2 userId
                (response.items.getD []))
        else if account1.calendarType = "apple" then some (.done w1)
        else some (reconcile env w1 account1 userId [])

/-- Source `syncExternalCalendar(accountId, userId)`: it returns nothing and throws
nothing, the result is the world it leaves. -/
def syncExternalCalendar (env : Env) (fuel : Nat) (w : World) (accountId : Nat)
    (userId : String) : Option World :=
  (syncRun env fuel 0 w accountId userId).map Outcome.state

/-! ## The request handlers -/

/-- Source `errorHandler` (`middleware/errorMiddleware.js`): the status sent for a thrown
error, given the status set on the response before the throw. -/
def errorHandler (statusCode : Nat) : Nat :=
  if statusCode = 200 then 500 else statusCode

/-- What a handler answers, with the world it leaves: a JSON answer sent with a status,
or an error passed to `errorHandler`, with the status that one sends. -/
inductive Reply where
  | sent (status : Nat) (w : World)
  | failed (status : Nat) (w : World)
deriving DecidableEq, Repr

/-- The world a handler leaves. -/
def Reply.world : Reply → World
  | .sent _ w => w
  | .failed _ w => w

/-- Whether the handler ended with an error. -/
def Reply.isFailed : Reply → Bool
  | .sent _ _ => false
  | .failed _ _ => true

/-- The status sent to the caller. -/
def Reply.status : Reply → Nat
  | .sent s _ => s
  | .failed s _ => s

/-- Source `refreshCalendar` (lines 271-289), for the verified caller `reqUserId`. -/
def refreshCalendar (env : Env) (fuel : Nat) (w : World) (reqUserId : String)
    (accountId : Nat) : Option Reply :=
  match accountFindById w accountId with
  | none => some (.failed (errorHandler 404) w)
  | some account =>
    if reqUserId ≠ account.userId then some (.failed (errorHandler 403) w)
    else (syncExternalCalendar env fuel w account._id account.userId).map (Reply.sent 200)

/-- The text of `iso.split('T')[0]`. -/
def beforeT (iso : String) : String :=
  String.mk (iso.data.takeWhile fun c => c != 'T')

/-- A `start` or `end` object of `googleEvent` (lines 557-566, 692-701); `none` when
`new Date(time).toISOString()` throws a RangeError. -/
def wireTime (env : Env) (isAllDay : Option Bool) (time : Option String) : Option WireTime :=
  match time.bind env.toISOString with
  | none => none
  | some iso =>
    if isAllDay = some true then some ⟨none, some (beforeT iso), env.timeZone⟩
    else some ⟨some iso, none, env.timeZone⟩

/-- The `googleEvent` of lines 553-571 and 688-703; `none` when its construction throws
(an invalid date, or `attendees` missing). -/
def googleEvent (env : Env) (title description location startTime endTime : Option String)
    (isAllDay : Option Bool) (attendees : Option (List AttendeeDoc)) :
    Option GoogleEventResource :=
  match wireTime env isAllDay startTime, wireTime env isAllDay endTime, attendees with
  | some start, some end_, some atts =>
    some
      { summary := title
        description := description
        location := location
        start := start
        end_ := end_
        attendees := atts.map (·.email) }
  | _, _, _ => none

/-- The value handed to the `isAllDay` path by a request body. -/
def rawBoolOfBody : Option Bool → RawBool
  | none => .undefined
  | some b => .bool b

/-- The body of a `POST /api/events` request (lines 521-532). -/
structure CreateEventBody where
  title : Option String
  description : Option String
  startTime : Option String
  endTime : Option String
  location : Option String
  attendees : Option (List AttendeeDoc)
  isAllDay : Option Bool
  sourceType : Option String
  externalCalendarAccountId : Option Nat
  userId : Option String
deriving DecidableEq, Repr

/-- The last step of `createEvent` (lines 612-628). -/
def createEventStore (env : Env) (w : World) (body : CreateEventBody) (userId : String)
    (targetAccount : ExternalCalendarAccount) (extEventId : Option String) : Reply :=
  match
    eventCreate env w
      { userId := userId
        externalCalendarAccountId := targetAccount._id
        externalEventId := extEventId
        title := body.title
        description := body.description
        startTime := body.startTime
        endTime := body.endTime
        location := body.location.map ExtLocation.str
        attendees := body.attendees.getD []
        isAllDay := rawBoolOfBody body.isAllDay
        sourceType := body.sourceType
        isNewlyAccepted := false
        lastSynced := env.now } with
  | .threw w1 => .failed (errorHandler 200) w1
  | .done w1 => .sent 201 w1

/-- Source `createEvent` (lines 520-629), for the verified caller `reqUserId`. -/
def createEvent (env : Env) (w : World) (reqUserId : String) (body : CreateEventBody) :
    Reply :=
  match body.userId with
  | none => .failed (errorHandler 200) w
  | some userId =>
    if reqUserId ≠ userId then .failed (errorHandler 403) w
    else
      match body.externalCalendarAccountId.bind (accountFindById w) with
      | none => .failed (errorHandler 400) w
      | some targetAccount =>
        if targetAccount.userId ≠ userId then .failed (errorHandler 400) w
        else if body.sourceType ≠ some "custom" then
          if body.sourceType = some "google" then
            let w1 := setCredentials w ⟨some (decrypt targetAccount.accessToken), none⟩
            match
              googleEvent env body.title body.description body.location body.startTime
                body.endTime body.isAllDay body.attendees with
            | none => .failed (errorHandler 200) w1
            | some resource =>
              let w2 :=
                w1.send fun c =>
                  ProviderCall.eventsInsert c targetAccount.externalCalendarId resource
              match env.eventsInsert with
              | none => .failed (errorHandler 200) w2
              | some extEventId => createEventStore env w2 body userId targetAccount extEventId
          else createEventStore env w body userId targetAccount none
        else createEventStore env w body userId targetAccount none

/-- The body of a `PATCH /api/events/:id` request (lines 652-660). -/
structure UpdateEventBody where
  title : Option String
  description : Option String
  startTime : Option String
  endTime : Option String
  location : Option String
  attendees : Option (List AttendeeDoc)
  isAllDay : Option Bool
deriving DecidableEq, Repr

/-- The last step of `updateEvent` (lines 743-755). -/
def updateEventStore (env : Env) (w : World) (event : Event) (body : UpdateEventBody) :
    Reply :=
  match
    eventSave env w event._id
      { event.toDoc with
        title := body.title
        description := body.description
        startTime := body.startTime
        endTime := body.endTime
        location := body.location.map ExtLocation.str
        attendees := body.attendees.getD []
        isAllDay := rawBoolOfBody body.isAllDay
        lastSynced := env.now } with
  | .threw w1 => .failed (errorHandler 200) w1
  | .done w1 => .sent 200 w1

/-- Source `updateEvent` (lines 650-756), for the verified caller `reqUserId`. -/
def updateEvent (env : Env) (w : World) (reqUserId : String) (id : Nat)
    (body : UpdateEventBody) : Reply :=
  match eventFindById w id with
  | none => .failed (errorHandler 404) w
  | some event =>
    if reqUserId ≠ event.userId then .failed (errorHandler 403) w
    else
      match accountFindById w event.externalCalendarAccountId with
      | none => .failed (errorHandler 400) w
      | some targetAccount =>
        if event.sourceType ≠ "custom" ∧ truthy event.externalEventId then
          if targetAccount.calendarType = "google" then
            let w1 := setCredentials w ⟨some (decrypt targetAccount.accessToken), none⟩
            match
              googleEvent env body.title body.description body.location body.startTime
                body.endTime body.isAllDay body.attendees with
            | none => .failed (errorHandler 200) w1
            | some resource =>
              let w2 :=
                w1.send fun c =>
                  ProviderCall.eventsPatch c targetAccount.externalCalendarId
                    (event.externalEventId.getD "") resource
              if env.eventsPatch then updateEventStore env w2 event body
              else .failed (errorHandler 200) w2
          else updateEventStore env w event body
        else updateEventStore env w event body

/-- Source `deleteEvent` (lines 762-807), for the verified caller `reqUserId`. -/
def deleteEvent (env : Env) (w : World) (reqUserId : String) (id : Nat) : Reply :=
  match eventFindById w id with
  | none => .failed (errorHandler 404) w
  | some event =>
    if reqUserId ≠ event.userId then .failed (errorHandler 403) w
    else if event.sourceType ≠ "custom" ∧ truthy event.externalEventId then
      match accountFindById w event.externalCalendarAccountId with
      | none => .sent 200 (eventDeleteOne w event._id)
      | some targetAccount =>
        if targetAccount.calendarType = "google" then
          let w1 := setCredentials w ⟨some (decrypt targetAccount.accessToken), none⟩
          let w2 :=
            w1.send fun c =>
              ProviderCall.eventsDelete c targetAccount.externalCalendarId
                (event.externalEventId.getD "")
          if env.eventsDelete then .sent 200 (eventDeleteOne w2 event._id)
          else .failed (errorHandler 200) w2
        else .sent 200 (eventDeleteOne w event._id)
    else .sent 200 (eventDeleteOne w event._id)

/-- The body of a `PATCH /api/events/:id/attendees` request (line 815). -/
structure AttendeeStatusBody where
  attendeeEmail : Option String
  status : Option String
deriving DecidableEq, Repr

/-- The assignment `attendees[index].status = status` (line 840). -/
def assignStatus (status : Option String) : Nat → List AttendeeDoc → List AttendeeDoc
  | _, [] => []
  | 0, a :: rest => { a with status := status } :: rest
  | n + 1, a :: rest => a :: assignStatus status n rest

/-- The assignment `googleAttendee.responseStatus = status` on the first attendee of
the provider's copy with the given email (lines 858-861). -/
def assignResponseStatus (attendeeEmail : String) (status : Option String) :
    List GoogleAttendee → List GoogleAttendee
  | [] => []
  | a :: rest =>
    if a.email = some attendeeEmail then { a with responseStatus := status } :: rest
    else a :: assignResponseStatus attendeeEmail status rest

/-- The last step of `updateAttendeeStatus` (lines 917-918): the document with the new
status is saved. -/
def updateAttendeeStatusStore (env : Env) (w : World) (event : Event) (index : Nat)
    (status : Option String) : Reply :=
  match
    eventSave env w event._id
      { event.toDoc with attendees := assignStatus status index event.toDoc.attendees } with
  | .threw w1 => .failed (errorHandler 200) w1
  | .done w1 => .sent 200 w1

/-- Source `updateAttendeeStatus` (lines 813-919), for the verified caller `reqUserId`. -/
def updateAttendeeStatus (env : Env) (w : World) (reqUserId : String) (id : Nat)
    (body : AttendeeStatusBody) : Reply :=
  match eventFindById w id with
  | none => .failed (errorHandler 404) w
  | some event =>
    match body.attendeeEmail with
    | none => .failed (errorHandler 200) w
    | some attendeeEmail =>
      if reqUserId ≠ attendeeEmail then .failed (errorHandler 403) w
      else
        match event.attendees.findIdx? fun att => att.email == attendeeEmail with
        | none => .failed (errorHandler 404) w
        | some attendeeIndex =>
          if event.sourceType ≠ "custom" ∧ truthy event.externalEventId then
            match accountFindById w event.externalCalendarAccountId with
            | none => updateAttendeeStatusStore env w event attendeeIndex body.status
            | some targetAccount =>
              if targetAccount.calendarType = "google" then
                let w1 := setCredentials w ⟨some (decrypt targetAccount.accessToken), none⟩
                let w2 :=
                  w1.send fun c =>
                    ProviderCall.eventsGet c targetAccount.externalCalendarId
                      (event.externalEventId.getD "")
                match env.eventsGet with
                | none => .failed (errorHandler 200) w2
                | some googleAttendees =>
                  let w3 :=
                    w2.send fun c =>
                      ProviderCall.eventsPatchAttendees c targetAccount.externalCalendarId
                        (event.externalEventId.getD "")
                        (googleAttendees.map (assignResponseStatus attendeeEmail body.status))
                  if env.eventsPatch then
                    updateAttendeeStatusStore env w3 event attendeeIndex body.status
                  else .failed (errorHandler 200) w3
              else updateAttendeeStatusStore env w event attendeeIndex body.status
          else updateAttendeeStatusStore env w event attendeeIndex body.status

/-! ## The scheduled job (`server.js`, lines 58-72) -/

/-- The loop of lines 64-67 over the accounts found at line 61: `syncExternalCalendar`
is awaited for each account in turn. `envOf id` is what the outside answers during the
run for the account `id`. -/
def syncAccounts (envOf : Nat → Env) (fuel : Nat) :
    World → List ExternalCalendarAccount → Option World
  | w, [] => some w
  | w, account :: rest =>
    match syncExternalCalendar (envOf account._id) fuel w account._id account.userId with
    | none => none
    | some w1 => syncAccounts envOf fuel w1 rest

/-- The callback of `cron.schedule`: the accounts whose `calendarType` is in `['google']`
are synced one after the other. -/
def cronTick (envOf : Nat → Env) (fuel : Nat) (w : World) : Option World :=
  syncAccounts envOf fuel w (w.accounts.filter fun a => ["google"].contains a.calendarType)

/-! ## Vocabulary of the statements -/

/-- What identifies a stored event: its id, its account and its external id. -/
def Event.key (e : Event) : Nat × Nat × Option String :=
  (e._id, e.externalCalendarAccountId, e.externalEventId)

/-- The store's key discipline: `_id` is a unique key of the events and fresh ids are
taken from `nextId` upwards. -/
def World.KeysOk (w : World) : Prop :=
  (w.events.map (·._id)).Nodup ∧ ∀ e ∈ w.events, e._id < w.nextId

instance (w : World) : Decidable w.KeysOk :=
  inferInstanceAs (Decidable (_ ∧ _))

/-- The `externalEventId`s stored for an account. -/
def World.externalIds (w : World) (accountId : Nat) : List (Option String) :=
  (w.events.filter fun e => e.externalCalendarAccountId == accountId).map (·.externalEventId)

/-- The requests sent since an earlier world `w`. -/
def World.callsSince (w' w : World) : List ProviderCall :=
  w'.calls.drop w.calls.length

/-- Whether the provider, in this environment, fails the given write request. -/
def Env.failsWrite (env : Env) : ProviderCall → Bool
  | .eventsInsert .. => env.eventsInsert.isNone
  | .eventsPatch .. => !env.eventsPatch
  | .eventsPatchAttendees .. => !env.eventsPatch
  | .eventsDelete .. => !env.eventsDelete
  | _ => false

/-- The cursors (`syncToken`) of the `events.list` requests among the given requests. -/
def listCursors : List ProviderCall → List (Option String)
  | [] => []
  | .eventsList _ _ syncToken :: rest => syncToken :: listCursors rest
  | _ :: rest => listCursors rest

/-- The credentials of the `events.list` requests among the given requests. -/
def listCredentials : List ProviderCall → List Credentials
  | [] => []
  | .eventsList credentials _ _ :: rest => credentials :: listCredentials rest
  | _ :: rest => listCredentials rest

/-- Two runs in a row in the same environment, that is with the same fetch result: the
outcomes of the first and of the second run. -/
def syncTwice (env : Env) (fuel : Nat) (w : World) (accountId : Nat) (userId : String) :
    Option (Outcome World × Outcome World) :=
  match syncRun env fuel 0 w accountId userId with
  | none => none
  | some o1 => (syncRun env fuel 0 o1.state accountId userId).map fun o2 => (o1, o2)

/-- The credentials a request was sent with. -/
def ProviderCall.credentials : ProviderCall → Credentials
  | .refreshAccessToken c => c
  | .eventsList c _ _ => c
  | .eventsInsert c _ _ => c
  | .eventsPatch c _ _ _ => c
  | .eventsPatchAttendees c _ _ _ => c
  | .eventsDelete c _ _ => c
  | .eventsGet c _ _ => c

/-- No two stored events share an account and a non-null `externalEventId`. -/
def World.UniqueExternal (w : World) : Prop :=
  ((w.events.filter fun e => e.externalEventId.isSome).map fun e =>
    (e.externalCalendarAccountId, e.externalEventId)).Nodup

instance (w : World) : Decidable w.UniqueExternal :=
  inferInstanceAs (Decidable (List.Nodup _))

/-! ## Example data -/

/-- An environment in which every provider call throws; a non-empty date text is a
valid date that renders as itself. -/
def exEnv : Env :=
  { now := 1700000000000
    timeZone := "UTC"
    toISOString := fun s => if s = "" then none else some s
    refreshAccessToken := none
    eventsList := fun _ => none
    eventsInsert := none
    eventsPatch := false
    eventsDelete := false
    eventsGet := none }

/-- A Google account of user `u1` whose token has not expired. -/
def exAccount : ExternalCalendarAccount :=
  { _id := 1
    userId := "u1"
    calendarType := "google"
    externalCalendarId := "primary"
    accountName := "Me"
    accountEmail := "me@x.com"
    displayColor := "#FF4285F4"
    accessToken := "dG9r"
    refreshToken := "cmVm"
    expiresAt := 1700003600000
    lastSyncToken := some "c0" }

/-- A stored event of `exAccount` with the given id, external id and attendees. -/
def exEvent (id : Nat) (externalEventId : String) (attendees : List Attendee) : Event :=
  { _id := id
    userId := "u1"
    externalCalendarAccountId := 1
    externalEventId := some externalEventId
    title := "Standup"
    description := none
    startTime := "2024-05-01T10:00:00.000Z"
    endTime := "2024-05-01T10:30:00.000Z"
    location := none
    attendees := attendees
    isAllDay := false
    sourceType := "google"
    isNewlyAccepted := false
    lastSynced := 0 }

/-- A fetched payload with the given id and attendees. -/
def exPayload (id : String) (attendees : Option (List ExtAttendee)) : ExtEvent :=
  { id := some id
    iCalUId := none
    summary := some "Standup"
    subject := none
    description := none
    bodyPreview := none
    start := some ⟨some "2024-05-01T10:00:00.000Z", none⟩
    end_ := some ⟨some "2024-05-01T10:30:00.000Z", none⟩
    location := none
    isAllDay := none
    attendees := attendees
    organizer := none }

/-- A world holding `exAccount` and the given events. -/
def exWorld (events : List Event) (nextId : Nat) : World :=
  { accounts := [exAccount]
    events := events
    nextId := nextId
    client := ⟨none, none⟩
    calls := [] }

/-- A Google-shaped attendee: `email` and `responseStatus`. -/
def exGoogleAttendee (email responseStatus : String) : ExtAttendee :=
  { emailAddress := none
    email := some email
    status := none
    responseStatus := some responseStatus
    type := none }

/-- An Outlook-shaped attendee: `emailAddress.address` and `status.response`. -/
def exOutlookAttendee (address response : String) : ExtAttendee :=
  { emailAddress := some ⟨some address⟩
    email := none
    status := some ⟨some response⟩
    responseStatus := none
    type := none }

/-- An Outlook account of user `u1` whose token expired before `exEnv.now`. -/
def exOutlookAccount : ExternalCalendarAccount :=
  { _id := 2
    userId := "u1"
    calendarType := "outlook"
    externalCalendarId := "cal-2"
    accountName := "Work"
    accountEmail := "me@work.com"
    displayColor := "#FF0078D4"
    accessToken := "b2xk"
    refreshToken := "cmVm"
    expiresAt := 1600000000000
    lastSyncToken := none }

/-- A stored event of `exOutlookAccount`. -/
def exOutlookEvent : Event :=
  { exEvent 1 "O1" [] with externalCalendarAccountId := 2, sourceType := "outlook" }

/-- A custom event owned by user `u2`, with user `u1` among its attendees. -/
def exForeignEvent : Event :=
  { _id := 1
    userId := "u2"
    externalCalendarAccountId := 7
    externalEventId := none
    title := "Review"
    description := none
    startTime := "2024-05-02T09:00:00.000Z"
    endTime := "2024-05-02T10:00:00.000Z"
    location := none
    attendees := [⟨"u1", "pending", false⟩]
    isAllDay := false
    sourceType := "custom"
    isNewlyAccepted := false
    lastSynced := 0 }

/-- The environment `exEnv` with an `events.get` that answers (the provider's copy has no
attendee list); every write still throws. -/
def exEnvGet : Env :=
  { exEnv with eventsGet := some none }

/-- A world with `exAccount` and one Google event of user `u1`, who is an attendee. -/
def exOwnWorld : World :=
  exWorld [exEvent 1 "E1" [⟨"u1", "pending", false⟩]] 2

/-- A request body creating a Google event for user `u` on account 1. -/
def exCreateBody (u : String) : CreateEventBody :=
  { title := some "Lunch"
    description := none
    startTime := some "2024-05-03T12:00:00.000Z"
    endTime := some "2024-05-03T13:00:00.000Z"
    location := none
    attendees := some []
    isAllDay := none
    sourceType := some "google"
    externalCalendarAccountId := some 1
    userId := some u }

/-- A request body updating an event. -/
def exUpdateBody : UpdateEventBody :=
  { title := some "Lunch"
    description := none
    startTime := some "2024-05-03T12:00:00.000Z"
    endTime := some "2024-05-03T13:00:00.000Z"
    location := none
    attendees := some []
    isAllDay := none }

/-- The Google account `exAccount` with a token that expired before `exEnv.now`. -/
def exExpiredAccount : ExternalCalendarAccount :=
  { exAccount with expiresAt := 1600000000000 }

/-- A world holding only `exExpiredAccount`. -/
def exExpiredWorld : World :=
  { accounts := [exExpiredAccount], events := [], nextId := 1, client := ⟨none, none⟩,
    calls := [] }

/-- The environment `exEnv` with a provider that refreshes the token for one hour and
answers `events.list` with status 200 and an empty list. -/
def exEnvRefresh : Env :=
  { exEnv with
    refreshAccessToken := some ⟨some "new-token", none, some 3600⟩
    eventsList := fun _ => some ⟨200, some [], some "c1"⟩ }

/-- The environment `exEnv` with a provider that answers every `events.list` request
with status 200 and the given payloads. -/
def exEnvFetch (items : List ExtEvent) : Env :=
  { exEnv with eventsList := fun _ => some ⟨200, some items, none⟩ }

/-- The environment `exEnv` with a provider that accepts `events.insert` and returns the
id `G1`. -/
def exEnvInsert : Env :=
  { exEnv with eventsInsert := some (some "G1") }

/-- The world `exExpiredWorld` with one Google event of user `u1`, who is an attendee. -/
def exExpiredOwnWorld : World :=
  { exExpiredWorld with events := [exEvent 1 "E1" [⟨"u1", "pending", false⟩]], nextId := 2 }

/-- The environment `exEnv` with a provider that accepts every write; `events.get`
answers with the attendee `u1`. -/
def exEnvWrites : Env :=
  { exEnv with
    eventsInsert := some (some "G1")
    eventsPatch := true
    eventsDelete := true
    eventsGet := some (some [⟨some "u1", some "needsAction"⟩]) }

/-- The environment `exEnv` with a provider that answers `events.list` with status 200,
a new cursor `c1` and one payload that has no `start`. -/
def exEnvBrokenFetch : Env :=
  { exEnv with
    eventsList := fun _ =>
      some ⟨200, some [{ exPayload "E1" none with start := none }], some "c1"⟩ }

/-- A second Google account of user `u1`, with a token that has not expired. -/
def exSecondAccount : ExternalCalendarAccount :=
  { exAccount with _id := 3, externalCalendarId := "second", accountEmail := "second@x.com" }

/-- A world with two Google accounts: the token of the first one has expired. -/
def exTwoAccountsWorld : World :=
  { accounts := [exExpiredAccount, exSecondAccount], events := [], nextId := 1,
    client := ⟨none, none⟩, calls := [] }

/-- The answers during a tick: for account 1 every provider call throws, for the other
accounts `events.list` answers with status 200 and an empty list. -/
def exEnvOf (id : Nat) : Env :=
  if id = 1 then exEnv else exEnvFetch []

/-- The environment `exEnv` with a provider whose HTTP answer to the first `events.list`
request is status 410 (the cursor is gone) and to every later one status 200 with an
empty list and the cursor `c1`; the code sees these answers through `eventsListCall`. -/
def exEnvHttpGone : Env :=
  { exEnv with
    eventsList := fun i =>
      eventsListCall (if i = 0 then some ⟨410, none, none⟩ else some ⟨200, some [], some "c1"⟩) }

/-- The environment `exEnv` with a provider that grants the refresh the way
`google-auth-library` reports it: the credentials carry the new `access_token`, a new
`refresh_token` and an `expiry_date`, and no `expires_in`, the field line 314 reads.
`events.list` would be answered with status 200 and an empty list. -/
def exEnvGranted : Env :=
  { exEnv with
    refreshAccessToken := some ⟨some "new-token", some "new-refresh", none⟩
    eventsList := fun _ => some ⟨200, some [], some "c1"⟩ }

/-! ## The partition of the fetched list -/

theorem partitionStep_eventsToUpdate (existing : List (Option String)) (p : Partition)
    (x : ExtEvent) :
    (partitionStep existing p x).eventsToUpdate =
      p.eventsToUpdate ++
        [x].filter fun y => truthy (eventIdOf y) && existing.contains (eventIdOf y) := by
  unfold partitionStep
  by_cases h1 : truthy (eventIdOf x) <;> by_cases h2 : eventIdOf x ∈ existing <;>
    simp [h1, h2]

theorem partitionStep_eventsToCreate (existing : List (Option String)) (p : Partition)
    (x : ExtEvent) :
    (partitionStep existing p x).eventsToCreate =
      p.eventsToCreate ++
        [x].filter fun y => truthy (eventIdOf y) && !existing.contains (eventIdOf y) := by
  unfold partitionStep
  by_cases h1 : truthy (eventIdOf x) <;> by_cases h2 : eventIdOf x ∈ existing <;>
    simp [h1, h2]

theorem partitionStep_eventsToDeleteIds (existing : List (Option String)) (p : Partition)
    (x : ExtEvent) (hnd : p.eventsToDeleteIds.Nodup) :
    (partitionStep existing p x).eventsToDeleteIds =
      p.eventsToDeleteIds.filter fun i =>
        !(truthy (eventIdOf x) && existing.contains (eventIdOf x) && eventIdOf x == i) := by
  unfold partitionStep
  by_cases h1 : truthy (eventIdOf x) <;> by_cases h2 : eventIdOf x ∈ existing
  · have h3 : existing.contains (eventIdOf x) = true := by simpa using h2
    simp only [h1, h3, Bool.not_true, Bool.false_eq_true, if_false, if_true, Bool.true_and]
    rw [hnd.erase_eq_filter]
    apply List.filter_congr
    intro i _
    rw [bne, BEq.comm]
  · simp [h1, h2]
  · simp [h1, h2]
  · simp [h1, h2]

theorem partitionStep_nodup (existing : List (Option String)) (p : Partition)
    (x : ExtEvent) (hnd : p.eventsToDeleteIds.Nodup) :
    (partitionStep existing p x).eventsToDeleteIds.Nodup := by
  rw [partitionStep_eventsToDeleteIds existing p x hnd]
  exact hnd.filter _

theorem foldl_partitionStep (existing : List (Option String)) (F : List ExtEvent) :
    ∀ p : Partition, p.eventsToDeleteIds.Nodup →
      (F.foldl (partitionStep existing) p).eventsToUpdate =
          p.eventsToUpdate ++
            F.filter (fun y => truthy (eventIdOf y) && existing.contains (eventIdOf y)) ∧
        (F.foldl (partitionStep existing) p).eventsToCreate =
          p.eventsToCreate ++
            F.filter (fun y => truthy (eventIdOf y) && !existing.contains (eventIdOf y)) ∧
        (F.foldl (partitionStep existing) p).eventsToDeleteIds =
          p.eventsToDeleteIds.filter fun i =>
            !(F.any fun x =>
              truthy (eventIdOf x) && existing.contains (eventIdOf x) && eventIdOf x == i) := by
  induction F with
  | nil => intro p _; simp
  | cons x rest ih =>
    intro p hnd
    have h := ih (partitionStep existing p x) (partitionStep_nodup existing p x hnd)
    simp only [List.foldl_cons]
    refine ⟨?_, ?_, ?_⟩
    · rw [h.1, partitionStep_eventsToUpdate, List.append_assoc, ← List.filter_append]
      rfl
    · rw [h.2.1, partitionStep_eventsToCreate, List.append_assoc, ← List.filter_append]
      rfl
    · rw [h.2.2, partitionStep_eventsToDeleteIds existing p x hnd, List.filter_filter]
      apply List.filter_congr
      intro i _
      simp only [List.any_cons, Bool.not_or]
      rw [Bool.and_comm]

theorem existingEventIds_nodup (w : World) (accountId : Nat) :
    (existingEventIds w accountId).Nodup := by
  unfold existingEventIds
  exact List.nodup_dedup _

theorem mem_existingEventIds (w : World) (accountId : Nat) (i : Option String) :
    i ∈ existingEventIds w accountId ↔ i ∈ w.externalIds accountId := by
  unfold existingEventIds World.externalIds
  exact List.mem_dedup

theorem partitionEvents_eq (existing : List (Option String)) (F : List ExtEvent)
    (hnd : existing.Nodup) :
    (partitionEvents existing F).eventsToUpdate =
        F.filter (fun y => truthy (eventIdOf y) && existing.contains (eventIdOf y)) ∧
      (partitionEvents existing F).eventsToCreate =
        F.filter (fun y => truthy (eventIdOf y) && !existing.contains (eventIdOf y)) ∧
      (partitionEvents existing F).eventsToDeleteIds =
        existing.filter fun i =>
          !(F.any fun x =>
            truthy (eventIdOf x) && existing.contains (eventIdOf x) && eventIdOf x == i) := by
  unfold partitionEvents
  simpa using foldl_partitionStep existing F ⟨[], [], existing⟩ hnd

/-! ## Frame and key lemmas for the store operations -/

theorem castEvent_fields {env : Env} {id : Nat} {doc : EventDoc} {e : Event}
    (h : castEvent env id doc = some e) :
    e._id = id ∧ e.userId = doc.userId ∧
      e.externalCalendarAccountId = doc.externalCalendarAccountId ∧
      e.externalEventId = doc.externalEventId ∧ e.isNewlyAccepted = doc.isNewlyAccepted := by
  unfold castEvent at h
  split at h
  · split at h
    · simp only [Option.some.injEq] at h
      subst h
      simp
    · simp at h
  · simp at h

theorem eventCreate_done {env : Env} {w w' : World} {doc : EventDoc}
    (h : eventCreate env w doc = .done w') :
    ∃ e : Event, castEvent env w.nextId doc = some e ∧ w'.events = w.events ++ [e] ∧
      w'.nextId = w.nextId + 1 ∧ w'.accounts = w.accounts ∧ w'.client = w.client ∧
      w'.calls = w.calls := by
  unfold eventCreate at h
  split at h
  · simp at h
  · rename_i e he
    simp only [Outcome.done.injEq] at h
    subst h
    exact ⟨e, he, rfl, rfl, rfl, rfl, rfl⟩

theorem eventCreate_threw {env : Env} {w w' : World} {doc : EventDoc}
    (h : eventCreate env w doc = .threw w') : w' = w := by
  unfold eventCreate at h
  split at h
  · simp only [Outcome.threw.injEq] at h
    exact h.symm
  · simp at h

theorem createEvents_done (env : Env) (account : ExternalCalendarAccount) (userId : String) :
    ∀ (F : List ExtEvent) (w w' : World), createEvents env account userId w F = .done w' →
      ∃ new : List Event,
        w'.events = w.events ++ new ∧ new.map (·.externalEventId) = F.map eventIdOf ∧
          (∀ e ∈ new, e.externalCalendarAccountId = account._id) ∧
          new.map (·._id) = List.range' w.nextId F.length ∧
          w'.nextId = w.nextId + F.length ∧ w'.accounts = w.accounts ∧
          w'.client = w.client ∧ w'.calls = w.calls := by
  intro F
  induction F with
  | nil =>
    intro w w' h
    simp only [createEvents, Outcome.done.injEq] at h
    subst h
    exact ⟨[], by simp⟩
  | cons x rest ih =>
    intro w w' h
    simp only [createEvents] at h
    split at h
    · simp at h
    · rename_i doc hdoc
      split at h
      · simp at h
      · rename_i w1 hw1
        obtain ⟨e, he, hev, hid, hacc, hcl, hcalls⟩ := eventCreate_done hw1
        obtain ⟨new, h1, h2, h3, h4, h5, h6, h7, h8⟩ := ih w1 w' h
        have hf := castEvent_fields he
        have hd : doc.externalCalendarAccountId = account._id ∧
            doc.externalEventId = eventIdOf x := by
          unfold createDoc at hdoc
          split at hdoc
          · simp only [Option.some.injEq] at hdoc
            subst hdoc
            exact ⟨rfl, rfl⟩
          · simp at hdoc
        refine ⟨e :: new, ?_, ?_, ?_, ?_, ?_, ?_, ?_, ?_⟩
        · rw [h1, hev]; simp
        · simp [h2, hf.2.2.2.1, hd.2]
        · intro e' he'
          rcases List.mem_cons.1 he' with h' | h'
          · rw [h', hf.2.2.1, hd.1]
          · exact h3 e' h'
        · simp [h4, hf.1, hid, List.range'_succ]
        · rw [h5, hid]; simp; omega
        · rw [h6, hacc]
        · rw [h7, hcl]
        · rw [h8, hcalls]

theorem createEvents_frame (env : Env) (account : ExternalCalendarAccount) (userId : String) :
    ∀ (F : List ExtEvent) (w : World),
      (createEvents env account userId w F).state.accounts = w.accounts ∧
        (createEvents env account userId w F).state.client = w.client ∧
        (createEvents env account userId w F).state.calls = w.calls := by
  intro F
  induction F with
  | nil => intro w; simp [createEvents, Outcome.state]
  | cons x rest ih =>
    intro w
    simp only [createEvents]
    split
    · simp [Outcome.state]
    · rename_i doc hdoc
      split
      · rename_i w1 hw1
        rw [eventCreate_threw hw1]
        simp [Outcome.state]
      · rename_i w1 hw1
        obtain ⟨e, _, _, _, hacc, hcl, hcalls⟩ := eventCreate_done hw1
        have h := ih w1
        rw [hacc, hcl, hcalls] at h
        exact h

theorem eventSave_state (env : Env) (w : World) (id : Nat) (doc : EventDoc) :
    (eventSave env w id doc).state = w ∨
      ∃ e : Event, castEvent env id doc = some e ∧
        eventSave env w id doc =
          .done { w with events := w.events.map fun x => if x._id = id then e else x } := by
  unfold eventSave
  split
  · left; rfl
  · rename_i e he
    right
    exact ⟨e, he, rfl⟩

theorem eventFindOne_some {w : World} {accountId : Nat} {i : Option String} {e : Event}
    (h : eventFindOne w accountId i = some e) :
    e ∈ w.events ∧ e.externalCalendarAccountId = accountId ∧ e.externalEventId = i := by
  unfold eventFindOne at h
  have h1 := List.mem_of_find?_eq_some h
  have h2 := List.find?_some h
  simp only [Bool.and_eq_true, beq_iff_eq] at h2
  exact ⟨h1, h2.1, h2.2⟩

theorem updateDoc_fields {env : Env} {account : ExternalCalendarAccount} {e0 : Event}
    {x : ExtEvent} {doc : EventDoc} (h : updateDoc env account e0 x = some doc) :
    doc.userId = e0.userId ∧ doc.externalCalendarAccountId = e0.externalCalendarAccountId ∧
      doc.externalEventId = e0.externalEventId ∧
      doc.isNewlyAccepted =
        (currentUserResponseStatus account e0 == some "pending" &&
          newCurrentUserResponseStatus account x == "accepted") := by
  unfold updateDoc at h
  split at h
  · simp only [Option.some.injEq] at h
    subst h
    exact ⟨rfl, rfl, rfl, rfl⟩
  · simp at h

theorem map_key_replace {l : List Event} (hnd : (l.map (·._id)).Nodup) {e0 e : Event}
    (h0 : e0 ∈ l) (hk : e.key = e0.key) :
    (l.map fun x => if x._id = e0._id then e else x).map Event.key = l.map Event.key := by
  rw [List.map_map]
  apply List.map_congr_left
  intro x hx
  simp only [Function.comp]
  split
  · rename_i hid
    have : x = e0 := List.inj_on_of_nodup_map hnd hx h0 hid
    rw [hk, this]
  · rfl

theorem updateEventFromPayload_keys (env : Env) (account : ExternalCalendarAccount)
    (w : World) (x : ExtEvent) (hw : (w.events.map (·._id)).Nodup) :
    (updateEventFromPayload env account w x).state.events.map Event.key =
        w.events.map Event.key ∧
      (updateEventFromPayload env account w x).state.nextId = w.nextId ∧
      (updateEventFromPayload env account w x).state.accounts = w.accounts ∧
      (updateEventFromPayload env account w x).state.client = w.client ∧
      (updateEventFromPayload env account w x).state.calls = w.calls := by
  unfold updateEventFromPayload
  split
  · simp [Outcome.state]
  · rename_i e0 he0
    split
    · simp [Outcome.state]
    · rename_i doc hdoc
      rcases eventSave_state env w e0._id doc with h | ⟨e, he, h⟩
      · rw [h]; simp
      · rw [h]
        have hf := castEvent_fields he
        have hd := updateDoc_fields hdoc
        have hk : e.key = e0.key := by
          simp only [Event.key, hf.1, hf.2.2.1, hf.2.2.2.1, hd.2.1, hd.2.2.1]
        simp only [Outcome.state, and_true]
        exact map_key_replace hw (eventFindOne_some he0).1 hk

theorem map_id_of_map_key {l l' : List Event} (h : l'.map Event.key = l.map Event.key) :
    l'.map (·._id) = l.map (·._id) := by
  have := congrArg (List.map Prod.fst) h
  simpa [List.map_map, Function.comp, Event.key] using this

theorem updateEvents_keys (env : Env) (account : ExternalCalendarAccount) :
    ∀ (F : List ExtEvent) (w : World), (w.events.map (·._id)).Nodup →
      (updateEvents env account w F).state.events.map Event.key = w.events.map Event.key ∧
        (updateEvents env account w F).state.nextId = w.nextId ∧
        (updateEvents env account w F).state.accounts = w.accounts ∧
        (updateEvents env account w F).state.client = w.client ∧
        (updateEvents env account w F).state.calls = w.calls := by
  intro F
  induction F with
  | nil => intro w _; simp [updateEvents, Outcome.state]
  | cons x rest ih =>
    intro w hw
    have h1 := updateEventFromPayload_keys env account w x hw
    simp only [updateEvents]
    split
    · rename_i w1 hw1
      rw [hw1] at h1
      exact h1
    · rename_i w1 hw1
      rw [hw1] at h1
      simp only [Outcome.state] at h1
      have hw1' : (w1.events.map (·._id)).Nodup := by
        rw [map_id_of_map_key h1.1]; exact hw
      have h2 := ih w1 hw1'
      rw [h1.1, h1.2.1, h1.2.2.1, h1.2.2.2.1, h1.2.2.2.2] at h2
      exact h2

theorem eventDeleteMany_nil (w : World) (accountId : Nat) :
    eventDeleteMany w accountId [] = w := by
  simp [eventDeleteMany]

theorem deleteStep_eq (w : World) (accountId : Nat) (ids : List (Option String)) :
    (if ids.length > 0 then eventDeleteMany w accountId ids else w) =
      eventDeleteMany w accountId ids := by
  cases ids with
  | nil => simp [eventDeleteMany_nil]
  | cons a l => simp

theorem externalIds_eq_of_keys {w w' : World} (accountId : Nat)
    (h : w'.events.map Event.key = w.events.map Event.key) :
    w'.externalIds accountId = w.externalIds accountId := by
  have hk : ∀ v : World, v.externalIds accountId =
      ((v.events.map Event.key).filter fun k => k.2.1 == accountId).map fun k => k.2.2 := by
    intro v
    simp only [World.externalIds, List.filter_map, List.map_map]
    rfl
  rw [hk, hk, h]

theorem mem_externalIds {w : World} {accountId : Nat} {i : Option String} :
    i ∈ w.externalIds accountId ↔
      ∃ e ∈ w.events, e.externalCalendarAccountId = accountId ∧ e.externalEventId = i := by
  simp [World.externalIds, and_assoc]

theorem KeysOk_eventDeleteMany {w : World} (hw : w.KeysOk) (accountId : Nat)
    (ids : List (Option String)) : (eventDeleteMany w accountId ids).KeysOk := by
  constructor
  · exact hw.1.sublist (List.Sublist.map _ (List.filter_sublist _))
  · intro e he
    exact hw.2 e (List.mem_of_mem_filter he)

theorem KeysOk_append_range {w w' : World} (hw : w.KeysOk) {new : List Event} {n : Nat}
    (hev : w'.events = w.events ++ new) (hid : new.map (·._id) = List.range' w.nextId n)
    (hn : w'.nextId = w.nextId + n) : w'.KeysOk := by
  have hmem : ∀ e ∈ new, w.nextId ≤ e._id ∧ e._id < w.nextId + n := by
    intro e he
    have : e._id ∈ new.map (·._id) := List.mem_map_of_mem _ he
    rw [hid, List.mem_range'_1] at this
    exact this
  constructor
  · rw [hev, List.map_append, List.nodup_append]
    refine ⟨hw.1, ?_, ?_⟩
    · rw [hid]; exact List.nodup_range' _ _
    · intro a ha hb
      obtain ⟨e, he, rfl⟩ := List.mem_map.1 ha
      obtain ⟨e', he', heq⟩ := List.mem_map.1 hb
      have h1 := hw.2 e he
      have h2 := (hmem e' he').1
      omega
  · intro e he
    rw [hev, List.mem_append] at he
    rw [hn]
    rcases he with he | he
    · have := hw.2 e he; omega
    · exact (hmem e he).2

theorem KeysOk_of_keys {w w' : World} (hw : w.KeysOk)
    (hk : w'.events.map Event.key = w.events.map Event.key) (hn : w'.nextId = w.nextId) :
    w'.KeysOk := by
  have hid := map_id_of_map_key hk
  constructor
  · rw [hid]; exact hw.1
  · intro e he
    have : e._id ∈ w.events.map (·._id) := by
      rw [← hid]; exact List.mem_map_of_mem _ he
    obtain ⟨e', he', heq⟩ := List.mem_map.1 this
    rw [hn, ← heq]
    exact hw.2 e' he'

/-- The reconciliation that ends normally leaves for the account exactly the ids of the
fetched payloads, keeps the key discipline and touches nothing but the events. -/
theorem reconcile_done {env : Env} {w w' : World} {account : ExternalCalendarAccount}
    {userId : String} {F : List ExtEvent} (hw : w.KeysOk)
    (h : reconcile env w account userId F = .done w') :
    (∀ i, i ∈ w'.externalIds account._id ↔
        ∃ x ∈ F, truthy (eventIdOf x) = true ∧ eventIdOf x = i) ∧
      w'.KeysOk ∧ w'.accounts = w.accounts ∧ w'.client = w.client ∧ w'.calls = w.calls := by
  unfold reconcile at h
  simp only [deleteStep_eq] at h
  have hp := partitionEvents_eq (existingEventIds w account._id) F
    (existingEventIds_nodup w account._id)
  generalize partitionEvents (existingEventIds w account._id) F = p at h hp
  obtain ⟨hpu, hpc, hpd⟩ := hp
  split at h
  · simp at h
  · rename_i w2 hw2
    obtain ⟨new, h1, h2, h3, h4, h5, h6, h7, h8⟩ :=
      createEvents_done env account userId _ _ _ hw2
    have hk1 : (eventDeleteMany w account._id p.eventsToDeleteIds).KeysOk :=
      KeysOk_eventDeleteMany hw _ _
    have hk2 : w2.KeysOk := KeysOk_append_range hk1 h1 h4 h5
    have hu := updateEvents_keys env account p.eventsToUpdate w2 hk2.1
    rw [h] at hu
    simp only [Outcome.state] at hu
    refine ⟨?_, KeysOk_of_keys hk2 hu.1 hu.2.1, ?_, ?_, ?_⟩
    · intro i
      rw [externalIds_eq_of_keys account._id hu.1, mem_externalIds]
      constructor
      · rintro ⟨e, he, hacc, hid⟩
        rw [h1, List.mem_append] at he
        rcases he with he | he
        · -- an event that survived the delete
          simp only [eventDeleteMany, List.mem_filter, Bool.not_eq_true', Bool.and_eq_false_imp,
            beq_iff_eq] at he
          have hnot := he.2 hacc
          have hex : e.externalEventId ∈ existingEventIds w account._id := by
            rw [mem_existingEventIds, mem_externalIds]
            exact ⟨e, he.1, hacc, rfl⟩
          have : ¬ e.externalEventId ∈ p.eventsToDeleteIds := by
            simpa using hnot
          rw [hpd] at this
          simp only [List.mem_filter, hex, true_and, Bool.not_eq_true', Bool.not_eq_false,
            List.any_eq_true, Bool.and_eq_true, beq_iff_eq] at this
          obtain ⟨x, hx, ⟨⟨ht, _⟩, hxe⟩⟩ := this
          exact ⟨x, hx, ht, hxe.trans hid⟩
        · have : e.externalEventId ∈ new.map (·.externalEventId) := List.mem_map_of_mem _ he
          rw [h2, hpc] at this
          obtain ⟨x, hx, hxe⟩ := List.mem_map.1 this
          simp only [List.mem_filter, Bool.and_eq_true] at hx
          exact ⟨x, hx.1, hx.2.1, hxe.trans hid⟩
      · rintro ⟨x, hx, ht, hxe⟩
        by_cases hex : eventIdOf x ∈ existingEventIds w account._id
        · rw [mem_existingEventIds, mem_externalIds] at hex
          obtain ⟨e, he, hacc, hid⟩ := hex
          refine ⟨e, ?_, hacc, hid.trans hxe⟩
          rw [h1, List.mem_append]
          left
          simp only [eventDeleteMany, List.mem_filter, he, true_and, Bool.not_eq_true',
            Bool.and_eq_false_imp, beq_iff_eq]
          intro _
          have hnot : ¬ e.externalEventId ∈ p.eventsToDeleteIds := by
            rw [hpd]
            simp only [List.mem_filter, Bool.not_eq_true', Bool.not_eq_false, not_and,
              List.any_eq_true, Bool.and_eq_true, beq_iff_eq]
            intro _
            refine ⟨x, hx, ⟨ht, ?_⟩, hid.symm⟩
            simp only [List.contains_eq_any_beq, List.any_eq_true, beq_iff_eq]
            refine ⟨eventIdOf x, ?_, rfl⟩
            rw [mem_existingEventIds, mem_externalIds]
            exact ⟨e, he, hacc, hid⟩
          simpa using hnot
        · have hmem : x ∈ p.eventsToCreate := by
            rw [hpc]
            simp only [List.mem_filter, hx, ht, true_and, Bool.and_eq_true, Bool.not_eq_true']
            simpa using hex
          have : eventIdOf x ∈ new.map (·.externalEventId) := by
            rw [h2]; exact List.mem_map_of_mem _ hmem
          obtain ⟨e, he, hid⟩ := List.mem_map.1 this
          refine ⟨e, ?_, h3 e he, hid.trans hxe⟩
          rw [h1, List.mem_append]
          right; exact he
    · rw [hu.2.2.1, h6]; rfl
    · rw [hu.2.2.2.1, h7]; rfl
    · rw [hu.2.2.2.2, h8]; rfl

theorem eventIdOf_of_truthy_id {x : ExtEvent} (h : truthy x.id = true) : eventIdOf x = x.id := by
  simp [eventIdOf, jsOr, h]

/-! ## Frame lemmas for the reconciliation -/

theorem updateEventFromPayload_frame (env : Env) (account : ExternalCalendarAccount)
    (w : World) (x : ExtEvent) :
    (updateEventFromPayload env account w x).state.nextId = w.nextId ∧
      (updateEventFromPayload env account w x).state.accounts = w.accounts ∧
      (updateEventFromPayload env account w x).state.client = w.client ∧
      (updateEventFromPayload env account w x).state.calls = w.calls := by
  unfold updateEventFromPayload
  split
  · simp [Outcome.state]
  · rename_i e0 he0
    split
    · simp [Outcome.state]
    · rename_i doc hdoc
      rcases eventSave_state env w e0._id doc with h | ⟨e, _, h⟩
      · rw [h]; simp
      · rw [h]; simp [Outcome.state]

theorem updateEvents_frame (env : Env) (account : ExternalCalendarAccount) :
    ∀ (F : List ExtEvent) (w : World),
      (updateEvents env account w F).state.nextId = w.nextId ∧
        (updateEvents env account w F).state.accounts = w.accounts ∧
        (updateEvents env account w F).state.client = w.client ∧
        (updateEvents env account w F).state.calls = w.calls := by
  intro F
  induction F with
  | nil => intro w; simp [updateEvents, Outcome.state]
  | cons x rest ih =>
    intro w
    have h1 := updateEventFromPayload_frame env account w x
    simp only [updateEvents]
    split
    · rename_i w1 hw1
      rw [hw1] at h1
      exact h1
    · rename_i w1 hw1
      rw [hw1] at h1
      simp only [Outcome.state] at h1
      have h2 := ih w1
      rw [h1.1, h1.2.1, h1.2.2.1, h1.2.2.2] at h2
      exact h2

theorem reconcile_frame (env : Env) (w : World) (account : ExternalCalendarAccount)
    (userId : String) (F : List ExtEvent) :
    (reconcile env w account userId F).state.accounts = w.accounts ∧
      (reconcile env w account userId F).state.client = w.client ∧
      (reconcile env w account userId F).state.calls = w.calls := by
  unfold reconcile
  simp only [deleteStep_eq]
  generalize partitionEvents (existingEventIds w account._id) F = p
  have hc := createEvents_frame env account userId p.eventsToCreate
    (eventDeleteMany w account._id p.eventsToDeleteIds)
  split
  · rename_i w2 hw2
    rw [hw2] at hc
    exact hc
  · rename_i w2 hw2
    rw [hw2] at hc
    simp only [Outcome.state] at hc
    have hu := updateEvents_frame env account p.eventsToUpdate w2
    rw [hu.2.1, hu.2.2.1, hu.2.2.2, hc.1, hc.2.1, hc.2.2]
    exact ⟨rfl, rfl, rfl⟩

/-! ## The account store -/

theorem accountFindById_some {w : World} {id : Nat} {a : ExternalCalendarAccount}
    (h : accountFindById w id = some a) : a._id = id ∧ a ∈ w.accounts := by
  unfold accountFindById at h
  have h2 := List.find?_some h
  simp only [beq_iff_eq] at h2
  exact ⟨h2, List.mem_of_find?_eq_some h⟩

theorem find_map_replace_account {l : List ExternalCalendarAccount}
    {a0 a : ExternalCalendarAccount} (h0 : a0 ∈ l) (h : a0._id = a._id) :
    (l.map fun x => if x._id = a._id then a else x).find? (fun x => x._id == a._id) =
      some a := by
  induction l with
  | nil => simp at h0
  | cons b rest ih =>
    simp only [List.map_cons, List.find?_cons]
    by_cases hb : b._id = a._id
    · simp [hb]
    · have h1 : a0 ∈ rest := by
        rcases List.mem_cons.1 h0 with h' | h'
        · exact absurd (by rw [← h', h]) hb
        · exact h'
      have hb' : (b._id == a._id) = false := by simpa using hb
      simp [hb, hb', ih h1]

theorem accountFindById_accountSave {w : World} {id : Nat} {b a : ExternalCalendarAccount}
    (h0 : accountFindById w id = some b) (h : a._id = id) :
    accountFindById (accountSave w a) id = some a := by
  obtain ⟨h1, h2⟩ := accountFindById_some h0
  unfold accountFindById accountSave
  subst h
  exact find_map_replace_account h2 h1

theorem accountFindById_congr {w w' : World} (h : w'.accounts = w.accounts) (id : Nat) :
    accountFindById w' id = accountFindById w id := by
  unfold accountFindById
  rw [h]

/-! ## The token check -/

theorem listCursors_append (l l' : List ProviderCall) :
    listCursors (l ++ l') = listCursors l ++ listCursors l' := by
  induction l with
  | nil => simp [listCursors]
  | cons c rest ih => cases c <;> simp [listCursors, ih]

theorem listCredentials_append (l l' : List ProviderCall) :
    listCredentials (l ++ l') = listCredentials l ++ listCredentials l' := by
  induction l with
  | nil => simp [listCredentials]
  | cons c rest ih => cases c <;> simp [listCredentials, ih]

theorem refreshStep_fresh {env : Env} {w : World} {account : ExternalCalendarAccount}
    (h : env.now < account.expiresAt) : refreshStep env w account = .done (w, account) := by
  unfold refreshStep
  have : ¬ account.expiresAt ≤ env.now := by omega
  simp [this]

theorem refreshStep_other {env : Env} {w : World} {account : ExternalCalendarAccount}
    (h : account.calendarType ≠ "google") : refreshStep env w account = .done (w, account) := by
  unfold refreshStep
  split <;> simp [h]

theorem refreshStep_refreshed {env : Env} {w : World} {account : ExternalCalendarAccount}
    {c : RefreshedCredentials} {e : Int} (hexp : account.expiresAt ≤ env.now)
    (hg : account.calendarType = "google") (hc : env.refreshAccessToken = some c)
    (he : c.expires_in = some e) :
    refreshStep env w account =
      .done
        (setCredentials
            (accountSave
              ((setCredentials w ⟨none, some (decrypt account.refreshToken)⟩).send
                ProviderCall.refreshAccessToken)
              { account with
                accessToken := encrypt c.access_token
                refreshToken :=
                  encrypt (jsOr c.refresh_token (some (decrypt account.refreshToken)))
                expiresAt := env.now + e * 1000 })
            ⟨c.access_token, none⟩,
          { account with
            accessToken := encrypt c.access_token
            refreshToken := encrypt (jsOr c.refresh_token (some (decrypt account.refreshToken)))
            expiresAt := env.now + e * 1000 }) := by
  unfold refreshStep
  simp [hexp, hg, hc, he]

theorem refreshStep_failed {env : Env} {w : World} {account : ExternalCalendarAccount}
    (hexp : account.expiresAt ≤ env.now) (hg : account.calendarType = "google")
    (hc : env.refreshAccessToken = none ∨
      ∃ c, env.refreshAccessToken = some c ∧ c.expires_in = none) :
    refreshStep env w account =
      .threw
        ((setCredentials w ⟨none, some (decrypt account.refreshToken)⟩).send
          ProviderCall.refreshAccessToken, account) := by
  unfold refreshStep
  rcases hc with hc | ⟨c, hc, he⟩
  · simp [hexp, hg, hc]
  · simp [hexp, hg, hc, he]

/-- What the token check leaves when it ends normally. -/
theorem refreshStep_done {env : Env} {w w1 : World} {account account1 : ExternalCalendarAccount}
    (h : refreshStep env w account = .done (w1, account1)) :
    account1._id = account._id ∧ account1.calendarType = account.calendarType ∧
      account1.lastSyncToken = account.lastSyncToken ∧
      account1.externalCalendarId = account.externalCalendarId ∧
      account1.userId = account.userId ∧
      w1.events = w.events ∧ w1.nextId = w.nextId ∧
      listCursors w1.calls = listCursors w.calls ∧
      listCredentials w1.calls = listCredentials w.calls ∧
      (accountFindById w account._id = some account →
        accountFindById w1 account._id = some account1) ∧
      (env.now < account.expiresAt → env.now < account1.expiresAt) := by
  unfold refreshStep at h
  split at h
  · split at h
    · split at h
      · simp at h
      · split at h
        · simp at h
        · simp only [Outcome.done.injEq, Prod.mk.injEq] at h
          obtain ⟨hw, ha⟩ := h
          subst ha
          subst hw
          refine ⟨rfl, rfl, rfl, rfl, rfl, rfl, rfl, ?_, ?_, ?_, ?_⟩
          · simp [setCredentials, accountSave, World.send, listCursors_append, listCursors]
          · simp [setCredentials, accountSave, World.send, listCredentials_append,
              listCredentials]
          · intro hf
            show accountFindById (accountSave _ _) _ = _
            exact accountFindById_accountSave (b := account)
              (by rw [accountFindById_congr (w := w)]; exact hf; rfl) rfl
          · intro hlt
            omega
    · simp only [Outcome.done.injEq, Prod.mk.injEq] at h
      obtain ⟨hw, ha⟩ := h
      subst ha; subst hw
      simp
  · simp only [Outcome.done.injEq, Prod.mk.injEq] at h
    obtain ⟨hw, ha⟩ := h
    subst ha; subst hw
    simp

theorem refreshStep_frame (env : Env) (w : World) (account : ExternalCalendarAccount) :
    (refreshStep env w account).state.1.events = w.events ∧
      (refreshStep env w account).state.1.nextId = w.nextId := by
  unfold refreshStep
  split
  · split
    · split
      · exact ⟨rfl, rfl⟩
      · split
        · exact ⟨rfl, rfl⟩
        · exact ⟨rfl, rfl⟩
    · exact ⟨rfl, rfl⟩
  · exact ⟨rfl, rfl⟩

/-- A reconciliation against a fetched list whose ids are exactly the ids stored for the
account creates nothing and deletes nothing: the stored events keep their keys. -/
theorem reconcile_synced (env : Env) (w : World) (account : ExternalCalendarAccount)
    (userId : String) (F : List ExtEvent) (hw : (w.events.map (·._id)).Nodup)
    (h : ∀ i, i ∈ w.externalIds account._id ↔
      ∃ x ∈ F, truthy (eventIdOf x) = true ∧ eventIdOf x = i) :
    (reconcile env w account userId F).state.events.map Event.key = w.events.map Event.key := by
  unfold reconcile
  simp only [deleteStep_eq]
  have hp := partitionEvents_eq (existingEventIds w account._id) F
    (existingEventIds_nodup w account._id)
  generalize partitionEvents (existingEventIds w account._id) F = p at hp
  obtain ⟨_, hpc, hpd⟩ := hp
  have hc : p.eventsToCreate = [] := by
    rw [hpc, List.filter_eq_nil_iff]
    intro x hx
    simp only [Bool.and_eq_true, Bool.not_eq_true', not_and, Bool.not_eq_false]
    intro ht
    simp only [List.contains_eq_any_beq, List.any_eq_true, beq_iff_eq]
    exact ⟨eventIdOf x, (mem_existingEventIds _ _ _).2 ((h _).2 ⟨x, hx, ht, rfl⟩), rfl⟩
  have hd : p.eventsToDeleteIds = [] := by
    rw [hpd, List.filter_eq_nil_iff]
    intro i hi
    simp only [Bool.not_eq_true', Bool.not_eq_false, List.any_eq_true, Bool.and_eq_true,
      beq_iff_eq]
    obtain ⟨x, hx, ht, hxe⟩ := (h i).1 ((mem_existingEventIds _ _ _).1 hi)
    refine ⟨x, hx, ⟨ht, ?_⟩, hxe⟩
    simp only [List.contains_eq_any_beq, List.any_eq_true, beq_iff_eq]
    exact ⟨i, hi, hxe⟩
  rw [hc, hd, eventDeleteMany_nil]
  simp only [createEvents]
  exact (updateEvents_keys env account p.eventsToUpdate w hw).1

theorem externalIds_congr {w w' : World} (h : w'.events = w.events) (id : Nat) :
    w'.externalIds id = w.externalIds id := by
  unfold World.externalIds
  rw [h]

/-- The part of `syncRun` that follows the token check. -/
theorem syncRun_succ (env : Env) (fuel k : Nat) (w : World) (accountId : Nat) (userId : String)
    (account : ExternalCalendarAccount) (hf : accountFindById w accountId = some account) :
    syncRun env (fuel + 1) k w accountId userId =
      match refreshStep env w account with
      | .threw (w1, _) => some (.threw w1)
      | .done (w1, account1) =>
        if account1.calendarType = "google" then
          match env.eventsList k with
          | none =>
            some (.threw (w1.send fun c =>
              ProviderCall.eventsList c account1.externalCalendarId account1.lastSyncToken))
          | some response =>
            if response.status = 410 then
              syncRun env fuel (k + 1)
                (accountSave (w1.send fun c =>
                  ProviderCall.eventsList c account1.externalCalendarId account1.lastSyncToken)
                  { account1 with lastSyncToken := none }) accountId userId
            else
              some (reconcile env
                (accountSave (w1.send fun c =>
                  ProviderCall.eventsList c account1.externalCalendarId account1.lastSyncToken)
                  { account1 with
                    lastSyncToken := jsOr response.nextSyncToken account1.lastSyncToken })
                { account1 with
                  lastSyncToken := jsOr response.nextSyncToken account1.lastSyncToken }
                userId (response.items.getD []))
        else if account1.calendarType = "apple" then some (.done w1)
        else some (reconcile env w1 account1 userId []) := by
  simp only [syncRun, hf]

/-- The second run up to the token check: either the check throws, leaving the events as
they were, or the run goes on from a world with the same events. -/
theorem second_run_step (env : Env) (fuel k : Nat) (accountId : Nat) (userId : String)
    (W : World) (A : ExternalCalendarAccount) (keys : List (Nat × Nat × Option String))
    (hfA : accountFindById W accountId = some A) (hev : W.events.map Event.key = keys)
    (hnext : ∀ (Wr : World) (A1 : ExternalCalendarAccount), Wr.events = W.events →
      Wr.nextId = W.nextId → A1._id = accountId → A1.calendarType = A.calendarType →
      accountFindById Wr accountId = some A1 →
      ∃ o2,
        (if A1.calendarType = "google" then
            match env.eventsList k with
            | none =>
              some (.threw (Wr.send fun c =>
                ProviderCall.eventsList c A1.externalCalendarId A1.lastSyncToken))
            | some response =>
              if response.status = 410 then
                syncRun env fuel (k + 1)
                  (accountSave (Wr.send fun c =>
                    ProviderCall.eventsList c A1.externalCalendarId A1.lastSyncToken)
                    { A1 with lastSyncToken := none }) accountId userId
              else
                some (reconcile env
                  (accountSave (Wr.send fun c =>
                    ProviderCall.eventsList c A1.externalCalendarId A1.lastSyncToken)
                    { A1 with lastSyncToken := jsOr response.nextSyncToken A1.lastSyncToken })
                  { A1 with lastSyncToken := jsOr response.nextSyncToken A1.lastSyncToken }
                  userId (response.items.getD []))
          else if A1.calendarType = "apple" then some (.done Wr)
          else some (reconcile env Wr A1 userId [])) = some o2 ∧
        o2.state.events.map Event.key = keys) :
    ∃ o2, syncRun env (fuel + 1) k W accountId userId = some o2 ∧
      o2.state.events.map Event.key = keys := by
  rw [syncRun_succ env fuel k W accountId userId A hfA]
  have hidA := (accountFindById_some hfA).1
  have hfrm := refreshStep_frame env W A
  cases hrsW : refreshStep env W A with
  | threw s =>
    obtain ⟨W1, A1⟩ := s
    rw [hrsW] at hfrm
    simp only [Outcome.state] at hfrm
    exact ⟨.threw W1, rfl, by simp [Outcome.state, hfrm.1, hev]⟩
  | done s =>
    obtain ⟨W1, A1⟩ := s
    have hdW := refreshStep_done hrsW
    exact hnext W1 A1 hdW.2.2.2.2.2.1 hdW.2.2.2.2.2.2.1 (by rw [hdW.1, hidA]) hdW.2.1
      (by
        have := hdW.2.2.2.2.2.2.2.2.2.1
        rw [hidA] at this
        exact this hfA)

theorem syncRun_twice (env : Env) (accountId : Nat) (userId : String) :
    ∀ (fuel k : Nat) (w w1 : World), w.KeysOk →
      syncRun env fuel k w accountId userId = some (.done w1) →
      w1.KeysOk ∧
        (accountFindById w1 accountId).map (·.calendarType) =
          (accountFindById w accountId).map (·.calendarType) ∧
        ∀ W : World, W.events = w1.events → W.nextId = w1.nextId →
          (accountFindById W accountId).map (·.calendarType) =
            (accountFindById w accountId).map (·.calendarType) →
          ∃ o2, syncRun env fuel k W accountId userId = some o2 ∧
            o2.state.events.map Event.key = w1.events.map Event.key := by
  intro fuel
  induction fuel with
  | zero => intro k w w1 _ h; simp [syncRun] at h
  | succ fuel ih =>
    intro k w w1 hw h
    cases hf : accountFindById w accountId with
    | none =>
      simp only [syncRun, hf, Option.some.injEq, Outcome.done.injEq] at h
      subst h
      refine ⟨hw, by simp [hf], ?_⟩
      intro W hev _ hty
      have hfW : accountFindById W accountId = none := by
        simpa using hty
      exact ⟨.done W, by simp [syncRun, hfW], by simp [Outcome.state, hev]⟩
    | some account =>
      have hid := (accountFindById_some hf).1
      rw [syncRun_succ env fuel k w accountId userId account hf] at h
      cases hrs : refreshStep env w account with
      | threw s => simp [hrs] at h
      | done s =>
        obtain ⟨wr, a1⟩ := s
        have hd := refreshStep_done hrs
        have hfr : accountFindById wr accountId = some a1 := by
          have := hd.2.2.2.2.2.2.2.2.2.1
          rw [hid] at this
          exact this hf
        have hwr : wr.KeysOk := by
          refine ⟨by rw [hd.2.2.2.2.2.1]; exact hw.1, ?_⟩
          intro e he
          rw [hd.2.2.2.2.2.2.1]
          exact hw.2 e (by rw [← hd.2.2.2.2.2.1]; exact he)
        simp only [hrs] at h
        -- the account the second run finds has the calendar type of the first run's
        have hfind2 : ∀ W : World,
            (accountFindById W accountId).map (·.calendarType) = some account.calendarType →
            ∃ A, accountFindById W accountId = some A ∧
              A.calendarType = account.calendarType := by
          intro W hty
          cases hA : accountFindById W accountId with
          | none => simp [hA] at hty
          | some A => exact ⟨A, rfl, by simpa [hA] using hty⟩
        by_cases hg : a1.calendarType = "google"
        · rw [if_pos hg] at h
          cases hl : env.eventsList k with
          | none => simp [hl] at h
          | some r =>
            simp only [hl] at h
            by_cases h4 : r.status = 410
            · rw [if_pos h4] at h
              have hf3 : accountFindById
                  (accountSave (wr.send fun c =>
                    ProviderCall.eventsList c a1.externalCalendarId a1.lastSyncToken)
                    { a1 with lastSyncToken := none }) accountId =
                  some { a1 with lastSyncToken := none } :=
                accountFindById_accountSave (b := a1)
                  (by rw [accountFindById_congr (w := wr)]; exact hfr; rfl)
                  (by rw [← hid]; exact hd.1)
              obtain ⟨hk1, hty1, hall⟩ := ih (k + 1) _ w1 (by exact hwr) h
              refine ⟨hk1, ?_, ?_⟩
              · rw [hty1, hf3]
                simp [hd.2.1]
              · intro W hev hnx hty
                obtain ⟨A, hfA, htA⟩ := hfind2 W (by simpa using hty)
                apply second_run_step env fuel k accountId userId W A _ hfA (by rw [hev])
                intro Wr A1 hWev hWnx hA1id hA1t hA1f
                have hgA : A1.calendarType = "google" := by rw [hA1t, htA, ← hd.2.1, hg]
                rw [if_pos hgA]
                simp only [hl, if_pos h4]
                have hF3 : accountFindById
                    (accountSave (Wr.send fun c =>
                      ProviderCall.eventsList c A1.externalCalendarId A1.lastSyncToken)
                      { A1 with lastSyncToken := none }) accountId =
                    some { A1 with lastSyncToken := none } :=
                  accountFindById_accountSave (b := A1)
                    (by rw [accountFindById_congr (w := Wr)]; exact hA1f; rfl) hA1id
                apply hall
                · simp [accountSave, World.send, hWev, hev]
                · simp [accountSave, World.send, hWnx, hnx]
                · rw [hF3, hf3]
                  simp [hgA, hg]
            · rw [if_neg h4] at h
              simp only [Option.some.injEq] at h
              have hf3 : accountFindById
                  (accountSave (wr.send fun c =>
                    ProviderCall.eventsList c a1.externalCalendarId a1.lastSyncToken)
                    { a1 with lastSyncToken := jsOr r.nextSyncToken a1.lastSyncToken })
                    accountId =
                  some { a1 with lastSyncToken := jsOr r.nextSyncToken a1.lastSyncToken } :=
                accountFindById_accountSave (b := a1)
                  (by rw [accountFindById_congr (w := wr)]; exact hfr; rfl)
                  (by rw [← hid]; exact hd.1)
              obtain ⟨hids, hk1, hacc, _, _⟩ := reconcile_done (by exact hwr) h
              refine ⟨hk1, ?_, ?_⟩
              · rw [accountFindById_congr hacc, hf3]
                simp [hd.2.1]
              · intro W hev hnx hty
                obtain ⟨A, hfA, htA⟩ := hfind2 W (by simpa using hty)
                apply second_run_step env fuel k accountId userId W A _ hfA (by rw [hev])
                intro Wr A1 hWev hWnx hA1id hA1t hA1f
                have hgA : A1.calendarType = "google" := by rw [hA1t, htA, ← hd.2.1, hg]
                rw [if_pos hgA]
                simp only [hl, if_neg h4]
                refine ⟨_, rfl, ?_⟩
                have hE : (accountSave (Wr.send fun c =>
                    ProviderCall.eventsList c A1.externalCalendarId A1.lastSyncToken)
                    { A1 with
                      lastSyncToken := jsOr r.nextSyncToken A1.lastSyncToken }).events =
                    w1.events := by
                  simp [accountSave, World.send, hWev, hev]
                rw [← hE]
                apply reconcile_synced
                · rw [hE]; exact hk1.1
                · intro i
                  rw [externalIds_congr hE]
                  have := hids i
                  simp only [hd.1, hid] at this
                  simp only [hA1id]
                  exact this
        · rw [if_neg hg] at h
          by_cases ha : a1.calendarType = "apple"
          · rw [if_pos ha] at h
            simp only [Option.some.injEq, Outcome.done.injEq] at h
            subst h
            refine ⟨hwr, by rw [hfr]; simp [hd.2.1], ?_⟩
            intro W hev hnx hty
            obtain ⟨A, hfA, htA⟩ := hfind2 W (by simpa using hty)
            apply second_run_step env fuel k accountId userId W A _ hfA (by rw [hev])
            intro Wr A1 hWev hWnx hA1id hA1t hA1f
            have hgA : ¬ A1.calendarType = "google" := by rw [hA1t, htA, ← hd.2.1]; exact hg
            have haA : A1.calendarType = "apple" := by rw [hA1t, htA, ← hd.2.1, ha]
            rw [if_neg hgA, if_pos haA]
            exact ⟨_, rfl, by simp [Outcome.state, hWev, hev]⟩
          · rw [if_neg ha] at h
            simp only [Option.some.injEq] at h
            obtain ⟨hids, hk1, hacc, _, _⟩ := reconcile_done hwr h
            refine ⟨hk1, ?_, ?_⟩
            · rw [accountFindById_congr hacc, hfr]
              simp [hd.2.1]
            · intro W hev hnx hty
              obtain ⟨A, hfA, htA⟩ := hfind2 W (by simpa using hty)
              apply second_run_step env fuel k accountId userId W A _ hfA (by rw [hev])
              intro Wr A1 hWev hWnx hA1id hA1t hA1f
              have hgA : ¬ A1.calendarType = "google" := by
                rw [hA1t, htA, ← hd.2.1]; exact hg
              have haA : ¬ A1.calendarType = "apple" := by
                rw [hA1t, htA, ← hd.2.1]; exact ha
              rw [if_neg hgA, if_neg haA]
              refine ⟨_, rfl, ?_⟩
              have hE : Wr.events = w1.events := by rw [hWev, hev]
              rw [← hE]
              apply reconcile_synced
              · rw [hE]; exact hk1.1
              · intro i
                rw [externalIds_congr hE]
                have := hids i
                simp only [hd.1, hid] at this
                simp only [hA1id]
                exact this

theorem refreshStep_ok {env : Env} (w : World) {account : ExternalCalendarAccount}
    (hg : account.calendarType = "google")
    (hr : env.now < account.expiresAt ∨
      ∃ c e, env.refreshAccessToken = some c ∧ c.expires_in = some e) :
    ∃ w1 account1, refreshStep env w account = .done (w1, account1) := by
  rcases hr with h | ⟨c, e, hc, he⟩
  · exact ⟨_, _, refreshStep_fresh h⟩
  · by_cases hexp : account.expiresAt ≤ env.now
    · exact ⟨_, _, refreshStep_refreshed hexp hg hc he⟩
    · exact ⟨_, _, refreshStep_fresh (by omega)⟩

/-- The token check of a Google account that is expired, or was refreshed earlier in the
run, ends with the refreshed credentials on the client and in the account. -/
theorem refreshStep_refreshed_form {env : Env} {c : RefreshedCredentials} {e : Int}
    (hc : env.refreshAccessToken = some c) (he : c.expires_in = some e) (w : World)
    (account : ExternalCalendarAccount) {accountId : Nat}
    (hf : accountFindById w accountId = some account) (hg : account.calendarType = "google")
    (hinv : account.expiresAt ≤ env.now ∨
      (w.client = ⟨c.access_token, none⟩ ∧ account.accessToken = encrypt c.access_token ∧
        account.expiresAt = env.now + e * 1000)) :
    ∃ w1 a1 l0, refreshStep env w account = .done (w1, a1) ∧ w1.client = ⟨c.access_token, none⟩ ∧
      a1.accessToken = encrypt c.access_token ∧ a1.expiresAt = env.now + e * 1000 ∧
      w1.calls = w.calls ++ l0 ∧ listCredentials l0 = [] ∧
      accountFindById w1 accountId = some a1 ∧ a1.calendarType = "google" ∧
      a1._id = accountId := by
  have hid := (accountFindById_some hf).1
  subst hid
  by_cases hexp : account.expiresAt ≤ env.now
  · have hrs := refreshStep_refreshed (w := w) hexp hg hc he
    have hd := refreshStep_done hrs
    refine ⟨_, _, [ProviderCall.refreshAccessToken ⟨none, some (decrypt account.refreshToken)⟩],
      hrs, rfl, rfl, rfl, ?_, ?_, ?_, hg, rfl⟩
    · simp [setCredentials, accountSave, World.send]
    · simp [listCredentials]
    · exact hd.2.2.2.2.2.2.2.2.2.1 hf
  · have hlt : env.now < account.expiresAt := by omega
    rcases hinv with h | ⟨h1, h2, h3⟩
    · exact absurd h hexp
    · exact ⟨w, account, [], refreshStep_fresh hlt, h1, h2, h3, by simp, rfl, hf, hg, rfl⟩

theorem syncRun_credentials (env : Env) (accountId : Nat) (userId : String)
    {c : RefreshedCredentials} {e : Int} (hc : env.refreshAccessToken = some c)
    (he : c.expires_in = some e) :
    ∀ (fuel k : Nat) (w : World) (account : ExternalCalendarAccount) (o : Outcome World),
      accountFindById w accountId = some account → account.calendarType = "google" →
      (account.expiresAt ≤ env.now ∨
        (w.client = ⟨c.access_token, none⟩ ∧ account.accessToken = encrypt c.access_token ∧
          account.expiresAt = env.now + e * 1000)) →
      syncRun env fuel k w accountId userId = some o →
      (∃ l, o.state.calls = w.calls ++ l ∧
          ∀ cr ∈ listCredentials l, cr = ⟨c.access_token, none⟩) ∧
        ∃ a, accountFindById o.state accountId = some a ∧
          a.accessToken = encrypt c.access_token ∧ a.expiresAt = env.now + e * 1000 := by
  intro fuel
  induction fuel with
  | zero => intro k w account o _ _ _ h; simp [syncRun] at h
  | succ fuel ih =>
    intro k w account o hf hg hinv h
    obtain ⟨w1, a1, l0, hrs, hcl, hat, hex, hcalls, hl0, hf1, hg1, hid1⟩ :=
      refreshStep_refreshed_form hc he w account hf hg hinv
    simp only [syncRun, hf, hrs] at h
    rw [if_pos hg1] at h
    cases hl : env.eventsList k with
    | none =>
      simp only [hl, Option.some.injEq] at h
      subst h
      refine ⟨⟨l0 ++ [ProviderCall.eventsList w1.client a1.externalCalendarId a1.lastSyncToken],
        ?_, ?_⟩, a1, ?_, hat, hex⟩
      · simp [Outcome.state, World.send, hcalls]
      · intro cr hcr
        simp only [listCredentials_append, hl0, List.nil_append, listCredentials,
          List.mem_singleton] at hcr
        rw [hcr, hcl]
      · simp only [Outcome.state]
        rw [accountFindById_congr (w := w1)]
        · exact hf1
        · rfl
    | some r =>
      simp only [hl] at h
      by_cases h4 : r.status = 410
      · simp only [h4, if_true] at h
        have hf3 : accountFindById
            (accountSave (w1.send fun c =>
              ProviderCall.eventsList c a1.externalCalendarId a1.lastSyncToken)
              { a1 with lastSyncToken := none }) accountId =
            some { a1 with lastSyncToken := none } :=
          accountFindById_accountSave (b := a1)
            (by rw [accountFindById_congr (w := w1)]; exact hf1; rfl) hid1
        obtain ⟨⟨l, hl1, hl2⟩, a, ha⟩ := ih (k + 1) _ _ o hf3 hg1
          (Or.inr ⟨by simpa [accountSave, World.send] using hcl, hat, hex⟩)
          (by simpa only [hg1] using h)
        refine ⟨⟨l0 ++ [ProviderCall.eventsList w1.client a1.externalCalendarId
          a1.lastSyncToken] ++ l, ?_, ?_⟩, a, ha⟩
        · rw [hl1]
          simp [accountSave, World.send, hcalls]
        · intro cr hcr
          simp only [listCredentials_append, hl0, List.nil_append, listCredentials,
            List.mem_append, List.mem_singleton] at hcr
          rcases hcr with hcr | hcr
          · rw [hcr, hcl]
          · exact hl2 cr hcr
      · simp only [h4, if_false, Option.some.injEq] at h
        subst h
        have hfr := reconcile_frame env
          (accountSave (w1.send fun c =>
            ProviderCall.eventsList c a1.externalCalendarId a1.lastSyncToken)
            { a1 with lastSyncToken := jsOr r.nextSyncToken a1.lastSyncToken })
          { a1 with lastSyncToken := jsOr r.nextSyncToken a1.lastSyncToken } userId
          (r.items.getD [])
        refine ⟨⟨l0 ++ [ProviderCall.eventsList w1.client a1.externalCalendarId
          a1.lastSyncToken], ?_, ?_⟩,
          { a1 with lastSyncToken := jsOr r.nextSyncToken a1.lastSyncToken }, ?_, hat, hex⟩
        · rw [hfr.2.2]
          simp [accountSave, World.send, hcalls]
        · intro cr hcr
          simp only [listCredentials_append, hl0, List.nil_append, listCredentials,
            List.mem_singleton] at hcr
          rw [hcr, hcl]
        · rw [accountFindById_congr hfr.1]
          exact accountFindById_accountSave (b := a1)
            (by rw [accountFindById_congr (w := w1)]; exact hf1; rfl) hid1

theorem find_map_replace {l : List Event} {e0 e : Event} (h0 : e0 ∈ l) (he : e._id = e0._id) :
    (l.map fun x => if x._id = e0._id then e else x).find? (fun x => x._id == e0._id) =
      some e := by
  induction l with
  | nil => simp at h0
  | cons a rest ih =>
    simp only [List.map_cons, List.find?_cons]
    by_cases ha : a._id = e0._id
    · simp [ha, he]
    · have h1 : e0 ∈ rest := by
        rcases List.mem_cons.1 h0 with h | h
        · exact absurd (by rw [h]) ha
        · exact h
      have hb : (a._id == e0._id) = false := by simpa using ha
      simp [ha, hb, ih h1]

theorem callsSince_of_append {w w' : World} {l : List ProviderCall}
    (h : w'.calls = w.calls ++ l) : w'.callsSince w = l := by
  simp [World.callsSince, h]

theorem callsSince_self (w : World) : w.callsSince w = [] := by
  simp [World.callsSince]

theorem eventSave_calls (env : Env) (w : World) (id : Nat) (doc : EventDoc) :
    (eventSave env w id doc).state.calls = w.calls ∧
      (eventSave env w id doc).state.accounts = w.accounts ∧
      ((eventSave env w id doc).isDone = false → (eventSave env w id doc).state = w) := by
  unfold eventSave
  split <;> simp [Outcome.state, Outcome.isDone]

theorem createEventStore_props (env : Env) (w : World) (body : CreateEventBody)
    (userId : String) (a : ExternalCalendarAccount) (x : Option String) :
    (createEventStore env w body userId a x).world.calls = w.calls ∧
      ((createEventStore env w body userId a x).isFailed = true →
        (createEventStore env w body userId a x).world = w) := by
  unfold createEventStore eventCreate
  split
  · rename_i w1 h
    split at h
    · simp only [Outcome.threw.injEq] at h
      subst h
      simp [Reply.world]
    · simp at h
  · rename_i w1 h
    split at h
    · simp at h
    · simp only [Outcome.done.injEq] at h
      subst h
      simp [Reply.world, Reply.isFailed]

theorem updateEventStore_props (env : Env) (w : World) (event : Event)
    (body : UpdateEventBody) :
    (updateEventStore env w event body).world.calls = w.calls ∧
      ((updateEventStore env w event body).isFailed = true →
        (updateEventStore env w event body).world = w) := by
  unfold updateEventStore eventSave
  split
  · rename_i w1 h
    split at h
    · simp only [Outcome.threw.injEq] at h
      subst h
      simp [Reply.world]
    · simp at h
  · rename_i w1 h
    split at h
    · simp at h
    · simp only [Outcome.done.injEq] at h
      subst h
      simp [Reply.world, Reply.isFailed]

theorem updateAttendeeStatusStore_props (env : Env) (w : World) (event : Event) (index : Nat)
    (status : Option String) :
    (updateAttendeeStatusStore env w event index status).world.calls = w.calls ∧
      ((updateAttendeeStatusStore env w event index status).isFailed = true →
        (updateAttendeeStatusStore env w event index status).world = w) := by
  unfold updateAttendeeStatusStore eventSave
  split
  · rename_i w1 h
    split at h
    · simp only [Outcome.threw.injEq] at h
      subst h
      simp [Reply.world]
    · simp at h
  · rename_i w1 h
    split at h
    · simp at h
    · simp only [Outcome.done.injEq] at h
      subst h
      simp [Reply.world, Reply.isFailed]

theorem createEvent_failed_write (env : Env) (w : World) (reqUserId : String)
    (body : CreateEventBody)
    (h : ∃ c ∈ (createEvent env w reqUserId body).world.callsSince w, env.failsWrite c = true) :
    (createEvent env w reqUserId body).isFailed = true ∧
      (createEvent env w reqUserId body).world.events = w.events := by
  revert h
  unfold createEvent
  split
  · simp [Reply.world, Reply.isFailed]
  · split
    · simp [Reply.world, Reply.isFailed]
    · split
      · simp [Reply.world, Reply.isFailed]
      · rename_i targetAccount _
        split
        · simp [Reply.world, Reply.isFailed]
        · split
          · split
            · split
              · simp [Reply.world, Reply.isFailed, setCredentials]
              · rename_i resource _
                split
                · simp [Reply.world, Reply.isFailed, setCredentials, World.send]
                · rename_i extEventId hins
                  intro ⟨c, hc, hf⟩
                  exfalso
                  rw [callsSince_of_append (l := [ProviderCall.eventsInsert
                    ⟨some (decrypt targetAccount.accessToken), none⟩
                    targetAccount.externalCalendarId resource])] at hc
                  · simp only [List.mem_singleton] at hc
                    subst hc
                    simp [Env.failsWrite, hins] at hf
                  · rw [(createEventStore_props _ _ _ _ _ _).1]
                    simp [World.send, setCredentials]
            · intro ⟨c, hc, hf⟩
              rw [callsSince_of_append (l := [])] at hc
              · simp at hc
              · rw [(createEventStore_props _ _ _ _ _ _).1]; simp
          · intro ⟨c, hc, hf⟩
            rw [callsSince_of_append (l := [])] at hc
            · simp at hc
            · rw [(createEventStore_props _ _ _ _ _ _).1]; simp

theorem updateEvent_failed_write (env : Env) (w : World) (reqUserId : String) (id : Nat)
    (body : UpdateEventBody)
    (h : ∃ c ∈ (updateEvent env w reqUserId id body).world.callsSince w,
      env.failsWrite c = true) :
    (updateEvent env w reqUserId id body).isFailed = true ∧
      (updateEvent env w reqUserId id body).world.events = w.events := by
  revert h
  unfold updateEvent
  split
  · simp [Reply.world, Reply.isFailed]
  · rename_i event _
    split
    · simp [Reply.world, Reply.isFailed]
    · split
      · simp [Reply.world, Reply.isFailed]
      · rename_i targetAccount _
        split
        · split
          · split
            · simp [Reply.world, Reply.isFailed, setCredentials]
            · rename_i resource _
              split
              · rename_i hpatch
                intro ⟨c, hc, hf⟩
                exfalso
                rw [callsSince_of_append (l := [ProviderCall.eventsPatch
                  ⟨some (decrypt targetAccount.accessToken), none⟩
                  targetAccount.externalCalendarId (event.externalEventId.getD "")
                  resource])] at hc
                · simp only [List.mem_singleton] at hc
                  subst hc
                  simp [Env.failsWrite, hpatch] at hf
                · rw [(updateEventStore_props _ _ _ _).1]
                  simp [World.send, setCredentials]
              · simp [Reply.world, Reply.isFailed, setCredentials, World.send]
          · intro ⟨c, hc, hf⟩
            rw [callsSince_of_append (l := [])] at hc
            · simp at hc
            · rw [(updateEventStore_props _ _ _ _).1]; simp
        · intro ⟨c, hc, hf⟩
          rw [callsSince_of_append (l := [])] at hc
          · simp at hc
          · rw [(updateEventStore_props _ _ _ _).1]; simp

theorem deleteEvent_failed_write (env : Env) (w : World) (reqUserId : String) (id : Nat)
    (h : ∃ c ∈ (deleteEvent env w reqUserId id).world.callsSince w, env.failsWrite c = true) :
    (deleteEvent env w reqUserId id).isFailed = true ∧
      (deleteEvent env w reqUserId id).world.events = w.events := by
  revert h
  unfold deleteEvent
  split
  · simp [Reply.world, Reply.isFailed]
  · rename_i event _
    split
    · simp [Reply.world, Reply.isFailed]
    · split
      · split
        · simp [Reply.world, World.callsSince, eventDeleteOne]
        · rename_i targetAccount _
          split
          · split
            · rename_i hdel
              intro ⟨c, hc, hf⟩
              exfalso
              rw [callsSince_of_append (l := [ProviderCall.eventsDelete
                ⟨some (decrypt targetAccount.accessToken), none⟩
                targetAccount.externalCalendarId (event.externalEventId.getD "")])] at hc
              · simp only [List.mem_singleton] at hc
                subst hc
                simp [Env.failsWrite, hdel] at hf
              · simp [Reply.world, eventDeleteOne, World.send, setCredentials]
            · simp [Reply.world, Reply.isFailed, setCredentials, World.send]
          · simp [Reply.world, World.callsSince, eventDeleteOne]
      · simp [Reply.world, World.callsSince, eventDeleteOne]

theorem updateAttendeeStatus_failed_write (env : Env) (w : World) (reqUserId : String)
    (id : Nat) (body : AttendeeStatusBody)
    (h : ∃ c ∈ (updateAttendeeStatus env w reqUserId id body).world.callsSince w,
      env.failsWrite c = true) :
    (updateAttendeeStatus env w reqUserId id body).isFailed = true ∧
      (updateAttendeeStatus env w reqUserId id body).world.events = w.events := by
  revert h
  unfold updateAttendeeStatus
  split
  · simp [Reply.world, Reply.isFailed]
  · rename_i event _
    split
    · simp [Reply.world, Reply.isFailed]
    · rename_i attendeeEmail _
      split
      · simp [Reply.world, Reply.isFailed]
      · split
        · simp [Reply.world, Reply.isFailed]
        · rename_i attendeeIndex _
          split
          · split
            · intro ⟨c, hc, hf⟩
              rw [callsSince_of_append (l := [])] at hc
              · simp at hc
              · rw [(updateAttendeeStatusStore_props _ _ _ _ _).1]; simp
            · rename_i targetAccount _
              split
              · split
                · simp [Reply.world, Reply.isFailed, setCredentials, World.send]
                · rename_i googleAttendees _
                  split
                  · rename_i hpatch
                    intro ⟨c, hc, hf⟩
                    exfalso
                    rw [callsSince_of_append (l := [ProviderCall.eventsGet
                      ⟨some (decrypt targetAccount.accessToken), none⟩
                      targetAccount.externalCalendarId (event.externalEventId.getD ""),
                      ProviderCall.eventsPatchAttendees
                      ⟨some (decrypt targetAccount.accessToken), none⟩
                      targetAccount.externalCalendarId (event.externalEventId.getD "")
                      (googleAttendees.map
                        (assignResponseStatus attendeeEmail body.status))])] at hc
                    · simp only [List.mem_cons, List.mem_singleton, List.not_mem_nil,
                        or_false] at hc
                      rcases hc with hc | hc
                      · subst hc
                        simp [Env.failsWrite] at hf
                      · subst hc
                        simp [Env.failsWrite, hpatch] at hf
                    · rw [(updateAttendeeStatusStore_props _ _ _ _ _).1]
                      simp [World.send, setCredentials]
                  · simp [Reply.world, Reply.isFailed, setCredentials, World.send]
              · intro ⟨c, hc, hf⟩
                rw [callsSince_of_append (l := [])] at hc
                · simp at hc
                · rw [(updateAttendeeStatusStore_props _ _ _ _ _).1]; simp
          · intro ⟨c, hc, hf⟩
            rw [callsSince_of_append (l := [])] at hc
            · simp at hc
            · rw [(updateAttendeeStatusStore_props _ _ _ _ _).1]; simp

/-! ## The token encoding is reversible -/

theorem base64_digit_value : ∀ n, n < 64 →
    base64Digit n ≠ '=' ∧ base64Value (base64Digit n) = some n := by
  decide

theorem base64Sextets_digit {n : Nat} (hn : n < 64) (cs : List Char) :
    base64Sextets (base64Digit n :: cs) = n :: base64Sextets cs := by
  have h := base64_digit_value n hn
  simp [base64Sextets, h.1, h.2]

theorem base64Sextets_pad (cs : List Char) : base64Sextets ('=' :: cs) = [] := by
  simp [base64Sextets]

theorem base64_roundtrip : ∀ bs : List Nat, (∀ b ∈ bs, b < 256) →
    base64Decode (base64Encode bs) = bs := by
  intro bs
  induction bs using base64Encode.induct with
  | case1 => intro _; simp [base64Encode, base64Decode, base64Sextets, sextetsToBytes]
  | case2 a =>
    intro h
    have ha : a < 256 := h a (by simp)
    simp only [base64Encode, base64Decode]
    rw [base64Sextets_digit (by omega), base64Sextets_digit (by omega), base64Sextets_pad]
    simp only [sextetsToBytes]
    congr 1
    omega
  | case3 a b =>
    intro h
    have ha : a < 256 := h a (by simp)
    have hb : b < 256 := h b (by simp)
    simp only [base64Encode, base64Decode]
    rw [base64Sextets_digit (by omega), base64Sextets_digit (by omega),
      base64Sextets_digit (by omega), base64Sextets_pad]
    simp only [sextetsToBytes]
    congr 1
    · omega
    · congr 1
      omega
  | case4 a b c rest ih =>
    intro h
    have ha : a < 256 := h a (by simp)
    have hb : b < 256 := h b (by simp)
    have hc : c < 256 := h c (by simp)
    have hrest : ∀ x ∈ rest, x < 256 := fun x hx => h x (by simp [hx])
    have ih' := ih hrest
    simp only [base64Decode] at ih'
    simp only [base64Encode, base64Decode]
    rw [base64Sextets_digit (by omega), base64Sextets_digit (by omega),
      base64Sextets_digit (by omega), base64Sextets_digit (by omega)]
    simp only [sextetsToBytes]
    rw [ih']
    congr 1
    · omega
    · congr 1
      · omega
      · congr 1
        omega

theorem base64Encode_length (bs : List Nat) : (base64Encode bs).length % 4 = 0 := by
  induction bs using base64Encode.induct with
  | case1 => simp [base64Encode]
  | case2 a => simp [base64Encode]
  | case3 a b => simp [base64Encode]
  | case4 a b c rest ih =>
    simp only [base64Encode, List.length_cons]
    omega

theorem utf8Lead_two : ∀ x, x < 32 → 2 ≤ x →
    utf8Lead (0xC0 + x) = some ⟨x, 1, 0x80, 0xBF⟩ := by
  decide

theorem utf8Lead_three : ∀ x, x < 16 →
    utf8Lead (0xE0 + x) =
      some ⟨x, 2, if x = 0 then 0xA0 else 0x80, if x = 13 then 0x9F else 0xBF⟩ := by
  decide

theorem utf8Lead_four : ∀ x, x < 5 →
    utf8Lead (0xF0 + x) =
      some ⟨x, 3, if x = 0 then 0x90 else 0x80, if x = 4 then 0x8F else 0xBF⟩ := by
  decide

theorem utf8Decode_lead {b : Nat} {st : Utf8State} (rest : List Nat) (hb : 0x80 ≤ b)
    (h : utf8Lead b = some st) : utf8Decode none (b :: rest) = utf8Decode (some st) rest := by
  have : ¬ b < 0x80 := by omega
  simp [utf8Decode, this, h]

theorem utf8Decode_last {st : Utf8State} {b : Nat} (rest : List Nat) (hn : st.needed = 1)
    (hl : st.lower ≤ b) (hu : b ≤ st.upper) :
    utf8Decode (some st) (b :: rest) =
      Char.ofNat (st.codePoint * 64 + b % 64) :: utf8Decode none rest := by
  simp [utf8Decode, hn, hl, hu]

theorem utf8Decode_more {st : Utf8State} {b : Nat} (rest : List Nat) (hn : st.needed ≠ 1)
    (hl : st.lower ≤ b) (hu : b ≤ st.upper) :
    utf8Decode (some st) (b :: rest) =
      utf8Decode (some ⟨st.codePoint * 64 + b % 64, st.needed - 1, 0x80, 0xBF⟩) rest := by
  simp [utf8Decode, hn, hl, hu]

theorem utf8Decode_encodeChar (c : Char) (rest : List Nat) :
    utf8Decode none (utf8EncodeChar c ++ rest) = c :: utf8Decode none rest := by
  have hv : c.toNat < 0xD800 ∨ (0xDFFF < c.toNat ∧ c.toNat < 0x110000) := c.valid
  have hc : Char.ofNat c.toNat = c := Char.ofNat_toNat c
  unfold utf8EncodeChar
  generalize c.toNat = v at hv hc
  subst hc
  by_cases h1 : v < 0x80
  · simp [h1, utf8Decode]
  · by_cases h2 : v < 0x800
    · simp only [h1, h2, if_false, if_true, List.cons_append, List.nil_append]
      rw [utf8Decode_lead _ (by omega) (utf8Lead_two (v / 64) (by omega) (by omega)),
        utf8Decode_last _ rfl (by simp only []; omega) (by simp only []; omega)]
      congr 2
      simp only []
      omega
    · by_cases h3 : v < 0x10000
      · simp only [h1, h2, h3, if_false, if_true, List.cons_append, List.nil_append]
        rw [utf8Decode_lead _ (by omega) (utf8Lead_three (v / 4096) (by omega)),
          utf8Decode_more _ (by simp) (by simp only []; split <;> omega)
            (by simp only []; split <;> omega),
          utf8Decode_last _ rfl (by simp only []; omega) (by simp only []; omega)]
        congr 2
        simp only []
        omega
      · simp only [h1, h2, h3, if_false, List.cons_append, List.nil_append]
        rw [utf8Decode_lead _ (by omega) (utf8Lead_four (v / 262144) (by omega)),
          utf8Decode_more _ (by simp) (by simp only []; split <;> omega)
            (by simp only []; split <;> omega),
          utf8Decode_more _ (by simp) (by simp only []; omega) (by simp only []; omega),
          utf8Decode_last _ rfl (by simp only []; omega) (by simp only []; omega)]
        congr 2
        simp only []
        omega

theorem utf8Decode_flatMap (cs : List Char) :
    utf8Decode none (cs.flatMap utf8EncodeChar) = cs := by
  induction cs with
  | nil => simp [utf8Decode]
  | cons c rest ih =>
    rw [List.flatMap_cons, utf8Decode_encodeChar, ih]

theorem utf8EncodeChar_lt (c : Char) : ∀ b ∈ utf8EncodeChar c, b < 256 := by
  have hv : c.toNat < 0xD800 ∨ (0xDFFF < c.toNat ∧ c.toNat < 0x110000) := c.valid
  unfold utf8EncodeChar
  generalize c.toNat = v at hv
  intro b hb
  split at hb
  · simp only [List.mem_singleton] at hb
    omega
  · split at hb
    · simp only [List.mem_cons, List.mem_singleton, List.not_mem_nil, or_false] at hb
      omega
    · split at hb
      · simp only [List.mem_cons, List.mem_singleton, List.not_mem_nil, or_false] at hb
        omega
      · simp only [List.mem_cons, List.mem_singleton, List.not_mem_nil, or_false] at hb
        omega

theorem utf8Bytes_lt (t : String) : ∀ b ∈ utf8Bytes t, b < 256 := by
  intro b hb
  simp only [utf8Bytes, List.mem_flatMap] at hb
  obtain ⟨c, _, hc⟩ := hb
  exact utf8EncodeChar_lt c b hc

/-- Decoding what `encrypt` made of a non-empty text gives the text back. -/
theorem decrypt_encrypt (t : String) (ht : t ≠ "") : decrypt (encrypt (some t)) = t := by
  have hne : String.mk (base64Encode (utf8Bytes t)) ≠ "N/A" := by
    intro h
    have hl := congrArg String.length h
    have := base64Encode_length (utf8Bytes t)
    simp only [String.length] at hl
    rw [hl] at this
    revert this
    decide
  simp only [encrypt, ht, if_false, decrypt, hne]
  rw [base64_roundtrip _ (utf8Bytes_lt t), utf8Bytes, utf8Decode_flatMap]

/-- A stored token that `encrypt` wrote never decodes to the empty text. -/
theorem decrypt_encrypt_ne_empty (x : Option String) : decrypt (encrypt x) ≠ "" := by
  cases x with
  | none => simp [encrypt, decrypt]
  | some t =>
    by_cases ht : t = ""
    · simp [encrypt, ht, decrypt]
    · rw [decrypt_encrypt t ht]
      exact ht

theorem createEvent_credentials (env : Env) (w : World) (reqUserId : String)
    (body : CreateEventBody) (account : ExternalCalendarAccount)
    (hacc : body.externalCalendarAccountId.bind (accountFindById w) = some account) :
    ∀ c ∈ (createEvent env w reqUserId body).world.callsSince w,
      c.credentials = ⟨some (decrypt account.accessToken), none⟩ := by
  unfold createEvent
  simp only [hacc]
  split
  · simp [Reply.world, callsSince_self]
  · split
    · simp [Reply.world, callsSince_self]
    · split
      · simp [Reply.world, callsSince_self]
      · split
        · split
          · split
            · simp [Reply.world, setCredentials, World.callsSince]
            · rename_i resource _
              split
              · intro c hc
                rw [callsSince_of_append (l := [ProviderCall.eventsInsert
                  ⟨some (decrypt account.accessToken), none⟩
                  account.externalCalendarId resource])] at hc
                · simp only [List.mem_singleton] at hc
                  subst hc
                  rfl
                · simp [Reply.world, World.send, setCredentials]
              · intro c hc
                rw [callsSince_of_append (l := [ProviderCall.eventsInsert
                  ⟨some (decrypt account.accessToken), none⟩
                  account.externalCalendarId resource])] at hc
                · simp only [List.mem_singleton] at hc
                  subst hc
                  rfl
                · rw [(createEventStore_props _ _ _ _ _ _).1]
                  simp [World.send, setCredentials]
          · intro c hc
            rw [callsSince_of_append (l := [])] at hc
            · simp at hc
            · rw [(createEventStore_props _ _ _ _ _ _).1]; simp
        · intro c hc
          rw [callsSince_of_append (l := [])] at hc
          · simp at hc
          · rw [(createEventStore_props _ _ _ _ _ _).1]; simp

theorem updateEvent_credentials (env : Env) (w : World) (reqUserId : String) (id : Nat)
    (body : UpdateEventBody) (event : Event) (account : ExternalCalendarAccount)
    (hev : eventFindById w id = some event)
    (hacc : accountFindById w event.externalCalendarAccountId = some account) :
    ∀ c ∈ (updateEvent env w reqUserId id body).world.callsSince w,
      c.credentials = ⟨some (decrypt account.accessToken), none⟩ := by
  unfold updateEvent
  simp only [hev, hacc]
  split
  · simp [Reply.world, callsSince_self]
  · split
    · split
      · split
        · simp [Reply.world, setCredentials, World.callsSince]
        · rename_i resource _
          split
          · intro c hc
            rw [callsSince_of_append (l := [ProviderCall.eventsPatch
              ⟨some (decrypt account.accessToken), none⟩
              account.externalCalendarId (event.externalEventId.getD "") resource])] at hc
            · simp only [List.mem_singleton] at hc
              subst hc
              rfl
            · rw [(updateEventStore_props _ _ _ _).1]
              simp [World.send, setCredentials]
          · intro c hc
            rw [callsSince_of_append (l := [ProviderCall.eventsPatch
              ⟨some (decrypt account.accessToken), none⟩
              account.externalCalendarId (event.externalEventId.getD "") resource])] at hc
            · simp only [List.mem_singleton] at hc
              subst hc
              rfl
            · simp [Reply.world, World.send, setCredentials]
      · intro c hc
        rw [callsSince_of_append (l := [])] at hc
        · simp at hc
        · rw [(updateEventStore_props _ _ _ _).1]; simp
    · intro c hc
      rw [callsSince_of_append (l := [])] at hc
      · simp at hc
      · rw [(updateEventStore_props _ _ _ _).1]; simp

theorem deleteEvent_credentials (env : Env) (w : World) (reqUserId : String) (id : Nat)
    (event : Event) (account : ExternalCalendarAccount)
    (hev : eventFindById w id = some event)
    (hacc : accountFindById w event.externalCalendarAccountId = some account) :
    ∀ c ∈ (deleteEvent env w reqUserId id).world.callsSince w,
      c.credentials = ⟨some (decrypt account.accessToken), none⟩ := by
  unfold deleteEvent
  simp only [hev, hacc]
  split
  · simp [Reply.world, callsSince_self]
  · split
    · split
      · split
        · intro c hc
          rw [callsSince_of_append (l := [ProviderCall.eventsDelete
            ⟨some (decrypt account.accessToken), none⟩
            account.externalCalendarId (event.externalEventId.getD "")])] at hc
          · simp only [List.mem_singleton] at hc
            subst hc
            rfl
          · simp [Reply.world, eventDeleteOne, World.send, setCredentials]
        · intro c hc
          rw [callsSince_of_append (l := [ProviderCall.eventsDelete
            ⟨some (decrypt account.accessToken), none⟩
            account.externalCalendarId (event.externalEventId.getD "")])] at hc
          · simp only [List.mem_singleton] at hc
            subst hc
            rfl
          · simp [Reply.world, World.send, setCredentials]
      · simp [Reply.world, World.callsSince, eventDeleteOne]
    · simp [Reply.world, World.callsSince, eventDeleteOne]

theorem updateAttendeeStatus_credentials (env : Env) (w : World) (reqUserId : String)
    (id : Nat) (body : AttendeeStatusBody) (event : Event) (account : ExternalCalendarAccount)
    (hev : eventFindById w id = some event)
    (hacc : accountFindById w event.externalCalendarAccountId = some account) :
    ∀ c ∈ (updateAttendeeStatus env w reqUserId id body).world.callsSince w,
      c.credentials = ⟨some (decrypt account.accessToken), none⟩ := by
  unfold updateAttendeeStatus
  simp only [hev, hacc]
  split
  · simp [Reply.world, callsSince_self]
  · rename_i attendeeEmail _
    split
    · simp [Reply.world, callsSince_self]
    · split
      · simp [Reply.world, callsSince_self]
      · split
        · split
          · split
            · intro c hc
              rw [callsSince_of_append (l := [ProviderCall.eventsGet
                ⟨some (decrypt account.accessToken), none⟩
                account.externalCalendarId (event.externalEventId.getD "")])] at hc
              · simp only [List.mem_singleton] at hc
                subst hc
                rfl
              · simp [Reply.world, World.send, setCredentials]
            · rename_i googleAttendees _
              have key : ∀ c ∈ [ProviderCall.eventsGet
                  ⟨some (decrypt account.accessToken), none⟩
                  account.externalCalendarId (event.externalEventId.getD ""),
                  ProviderCall.eventsPatchAttendees
                  ⟨some (decrypt account.accessToken), none⟩
                  account.externalCalendarId (event.externalEventId.getD "")
                  (googleAttendees.map (assignResponseStatus attendeeEmail body.status))],
                  c.credentials = ⟨some (decrypt account.accessToken), none⟩ := by
                intro c hc
                simp only [List.mem_cons, List.mem_singleton, List.not_mem_nil, or_false] at hc
                rcases hc with hc | hc <;> (subst hc; rfl)
              split
              · intro c hc
                rw [callsSince_of_append (l := _)] at hc
                · exact key c hc
                · rw [(updateAttendeeStatusStore_props _ _ _ _ _).1]
                  simp [World.send, setCredentials]
              · intro c hc
                rw [callsSince_of_append (l := _)] at hc
                · exact key c hc
                · simp [Reply.world, World.send, setCredentials]
          · intro c hc
            rw [callsSince_of_append (l := [])] at hc
            · simp at hc
            · rw [(updateAttendeeStatusStore_props _ _ _ _ _).1]; simp
        · intro c hc
          rw [callsSince_of_append (l := [])] at hc
          · simp at hc
          · rw [(updateAttendeeStatusStore_props _ _ _ _ _).1]; simp

theorem castEvent_isAllDay {env : Env} {id : Nat} {doc : EventDoc} {e : Event}
    (h : castEvent env id doc = some e) :
    castBoolean doc.isAllDay = some e.isAllDay ∧
      castAttendees doc.attendees = some e.attendees ∧ doc.sourceType = some e.sourceType := by
  unfold castEvent at h
  split at h
  · rename_i h5 h6 h7
    split at h
    · simp only [Option.some.injEq] at h
      subst h
      rename_i h4 _
      exact ⟨h7, h6, h4⟩
    · simp at h
  · simp at h

/-- The create loop, however it ends: the events created so far belong to a prefix of
the list, carry the account and the ids of their payloads, and fresh `_id`s. -/
theorem createEvents_state (env : Env) (account : ExternalCalendarAccount) (userId : String) :
    ∀ (F : List ExtEvent) (w : World),
      ∃ (new : List Event) (G : List ExtEvent), G <+: F ∧
        (createEvents env account userId w F).state.events = w.events ++ new ∧
        new.map (·.externalEventId) = G.map eventIdOf ∧
        (∀ e ∈ new, e.externalCalendarAccountId = account._id) ∧
        new.map (·._id) = List.range' w.nextId G.length ∧
        (createEvents env account userId w F).state.nextId = w.nextId + G.length := by
  intro F
  induction F with
  | nil =>
    intro w
    exact ⟨[], [], List.prefix_refl _, by simp [createEvents, Outcome.state], rfl, by simp,
      by simp, by simp [createEvents, Outcome.state]⟩
  | cons x rest ih =>
    intro w
    simp only [createEvents]
    split
    · exact ⟨[], [], List.nil_prefix, by simp [Outcome.state], rfl, by simp, by simp,
        by simp [Outcome.state]⟩
    · rename_i doc hdoc
      split
      · rename_i w1 hw1
        rw [eventCreate_threw hw1]
        exact ⟨[], [], List.nil_prefix, by simp [Outcome.state], rfl, by simp, by simp,
          by simp [Outcome.state]⟩
      · rename_i w1 hw1
        obtain ⟨e, he, hev, hid, _, _, _⟩ := eventCreate_done hw1
        obtain ⟨new, G, hG, h1, h2, h3, h4, h5⟩ := ih w1
        have hf := castEvent_fields he
        have hd : doc.externalCalendarAccountId = account._id ∧
            doc.externalEventId = eventIdOf x := by
          unfold createDoc at hdoc
          split at hdoc
          · simp only [Option.some.injEq] at hdoc
            subst hdoc
            exact ⟨rfl, rfl⟩
          · simp at hdoc
        refine ⟨e :: new, x :: G, ?_, ?_, ?_, ?_, ?_, ?_⟩
        · exact (List.prefix_cons_inj x).2 hG
        · rw [h1, hev]; simp
        · simp [h2, hf.2.2.2.1, hd.2]
        · intro e' he'
          rcases List.mem_cons.1 he' with h' | h'
          · rw [h', hf.2.2.1, hd.1]
          · exact h3 e' h'
        · simp [h4, hf.1, hid, List.range'_succ]
        · rw [h5, hid]; simp; omega

theorem uniqueExternal_congr {w w' : World}
    (h : w'.events.map Event.key = w.events.map Event.key) :
    w'.UniqueExternal ↔ w.UniqueExternal := by
  have hk : ∀ v : World,
      ((v.events.filter fun e => e.externalEventId.isSome).map fun e =>
        (e.externalCalendarAccountId, e.externalEventId)) =
      ((v.events.map Event.key).filter fun k => k.2.2.isSome).map fun k => k.2 := by
    intro v
    simp only [List.filter_map, List.map_map]
    rfl
  unfold World.UniqueExternal
  rw [hk, hk, h]

theorem reconcile_unique (env : Env) (w : World) (account : ExternalCalendarAccount)
    (userId : String) (F : List ExtEvent) (hkeys : w.KeysOk) (hu : w.UniqueExternal)
    (hF : ((F.filter fun x => truthy (eventIdOf x)).map eventIdOf).Nodup) :
    (reconcile env w account userId F).state.UniqueExternal := by
  unfold reconcile
  simp only [deleteStep_eq]
  have hp := partitionEvents_eq (existingEventIds w account._id) F
    (existingEventIds_nodup w account._id)
  generalize partitionEvents (existingEventIds w account._id) F = p at hp
  obtain ⟨_, hpc, _⟩ := hp
  obtain ⟨new, G, hG, hev, hids, hacc, hnid, hnext⟩ :=
    createEvents_state env account userId p.eventsToCreate
      (eventDeleteMany w account._id p.eventsToDeleteIds)
  have hk1 : (eventDeleteMany w account._id p.eventsToDeleteIds).KeysOk :=
    KeysOk_eventDeleteMany hkeys _ _
  -- the ids of the created events are distinct and new for the account
  have hGsub : List.Sublist (G.map eventIdOf)
      ((F.filter fun x => truthy (eventIdOf x)).map eventIdOf) := by
    apply List.Sublist.map
    refine hG.sublist.trans ?_
    rw [hpc, ← List.filter_filter]
    exact List.Sublist.filter _ (List.filter_sublist _)
  have hGnd : (G.map eventIdOf).Nodup := hF.sublist hGsub
  have hGnew : ∀ x ∈ G, truthy (eventIdOf x) = true ∧
      eventIdOf x ∉ existingEventIds w account._id := by
    intro x hx
    have : x ∈ p.eventsToCreate := hG.sublist.subset hx
    rw [hpc] at this
    simp only [List.mem_filter, Bool.and_eq_true, Bool.not_eq_true'] at this
    refine ⟨this.2.1, ?_⟩
    intro hmem
    have h2 := this.2.2
    simp only [List.contains_eq_any_beq, List.any_eq_false, beq_iff_eq] at h2
    exact h2 _ hmem rfl
  have hnewpair : new.map (fun e => (e.externalCalendarAccountId, e.externalEventId)) =
      (G.map eventIdOf).map fun i => (account._id, i) := by
    rw [← hids, List.map_map]
    apply List.map_congr_left
    intro e he
    simp [hacc e he]
  have hc : (createEvents env account userId
      (eventDeleteMany w account._id p.eventsToDeleteIds) p.eventsToCreate).state.UniqueExternal := by
    unfold World.UniqueExternal
    rw [hev, List.filter_append, List.map_append, List.nodup_append]
    refine ⟨?_, ?_, ?_⟩
    · refine hu.sublist (List.Sublist.map _ (List.Sublist.filter _ ?_))
      exact List.filter_sublist _
    · refine List.Nodup.sublist (List.Sublist.map _ (List.filter_sublist _)) ?_
      rw [hnewpair]
      exact hGnd.map (fun a b h => (Prod.mk.inj h).2)
    · intro pr h1 h2
      obtain ⟨e, he, rfl⟩ := List.mem_map.1 h1
      obtain ⟨e', he', heq⟩ := List.mem_map.1 h2
      have he1 := (List.mem_filter.1 he).1
      have he'1 := (List.mem_filter.1 he').1
      have heq1 : e'.externalCalendarAccountId = e.externalCalendarAccountId :=
        (Prod.mk.inj heq).1
      have heq2 : e'.externalEventId = e.externalEventId := (Prod.mk.inj heq).2
      -- the created event comes from a payload of the prefix
      have hmem : e'.externalEventId ∈ G.map eventIdOf := by
        rw [← hids]; exact List.mem_map_of_mem _ he'1
      obtain ⟨x, hx, hxe⟩ := List.mem_map.1 hmem
      apply (hGnew x hx).2
      rw [mem_existingEventIds, mem_externalIds]
      refine ⟨e, List.mem_of_mem_filter he1, ?_, ?_⟩
      · rw [← heq1]; exact hacc e' he'1
      · rw [hxe, heq2]
  split
  · rename_i w2 hw2
    rw [hw2] at hc
    exact hc
  · rename_i w2 hw2
    rw [hw2] at hc hev hnext
    simp only [Outcome.state] at hc hev hnext
    have hk2 : w2.KeysOk := KeysOk_append_range hk1 hev hnid hnext
    exact (uniqueExternal_congr (updateEvents_keys env account p.eventsToUpdate w2 hk2.1).1).2 hc

/-! ## Termination of a run -/

/-- A run returns as soon as one of its `events.list` requests is not answered with
status 410 and the recursion bound is not reached before. -/
theorem syncRun_returns (env : Env) (accountId : Nat) (userId : String) :
    ∀ (n fuel k : Nat) (w : World),
      (env.eventsList (k + n)).map (·.status) ≠ some 410 → n < fuel →
      ∃ o, syncRun env fuel k w accountId userId = some o := by
  intro n
  induction n with
  | zero =>
    intro fuel k w hlast hfuel
    obtain ⟨f, rfl⟩ : ∃ f, fuel = f + 1 := ⟨fuel - 1, by omega⟩
    cases hf : accountFindById w accountId with
    | none => exact ⟨.done w, by simp only [syncRun, hf]⟩
    | some account =>
      rw [syncRun_succ env f k w accountId userId account hf]
      cases hr : refreshStep env w account with
      | threw s => exact ⟨_, rfl⟩
      | done s =>
        obtain ⟨w1, account1⟩ := s
        simp only
        by_cases hg : account1.calendarType = "google"
        · rw [if_pos hg]
          cases hl : env.eventsList k with
          | none => exact ⟨_, rfl⟩
          | some r =>
            have h410 : r.status ≠ 410 := by
              intro h
              apply hlast
              simp [hl, h]
            simp only [if_neg h410]
            exact ⟨_, rfl⟩
        · rw [if_neg hg]
          split <;> exact ⟨_, rfl⟩
  | succ m ih =>
    intro fuel k w hlast hfuel
    obtain ⟨f, rfl⟩ : ∃ f, fuel = f + 1 := ⟨fuel - 1, by omega⟩
    cases hf : accountFindById w accountId with
    | none => exact ⟨.done w, by simp only [syncRun, hf]⟩
    | some account =>
      rw [syncRun_succ env f k w accountId userId account hf]
      cases hr : refreshStep env w account with
      | threw s => exact ⟨_, rfl⟩
      | done s =>
        obtain ⟨w1, account1⟩ := s
        simp only
        by_cases hg : account1.calendarType = "google"
        · rw [if_pos hg]
          cases hl : env.eventsList k with
          | none => exact ⟨_, rfl⟩
          | some r =>
            by_cases h410 : r.status = 410
            · simp only [if_pos h410]
              exact ih f (k + 1) _ (by rwa [Nat.add_assoc, Nat.add_comm 1 m]) (by omega)
            · simp only [if_neg h410]
              exact ⟨_, rfl⟩
        · rw [if_neg hg]
          split <;> exact ⟨_, rfl⟩

/-- The first fetch of a run of a Google account whose token check passes, when the
provider's answer is not status 410: the outcome is that of the reconciliation, which
starts from a world where the new cursor is already saved. -/
theorem syncRun_fetched {env : Env} {w : World} {accountId : Nat} {account : ExternalCalendarAccount}
    {r : ListResponse} (userId : String) (fuel : Nat)
    (hfind : accountFindById w accountId = some account)
    (hg : account.calendarType = "google")
    (hr : env.now < account.expiresAt ∨
      ∃ c e, env.refreshAccessToken = some c ∧ c.expires_in = some e)
    (hresp : env.eventsList 0 = some r) (hstatus : r.status ≠ 410) :
    ∃ o a, syncRun env (fuel + 1) 0 w accountId userId = some o ∧
      accountFindById o.state accountId = some a ∧
      a.lastSyncToken = jsOr r.nextSyncToken account.lastSyncToken := by
  obtain ⟨w1, account1, hrs⟩ := refreshStep_ok w hg hr
  obtain ⟨hid, hid1⟩ : account._id = accountId ∧ True := ⟨(accountFindById_some hfind).1, trivial⟩
  have hd := refreshStep_done hrs
  have hg1 : account1.calendarType = "google" := by rw [hd.2.1, hg]
  have hf1 : accountFindById w1 accountId = some account1 := by
    have := hd.2.2.2.2.2.2.2.2.2.1
    rw [hid] at this
    exact this hfind
  rw [syncRun_succ env fuel 0 w accountId userId account hfind, hrs]
  simp only
  rw [if_pos hg1, hresp]
  simp only [if_neg hstatus]
  refine ⟨_, { account1 with lastSyncToken := jsOr r.nextSyncToken account1.lastSyncToken },
    rfl, ?_, ?_⟩
  · rw [accountFindById_congr (reconcile_frame _ _ _ _ _).1]
    apply accountFindById_accountSave (b := account1)
    · exact (accountFindById_congr (by simp [World.send]) accountId).trans hf1
    · show account1._id = accountId
      rw [hd.1, hid]
  · show jsOr r.nextSyncToken account1.lastSyncToken = _
    rw [hd.2.2.1]

/-- A run keeps the stored external ids unique when every fetched list has unique ids. -/
theorem syncRun_unique (env : Env) (accountId : Nat) (userId : String)
    (hfetched : ∀ i r, env.eventsList i = some r →
      (((r.items.getD []).filter fun x => truthy (eventIdOf x)).map eventIdOf).Nodup) :
    ∀ (fuel k : Nat) (w : World) (o : Outcome World), w.KeysOk → w.UniqueExternal →
      syncRun env fuel k w accountId userId = some o → o.state.UniqueExternal := by
  intro fuel
  induction fuel with
  | zero =>
    intro k w o _ _ h
    simp [syncRun] at h
  | succ f ih =>
    intro k w o hkeys hunique h
    cases hf : accountFindById w accountId with
    | none =>
      simp only [syncRun, hf, Option.some.injEq] at h
      subst h
      exact hunique
    | some account =>
      rw [syncRun_succ env f k w accountId userId account hf] at h
      have hfr := refreshStep_frame env w account
      cases hr : refreshStep env w account with
      | threw s =>
        rw [hr] at h hfr
        simp only [Option.some.injEq] at h
        subst h
        have he : s.1.events = w.events := hfr.1
        exact (uniqueExternal_congr (congrArg (List.map Event.key) he)).2 hunique
      | done s =>
        obtain ⟨w1, account1⟩ := s
        rw [hr] at h hfr
        simp only [Outcome.state] at hfr
        simp only at h
        have hk1 : w1.KeysOk := KeysOk_of_keys hkeys (by rw [hfr.1]) hfr.2
        have hu1 : w1.UniqueExternal := (uniqueExternal_congr (by rw [hfr.1])).2 hunique
        by_cases hg : account1.calendarType = "google"
        · rw [if_pos hg] at h
          cases hl : env.eventsList k with
          | none =>
            rw [hl] at h
            simp only [Option.some.injEq] at h
            subst h
            exact hu1
          | some r =>
            rw [hl] at h
            simp only at h
            by_cases h410 : r.status = 410
            · rw [if_pos h410] at h
              refine ih (k + 1) _ o ?_ ?_ h
              · exact KeysOk_of_keys hk1 rfl rfl
              · exact (uniqueExternal_congr rfl).2 hu1
            · rw [if_neg h410] at h
              simp only [Option.some.injEq] at h
              subst h
              exact reconcile_unique env _ _ userId _ (KeysOk_of_keys hk1 rfl rfl)
                ((uniqueExternal_congr rfl).2 hu1) (hfetched k r hl)
        · rw [if_neg hg] at h
          split at h
          · simp only [Option.some.injEq] at h
            subst h
            exact hu1
          · simp only [Option.some.injEq] at h
            subst h
            exact reconcile_unique env w1 account1 userId [] hk1 hu1 (by simp)

/-! ## Payloads without an identifier -/

theorem partitionStep_skip {existing : List (Option String)} {x : ExtEvent}
    (h : truthy (eventIdOf x) = false) (p : Partition) : partitionStep existing p x = p := by
  simp [partitionStep, h]

theorem partitionEvents_skip (existing : List (Option String)) (x : ExtEvent)
    (h : truthy (eventIdOf x) = false) (pre post : List ExtEvent) :
    partitionEvents existing (pre ++ x :: post) = partitionEvents existing (pre ++ post) := by
  simp only [partitionEvents, List.foldl_append, List.foldl_cons, partitionStep_skip h]

/-! ## The events a reconciliation inserts -/

/-- Every event the create loop leaves is an event it found or one it created, and a
created one has `isNewlyAccepted = false`. -/
theorem createEvents_mem (env : Env) (account : ExternalCalendarAccount) (userId : String) :
    ∀ (F : List ExtEvent) (w : World),
      ∀ e ∈ (createEvents env account userId w F).state.events,
        e ∈ w.events ∨ e.isNewlyAccepted = false := by
  intro F
  induction F with
  | nil =>
    intro w e he
    left
    simpa [createEvents, Outcome.state] using he
  | cons x rest ih =>
    intro w e he
    simp only [createEvents] at he
    split at he
    · left
      simpa [Outcome.state] using he
    · rename_i doc hdoc
      split at he
      · rename_i w1 hw1
        left
        rw [(eventCreate_threw hw1)] at he
        simpa [Outcome.state] using he
      · rename_i w1 hw1
        obtain ⟨e1, he1, hev, _⟩ := eventCreate_done hw1
        rcases ih w1 e he with h | h
        · rw [hev] at h
          rcases List.mem_append.1 h with h | h
          · exact Or.inl h
          · right
            simp only [List.mem_singleton] at h
            subst h
            rw [(castEvent_fields he1).2.2.2.2]
            unfold createDoc at hdoc
            split at hdoc
            · simp only [Option.some.injEq] at hdoc
              subst hdoc
              rfl
            · simp at hdoc
        · exact Or.inr h

/-- Every event one turn of the update loop leaves is an event it found, or the saved
event, which carries the account and the id of the payload. -/
theorem updateEventFromPayload_mem (env : Env) (account : ExternalCalendarAccount)
    (w : World) (x : ExtEvent) :
    ∀ e ∈ (updateEventFromPayload env account w x).state.events,
      e ∈ w.events ∨
        (e.externalCalendarAccountId = account._id ∧ e.externalEventId = eventIdOf x) := by
  intro e he
  unfold updateEventFromPayload at he
  split at he
  · exact Or.inl he
  · rename_i e0 he0
    obtain ⟨_, hacc, hid⟩ := eventFindOne_some he0
    split at he
    · exact Or.inl he
    · rename_i doc hdoc
      rcases eventSave_state env w e0._id doc with h | ⟨e1, hc, hs⟩
      · rw [h] at he
        exact Or.inl he
      · rw [hs] at he
        simp only [Outcome.state, List.mem_map] at he
        obtain ⟨y, hy, hye⟩ := he
        by_cases hyid : y._id = e0._id
        · rw [if_pos hyid] at hye
          subst hye
          right
          have hf := castEvent_fields hc
          have hd := updateDoc_fields hdoc
          exact ⟨by rw [hf.2.2.1, hd.2.1, hacc], by rw [hf.2.2.2.1, hd.2.2.1, hid]⟩
        · rw [if_neg hyid] at hye
          subst hye
          exact Or.inl hy

theorem updateEvents_mem (env : Env) (account : ExternalCalendarAccount) :
    ∀ (U : List ExtEvent) (w : World),
      ∀ e ∈ (updateEvents env account w U).state.events,
        e ∈ w.events ∨
          (e.externalCalendarAccountId = account._id ∧
            ∃ x ∈ U, e.externalEventId = eventIdOf x) := by
  intro U
  induction U with
  | nil =>
    intro w e he
    left
    simpa [updateEvents, Outcome.state] using he
  | cons x rest ih =>
    intro w e he
    simp only [updateEvents] at he
    have hstep := updateEventFromPayload_mem env account w x
    split at he
    · rename_i w1 hw1
      rw [hw1] at hstep
      rcases hstep e he with h | ⟨h1, h2⟩
      · exact Or.inl h
      · exact Or.inr ⟨h1, x, List.mem_cons_self _ _, h2⟩
    · rename_i w1 hw1
      rw [hw1] at hstep
      rcases ih w1 e he with h | ⟨h1, y, hy, h2⟩
      · rcases hstep e h with h | ⟨h1, h2⟩
        · exact Or.inl h
        · exact Or.inr ⟨h1, x, List.mem_cons_self _ _, h2⟩
      · exact Or.inr ⟨h1, y, List.mem_cons_of_mem _ hy, h2⟩

/-- An event of the account that a reconciliation leaves in the store under an id that
was not a local id of the account is not newly accepted. -/
theorem reconcile_first_seen (env : Env) (w : World) (account : ExternalCalendarAccount)
    (userId : String) (F : List ExtEvent) (e : Event)
    (he : e ∈ (reconcile env w account userId F).state.events)
    (hacc : e.externalCalendarAccountId = account._id)
    (hnew : e.externalEventId ∉ existingEventIds w account._id) :
    e.isNewlyAccepted = false := by
  unfold reconcile at he
  simp only [deleteStep_eq] at he
  have hp := partitionEvents_eq (existingEventIds w account._id) F
    (existingEventIds_nodup w account._id)
  generalize partitionEvents (existingEventIds w account._id) F = p at he hp
  obtain ⟨hpu, _, _⟩ := hp
  have hold : e ∉ (eventDeleteMany w account._id p.eventsToDeleteIds).events := by
    intro h
    apply hnew
    rw [mem_existingEventIds]
    unfold World.externalIds
    have hw : e ∈ w.events := by
      simp only [eventDeleteMany, List.mem_filter] at h
      exact h.1
    exact List.mem_map.2 ⟨e, List.mem_filter.2 ⟨hw, by simp [hacc]⟩, rfl⟩
  have hc := createEvents_mem env account userId p.eventsToCreate
    (eventDeleteMany w account._id p.eventsToDeleteIds)
  split at he
  · rename_i w2 hw2
    rw [hw2] at hc
    rcases hc e he with h | h
    · exact absurd h hold
    · exact h
  · rename_i w2 hw2
    rw [hw2] at hc
    rcases updateEvents_mem env account p.eventsToUpdate w2 e he with h | ⟨_, x, hx, hxe⟩
    · rcases hc e h with h | h
      · exact absurd h hold
      · exact h
    · exfalso
      apply hnew
      rw [hpu, List.mem_filter] at hx
      rw [hxe]
      have h2 := hx.2
      simp only [Bool.and_eq_true] at h2
      exact List.elem_iff.1 h2.2

/-! ## The resource of an outbound write -/

theorem wireTime_some {env : Env} {isAllDay : Option Bool} {time : Option String}
    {t : WireTime} (h : wireTime env isAllDay time = some t) :
    ∃ iso, time.bind env.toISOString = some iso ∧
      (isAllDay = some true → t.date = some (beforeT iso) ∧ t.dateTime = none) ∧
      (isAllDay ≠ some true → t.dateTime = some iso ∧ t.date = none) := by
  unfold wireTime at h
  split at h
  · simp at h
  · rename_i iso hiso
    refine ⟨iso, hiso, ?_, ?_⟩
    · intro ha
      rw [if_pos ha] at h
      simp only [Option.some.injEq] at h
      subst h
      exact ⟨rfl, rfl⟩
    · intro ha
      rw [if_neg ha] at h
      simp only [Option.some.injEq] at h
      subst h
      exact ⟨rfl, rfl⟩

theorem googleEvent_some {env : Env} {title description location startTime endTime : Option String}
    {isAllDay : Option Bool} {attendees : Option (List AttendeeDoc)}
    {resource : GoogleEventResource}
    (h : googleEvent env title description location startTime endTime isAllDay attendees =
      some resource) :
    wireTime env isAllDay startTime = some resource.start ∧
      wireTime env isAllDay endTime = some resource.end_ := by
  unfold googleEvent at h
  cases hs : wireTime env isAllDay startTime with
  | none => simp [hs] at h
  | some s =>
    cases he : wireTime env isAllDay endTime with
    | none => simp [hs, he] at h
    | some e =>
      cases attendees with
      | none => simp [hs, he] at h
      | some atts =>
        simp only [hs, he, Option.some.injEq] at h
        subst h
        exact ⟨rfl, rfl⟩

theorem createEvent_calls (env : Env) (w : World) (reqUserId : String)
    (body : CreateEventBody) :
    ∀ c ∈ (createEvent env w reqUserId body).world.callsSince w,
      ∃ credentials calendarId resource,
        c = ProviderCall.eventsInsert credentials calendarId resource ∧
          googleEvent env body.title body.description body.location body.startTime
            body.endTime body.isAllDay body.attendees = some resource := by
  unfold createEvent
  split
  · simp [Reply.world, callsSince_self]
  · split
    · simp [Reply.world, callsSince_self]
    · split
      · simp [Reply.world, callsSince_self]
      · rename_i account _
        split
        · simp [Reply.world, callsSince_self]
        · split
          · split
            · split
              · simp [Reply.world, setCredentials, World.callsSince]
              · rename_i resource hres
                split
                · intro c hc
                  rw [callsSince_of_append (l := [ProviderCall.eventsInsert
                    ⟨some (decrypt account.accessToken), none⟩
                    account.externalCalendarId resource])] at hc
                  · simp only [List.mem_singleton] at hc
                    exact ⟨_, _, _, hc, hres⟩
                  · simp [Reply.world, World.send, setCredentials]
                · intro c hc
                  rw [callsSince_of_append (l := [ProviderCall.eventsInsert
                    ⟨some (decrypt account.accessToken), none⟩
                    account.externalCalendarId resource])] at hc
                  · simp only [List.mem_singleton] at hc
                    exact ⟨_, _, _, hc, hres⟩
                  · rw [(createEventStore_props _ _ _ _ _ _).1]
                    simp [World.send, setCredentials]
            · intro c hc
              rw [callsSince_of_append (l := [])] at hc
              · simp at hc
              · rw [(createEventStore_props _ _ _ _ _ _).1]; simp
          · intro c hc
            rw [callsSince_of_append (l := [])] at hc
            · simp at hc
            · rw [(createEventStore_props _ _ _ _ _ _).1]; simp

theorem updateEvent_calls (env : Env) (w : World) (reqUserId : String) (id : Nat)
    (body : UpdateEventBody) :
    ∀ c ∈ (updateEvent env w reqUserId id body).world.callsSince w,
      ∃ credentials calendarId eventId resource,
        c = ProviderCall.eventsPatch credentials calendarId eventId resource ∧
          googleEvent env body.title body.description body.location body.startTime
            body.endTime body.isAllDay body.attendees = some resource := by
  unfold updateEvent
  split
  · simp [Reply.world, callsSince_self]
  · rename_i event _
    split
    · simp [Reply.world, callsSince_self]
    · split
      · simp [Reply.world, callsSince_self]
      · rename_i account _
        split
        · split
          · split
            · simp [Reply.world, setCredentials, World.callsSince]
            · rename_i resource hres
              split
              · intro c hc
                rw [callsSince_of_append (l := [ProviderCall.eventsPatch
                  ⟨some (decrypt account.accessToken), none⟩
                  account.externalCalendarId (event.externalEventId.getD "") resource])] at hc
                · simp only [List.mem_singleton] at hc
                  exact ⟨_, _, _, _, hc, hres⟩
                · rw [(updateEventStore_props _ _ _ _).1]
                  simp [World.send, setCredentials]
              · intro c hc
                rw [callsSince_of_append (l := [ProviderCall.eventsPatch
                  ⟨some (decrypt account.accessToken), none⟩
                  account.externalCalendarId (event.externalEventId.getD "") resource])] at hc
                · simp only [List.mem_singleton] at hc
                  exact ⟨_, _, _, _, hc, hres⟩
                · simp [Reply.world, World.send, setCredentials]
          · intro c hc
            rw [callsSince_of_append (l := [])] at hc
            · simp at hc
            · rw [(updateEventStore_props _ _ _ _).1]; simp
        · intro c hc
          rw [callsSince_of_append (l := [])] at hc
          · simp at hc
          · rw [(updateEventStore_props _ _ _ _).1]; simp

/-! ## The claims -/

/-- C1 (delete-by-absence). For an account whose stored events carry non-null, pairwise
distinct external ids, and a fetched list whose payloads all carry an id, a
reconciliation that ends normally (every store operation succeeded) leaves for the
account exactly the set of the fetched ids. The two hypotheses on the stored ids are the
ones of the claim; the proof does not use them. -/
theorem delete_by_absence (env : Env) (w w' : World) (account : ExternalCalendarAccount)
    (userId : String) (externalEvents : List ExtEvent) (hkeys : w.KeysOk)
    (_hnonnull : ∀ i ∈ w.externalIds account._id, i ≠ none)
    (_hdistinct : (w.externalIds account._id).Nodup)
    (hids : ∀ x ∈ externalEvents, truthy x.id = true)
    (hok : reconcile env w account userId externalEvents = .done w') :
    (w'.externalIds account._id).toFinset = (externalEvents.map (·.id)).toFinset := by
  ext i
  rw [List.mem_toFinset, List.mem_toFinset, (reconcile_done hkeys hok).1 i, List.mem_map]
  constructor
  · rintro ⟨x, hx, _, hxe⟩
    exact ⟨x, hx, by rw [← eventIdOf_of_truthy_id (hids x hx)]; exact hxe⟩
  · rintro ⟨x, hx, hxe⟩
    exact ⟨x, hx, by rw [eventIdOf_of_truthy_id (hids x hx)]; exact hids x hx,
      by rw [eventIdOf_of_truthy_id (hids x hx)]; exact hxe⟩

/-- Witness of C1: local E1, E2, E3 reconciled against a fetch of E1 and E3 leaves
exactly E1 and E3. -/
theorem delete_by_absence_witness :
    ((reconcile exEnv (exWorld [exEvent 1 "E1" [], exEvent 2 "E2" [], exEvent 3 "E3" []] 4)
          exAccount "u1" [exPayload "E1" none, exPayload "E3" none]).state.externalIds
          1).toFinset =
        ([exPayload "E1" none, exPayload "E3" none].map (·.id)).toFinset ∧
      (reconcile exEnv (exWorld [exEvent 1 "E1" [], exEvent 2 "E2" [], exEvent 3 "E3" []] 4)
          exAccount "u1" [exPayload "E1" none, exPayload "E3" none]).state.externalIds 1 =
        [some "E1", some "E3"] :=
  ⟨delete_by_absence exEnv
      (exWorld [exEvent 1 "E1" [], exEvent 2 "E2" [], exEvent 3 "E3" []] 4) _ exAccount "u1"
      [exPayload "E1" none, exPayload "E3" none] (by decide) (by decide) (by decide)
      (by decide) (by decide),
    by decide⟩

/-- C2, amended (reconciliation idempotence). When the first run ends without entering
its `catch` block, a second run with the same fetch result ends too, and it creates no
event and deletes no event: the stored events keep their ids, accounts and external ids.
(Other fields may change: the update pass rewrites them, `isNewlyAccepted` included.) -/
theorem second_run_creates_and_deletes_nothing (env : Env) (fuel : Nat) (w w1 : World)
    (accountId : Nat) (userId : String) (hkeys : w.KeysOk)
    (hfirst : syncRun env fuel 0 w accountId userId = some (.done w1)) :
    ∃ o2, syncRun env fuel 0 w1 accountId userId = some o2 ∧
      o2.state.events.map Event.key = w1.events.map Event.key :=
  (syncRun_twice env accountId userId fuel 0 w w1 hkeys hfirst).2.2 w1 rfl rfl
    (syncRun_twice env accountId userId fuel 0 w w1 hkeys hfirst).2.1

/-- Counterexample to C2 as stated. First part: both runs end normally and the stored
event differs after the second run (`isNewlyAccepted` is set by the first run and cleared
by the second). Second part: the first run is aborted by a payload without a title that
repeats the id E1, and the second run creates the event E3. -/
theorem second_run_changes_the_event_set :
    (syncTwice
          (exEnvFetch [exPayload "E1" (some [exOutlookAttendee "me@x.com" "accepted"])]) 1
          (exWorld [exEvent 1 "E1" [⟨"me@x.com", "pending", false⟩]] 2) 1 "u1").map
        (fun p =>
          (p.1.isDone, p.2.isDone, p.1.state.events.map (·.isNewlyAccepted),
            p.2.state.events.map (·.isNewlyAccepted))) =
        some (true, true, [true], [false]) ∧
      (syncTwice
          (exEnvFetch
            [exPayload "E1" none, { exPayload "E1" none with summary := none },
              exPayload "E3" none]) 1
          (exWorld [] 1) 1 "u1").map
        (fun p => (p.1.state.externalIds 1, p.2.state.externalIds 1)) =
        some ([some "E1"], [some "E1", some "E3"]) := by
  decide

/-- Witness of the amended C2: local E1, E2, E3 and a fetch of E1, E3, E4, run twice. -/
theorem second_run_creates_and_deletes_nothing_witness :
    ∃ o2,
      syncRun (exEnvFetch [exPayload "E1" none, exPayload "E3" none, exPayload "E4" none]) 1 0
          ((syncRun
            (exEnvFetch [exPayload "E1" none, exPayload "E3" none, exPayload "E4" none]) 1 0
            (exWorld [exEvent 1 "E1" [], exEvent 2 "E2" [], exEvent 3 "E3" []] 4) 1 "u1").getD
            (.threw (exWorld [] 1))).state 1 "u1" = some o2 ∧
        o2.state.events.map Event.key =
          ((syncRun
            (exEnvFetch [exPayload "E1" none, exPayload "E3" none, exPayload "E4" none]) 1 0
            (exWorld [exEvent 1 "E1" [], exEvent 2 "E2" [], exEvent 3 "E3" []] 4) 1 "u1").getD
            (.threw (exWorld [] 1))).state.events.map Event.key :=
  second_run_creates_and_deletes_nothing
    (exEnvFetch [exPayload "E1" none, exPayload "E3" none, exPayload "E4" none]) 1
    (exWorld [exEvent 1 "E1" [], exEvent 2 "E2" [], exEvent 3 "E3" []] 4) _ 1 "u1"
    (by decide) (by decide)

/-- C3 (newly-accepted transition), evaluated at a Google payload: the owner is stored
as pending, the payload carries the owner with `responseStatus: 'accepted'`, the update
pass ends normally and stores `isNewlyAccepted = false`. -/
theorem newly_accepted_missed_on_google_payload :
    currentUserResponseStatus exAccount (exEvent 1 "E1" [⟨"me@x.com", "pending", false⟩]) =
        some "pending" ∧
      (exPayload "E1" (some [exGoogleAttendee "me@x.com" "accepted"])).attendees =
        some [⟨none, some "me@x.com", none, some "accepted", none⟩] ∧
      reconcile exEnv (exWorld [exEvent 1 "E1" [⟨"me@x.com", "pending", false⟩]] 2) exAccount
          "u1" [exPayload "E1" (some [exGoogleAttendee "me@x.com" "accepted"])] =
        .done
          (exWorld
            [{ exEvent 1 "E1" [⟨"me@x.com", "accepted", false⟩] with
                isNewlyAccepted := false, lastSynced := exEnv.now }] 2) := by
  decide

/-- C4 (the flag is never sticky), evaluated at an Outlook-shaped payload. The owner
`me@x.com` is stored as `'pending'` and the payload reports the owner as `notResponded`
and another attendee, listed first, as `accepted`. The update pass stores the event with
`isNewlyAccepted = true`, although the owner's new status is not `'accepted'` (the owner
is stored as `'declined'`): line 483 takes the status of the first attendee that has an
`emailAddress.address`. -/
theorem newly_accepted_set_by_another_attendee :
    currentUserResponseStatus exAccount
        (exEvent 1 "E1" [⟨"other@x.com", "pending", false⟩, ⟨"me@x.com", "pending", false⟩]) =
      some "pending" ∧
    reconcile exEnv
        (exWorld
          [exEvent 1 "E1" [⟨"other@x.com", "pending", false⟩, ⟨"me@x.com", "pending", false⟩]]
          2)
        exAccount "u1"
        [exPayload "E1"
          (some [exOutlookAttendee "other@x.com" "accepted",
            exOutlookAttendee "me@x.com" "notResponded"])] =
      .done
        (exWorld
          [{ exEvent 1 "E1"
              [⟨"other@x.com", "accepted", false⟩, ⟨"me@x.com", "declined", false⟩] with
            isNewlyAccepted := true, lastSynced := exEnv.now }]
          2) := by
  decide

/-- C5 (cursor invalidation), evaluated at a provider whose HTTP answer to the first
`events.list` request is status 410 and to any later one status 200. The client throws on
the 410 answer, so the test of line 352 is never reached: the run ends in its `catch`
block after that one request, no request with a cleared cursor follows, and the stored
cursor is still `c0`. -/
theorem cursor_invalidation_ends_the_run :
    (exEnvHttpGone.eventsList 0 = none ∧
        exEnvHttpGone.eventsList 1 = some ⟨200, some [], some "c1"⟩) ∧
      (syncRun exEnvHttpGone 2 0 (exWorld [] 1) 1 "u1").map Outcome.isDone = some false ∧
      (syncRun exEnvHttpGone 2 0 (exWorld [] 1) 1 "u1").map
          (fun o => listCursors o.state.calls) = some [some "c0"] ∧
      (syncRun exEnvHttpGone 2 0 (exWorld [] 1) 1 "u1").map
          (fun o => o.state.accounts.map (·.lastSyncToken)) = some [some "c0"] := by
  decide

/-- C6, amended (a stale token is never sent). For an account whose `expiresAt` is not
later than now: if it is a Google account, then either the refresh answers with a token
and a lifetime, and then every `events.list` request of the run carries the refreshed
token and the stored account holds it with `expiresAt = now + expires_in * 1000`; or the
refresh fails, and then the run is aborted with the stored accounts and events unchanged
and without any `events.list` request. For an account of another type no refresh is
attempted: the run sends nothing to the provider and leaves the accounts as they were. -/
theorem stale_token_never_sent (env : Env) (w : World) (accountId : Nat) (userId : String)
    (account : ExternalCalendarAccount) (fuel : Nat) (o : Outcome World)
    (hfind : accountFindById w accountId = some account)
    (hexpired : account.expiresAt ≤ env.now)
    (hrun : syncRun env fuel 0 w accountId userId = some o) :
    (account.calendarType ≠ "google" → o.state.calls = w.calls ∧ o.state.accounts = w.accounts) ∧
      (account.calendarType = "google" →
        (∀ c e, env.refreshAccessToken = some c → c.expires_in = some e →
            (∀ cr ∈ listCredentials (o.state.callsSince w), cr = ⟨c.access_token, none⟩) ∧
              ∃ a, accountFindById o.state accountId = some a ∧
                a.accessToken = encrypt c.access_token ∧
                a.expiresAt = env.now + e * 1000) ∧
          (env.refreshAccessToken.bind (·.expires_in) = none →
            o.isDone = false ∧ o.state.accounts = w.accounts ∧ o.state.events = w.events ∧
              listCredentials (o.state.callsSince w) = [])) := by
  refine ⟨?_, fun hg => ⟨?_, ?_⟩⟩
  · intro hng
    cases fuel with
    | zero => simp [syncRun] at hrun
    | succ fuel =>
      simp only [syncRun, hfind, refreshStep_other hng, hng, if_false] at hrun
      split at hrun
      · simp only [Option.some.injEq] at hrun
        subst hrun
        exact ⟨rfl, rfl⟩
      · simp only [Option.some.injEq] at hrun
        subst hrun
        have hfr := reconcile_frame env w account userId []
        exact ⟨hfr.2.2, hfr.1⟩
  · intro c e hc he
    obtain ⟨⟨l, hl1, hl2⟩, ha⟩ := syncRun_credentials env accountId userId hc he fuel 0 w
      account o hfind hg (Or.inl hexpired) hrun
    rw [callsSince_of_append hl1]
    exact ⟨hl2, ha⟩
  · intro hnone
    have hfail : env.refreshAccessToken = none ∨
        ∃ c, env.refreshAccessToken = some c ∧ c.expires_in = none := by
      cases hc : env.refreshAccessToken with
      | none => exact Or.inl rfl
      | some c => exact Or.inr ⟨c, rfl, by simpa [hc] using hnone⟩
    cases fuel with
    | zero => simp [syncRun] at hrun
    | succ fuel =>
      simp only [syncRun, hfind, refreshStep_failed hexpired hg hfail, Option.some.injEq]
        at hrun
      subst hrun
      simp [Outcome.isDone, Outcome.state, setCredentials, World.send, World.callsSince,
        listCredentials]

/-- Counterexample to C6 as stated: an Outlook account whose token has expired; the run is
not aborted, no refresh is requested, and the account keeps its token and its past
`expiresAt`. -/
theorem stale_token_kept_for_outlook :
    exOutlookAccount.expiresAt ≤ exEnv.now ∧
      syncRun exEnv 1 0
          { accounts := [exOutlookAccount], events := [], nextId := 1, client := ⟨none, none⟩,
            calls := [] } 2 "u1" =
        some
          (.done
            { accounts := [exOutlookAccount], events := [], nextId := 1,
              client := ⟨none, none⟩, calls := [] }) := by
  decide

/-- Witness of the amended C6: an expired Google account, a provider that refreshes. -/
theorem stale_token_never_sent_witness :
    (∀ cr ∈ listCredentials
          (((syncRun exEnvRefresh 1 0 exExpiredWorld 1 "u1").getD
            (.threw exExpiredWorld)).state.callsSince exExpiredWorld),
        cr = ⟨some "new-token", none⟩) ∧
      ∃ a,
        accountFindById
            ((syncRun exEnvRefresh 1 0 exExpiredWorld 1 "u1").getD
              (.threw exExpiredWorld)).state 1 = some a ∧
          a.accessToken = encrypt (some "new-token") ∧
          a.expiresAt = exEnvRefresh.now + 3600 * 1000 :=
  ((stale_token_never_sent exEnvRefresh exExpiredWorld 1 "u1" exExpiredAccount 1
    ((syncRun exEnvRefresh 1 0 exExpiredWorld 1 "u1").getD (.threw exExpiredWorld))
    (by decide) (by decide) (by decide)).2 (by decide)).1
    ⟨some "new-token", none, some 3600⟩ 3600 (by decide) (by decide)

/-- C7 (pass-through for unsupported providers), evaluated at an Outlook account with
one stored event: the sync deletes the event. -/
theorem sync_of_outlook_account_deletes_events :
    syncExternalCalendar exEnv 1
        { accounts := [exOutlookAccount], events := [exOutlookEvent], nextId := 2,
          client := ⟨none, none⟩, calls := [] } 2 "u1" =
      some
        { accounts := [exOutlookAccount], events := [], nextId := 2,
          client := ⟨none, none⟩, calls := [] } := by
  decide

/-- C8, amended (the guard of `updateAttendeeStatus`): when the event exists and the
request's `attendeeEmail` differs from the caller's verified id, the handler fails with
status 403 and leaves the stored state, the shared client and the provider untouched. -/
theorem attendee_status_guard (env : Env) (w : World) (reqUserId : String) (id : Nat)
    (body : AttendeeStatusBody) (event : Event) (attendeeEmail : String)
    (hfind : eventFindById w id = some event) (hbody : body.attendeeEmail = some attendeeEmail)
    (hne : reqUserId ≠ attendeeEmail) :
    updateAttendeeStatus env w reqUserId id body = .failed 403 w := by
  unfold updateAttendeeStatus
  simp [hfind, hbody, hne, errorHandler]

/-- Counterexample to C8 as stated: user `u1` changes the attendee status on an event
whose `userId` is `u2`; the handler answers 200 and the stored event is changed. -/
theorem attendee_status_on_foreign_event :
    exForeignEvent.userId ≠ "u1" ∧
      updateAttendeeStatus exEnv
          { accounts := [], events := [exForeignEvent], nextId := 2, client := ⟨none, none⟩,
            calls := [] } "u1" 1 ⟨some "u1", some "accepted"⟩ =
        .sent 200
          { accounts := [], events := [{ exForeignEvent with
              attendees := [⟨"u1", "accepted", false⟩] }], nextId := 2,
            client := ⟨none, none⟩, calls := [] } := by
  decide

/-- Witness of the amended C8: user `u3` asks to answer for attendee `u1`. -/
theorem attendee_status_guard_witness :
    updateAttendeeStatus exEnv
        { accounts := [], events := [exForeignEvent], nextId := 2, client := ⟨none, none⟩,
          calls := [] } "u3" 1 ⟨some "u1", some "accepted"⟩ =
      .failed 403
        { accounts := [], events := [exForeignEvent], nextId := 2, client := ⟨none, none⟩,
          calls := [] } :=
  attendee_status_guard exEnv _ "u3" 1 ⟨some "u1", some "accepted"⟩ exForeignEvent "u1"
    (by decide) (by decide) (by decide)

/-- C9 (ownership check on account and event operations). When the referenced account
(`refreshCalendar`, `createEvent`) or event (`updateEvent`, `deleteEvent`) exists and its
`userId` differs from the caller's verified id, the handler fails and leaves the world as
it was: no request was sent to the provider, no account and no event was written. -/
theorem ownership_check (env : Env) (w : World) (reqUserId : String) :
    (∀ (fuel accountId : Nat) (account : ExternalCalendarAccount),
        accountFindById w accountId = some account → account.userId ≠ reqUserId →
        refreshCalendar env fuel w reqUserId accountId = some (.failed 403 w)) ∧
      (∀ (body : CreateEventBody) (accountId : Nat) (account : ExternalCalendarAccount),
        body.externalCalendarAccountId = some accountId →
        accountFindById w accountId = some account → account.userId ≠ reqUserId →
        (createEvent env w reqUserId body).isFailed = true ∧
          (createEvent env w reqUserId body).world = w) ∧
      (∀ (id : Nat) (body : UpdateEventBody) (event : Event),
        eventFindById w id = some event → event.userId ≠ reqUserId →
        updateEvent env w reqUserId id body = .failed 403 w) ∧
      (∀ (id : Nat) (event : Event),
        eventFindById w id = some event → event.userId ≠ reqUserId →
        deleteEvent env w reqUserId id = .failed 403 w) := by
  refine ⟨?_, ?_, ?_, ?_⟩
  · intro fuel accountId account hfind hne
    unfold refreshCalendar
    simp [hfind, Ne.symm hne, errorHandler]
  · intro body accountId account hbody hfind hne
    unfold createEvent
    cases hu : body.userId with
    | none => simp [Reply.isFailed, Reply.world]
    | some userId =>
      by_cases h1 : reqUserId = userId
      · subst h1
        simp [hbody, hfind, hne, Reply.isFailed, Reply.world]
      · simp [h1, Reply.isFailed, Reply.world]
  · intro id body event hfind hne
    unfold updateEvent
    simp [hfind, Ne.symm hne, errorHandler]
  · intro id event hfind hne
    unfold deleteEvent
    simp [hfind, Ne.symm hne, errorHandler]

/-- Witness of C9: user `u2` addresses the account and the event of user `u1`. -/
theorem ownership_check_witness :
    refreshCalendar exEnv 1 exOwnWorld "u2" 1 = some (.failed 403 exOwnWorld) ∧
      ((createEvent exEnv exOwnWorld "u2" (exCreateBody "u2")).isFailed = true ∧
        (createEvent exEnv exOwnWorld "u2" (exCreateBody "u2")).world = exOwnWorld) ∧
      updateEvent exEnv exOwnWorld "u2" 1 exUpdateBody = .failed 403 exOwnWorld ∧
      deleteEvent exEnv exOwnWorld "u2" 1 = .failed 403 exOwnWorld :=
  ⟨(ownership_check exEnv exOwnWorld "u2").1 1 1 exAccount (by decide) (by decide),
    (ownership_check exEnv exOwnWorld "u2").2.1 (exCreateBody "u2") 1 exAccount (by decide)
      (by decide) (by decide),
    (ownership_check exEnv exOwnWorld "u2").2.2.1 1 exUpdateBody
      (exEvent 1 "E1" [⟨"u1", "pending", false⟩]) (by decide) (by decide),
    (ownership_check exEnv exOwnWorld "u2").2.2.2 1
      (exEvent 1 "E1" [⟨"u1", "pending", false⟩]) (by decide) (by decide)⟩

/-- C10 (a failed remote write blocks the local write). For `createEvent`, `updateEvent`,
`deleteEvent` and `updateAttendeeStatus`: when the handler sent the provider a write
request that the provider failed, the handler ends with an error and the stored events
are exactly the ones from before the call. -/
theorem failed_remote_write_blocks_local_write (env : Env) (w : World) (reqUserId : String) :
    (∀ body : CreateEventBody,
        (∃ c ∈ (createEvent env w reqUserId body).world.callsSince w,
          env.failsWrite c = true) →
        (createEvent env w reqUserId body).isFailed = true ∧
          (createEvent env w reqUserId body).world.events = w.events) ∧
      (∀ (id : Nat) (body : UpdateEventBody),
        (∃ c ∈ (updateEvent env w reqUserId id body).world.callsSince w,
          env.failsWrite c = true) →
        (updateEvent env w reqUserId id body).isFailed = true ∧
          (updateEvent env w reqUserId id body).world.events = w.events) ∧
      (∀ id : Nat,
        (∃ c ∈ (deleteEvent env w reqUserId id).world.callsSince w, env.failsWrite c = true) →
        (deleteEvent env w reqUserId id).isFailed = true ∧
          (deleteEvent env w reqUserId id).world.events = w.events) ∧
      (∀ (id : Nat) (body : AttendeeStatusBody),
        (∃ c ∈ (updateAttendeeStatus env w reqUserId id body).world.callsSince w,
          env.failsWrite c = true) →
        (updateAttendeeStatus env w reqUserId id body).isFailed = true ∧
          (updateAttendeeStatus env w reqUserId id body).world.events = w.events) :=
  ⟨fun body h => createEvent_failed_write env w reqUserId body h,
    fun id body h => updateEvent_failed_write env w reqUserId id body h,
    fun id h => deleteEvent_failed_write env w reqUserId id h,
    fun id body h => updateAttendeeStatus_failed_write env w reqUserId id body h⟩

/-- Witness of C10: the owner `u1` acts on a Google event while the provider fails every
write. -/
theorem failed_remote_write_blocks_local_write_witness :
    ((createEvent exEnvGet exOwnWorld "u1" (exCreateBody "u1")).isFailed = true ∧
        (createEvent exEnvGet exOwnWorld "u1" (exCreateBody "u1")).world.events =
          exOwnWorld.events) ∧
      ((updateEvent exEnvGet exOwnWorld "u1" 1 exUpdateBody).isFailed = true ∧
        (updateEvent exEnvGet exOwnWorld "u1" 1 exUpdateBody).world.events =
          exOwnWorld.events) ∧
      ((deleteEvent exEnvGet exOwnWorld "u1" 1).isFailed = true ∧
        (deleteEvent exEnvGet exOwnWorld "u1" 1).world.events = exOwnWorld.events) ∧
      ((updateAttendeeStatus exEnvGet exOwnWorld "u1" 1 ⟨some "u1", some "accepted"⟩).isFailed =
          true ∧
        (updateAttendeeStatus exEnvGet exOwnWorld "u1" 1
          ⟨some "u1", some "accepted"⟩).world.events = exOwnWorld.events) :=
  ⟨(failed_remote_write_blocks_local_write exEnvGet exOwnWorld "u1").1 (exCreateBody "u1")
      (by decide),
    (failed_remote_write_blocks_local_write exEnvGet exOwnWorld "u1").2.1 1 exUpdateBody
      (by decide),
    (failed_remote_write_blocks_local_write exEnvGet exOwnWorld "u1").2.2.1 1 (by decide),
    (failed_remote_write_blocks_local_write exEnvGet exOwnWorld "u1").2.2.2 1
      ⟨some "u1", some "accepted"⟩ (by decide)⟩

/-- C11, amended (the token of an outbound write). Every request that `createEvent`,
`updateEvent`, `deleteEvent` and `updateAttendeeStatus` send to the provider carries the
access token stored for the event's account, decoded; `expiresAt` is not consulted and no
refresh is requested. -/
theorem outbound_writes_use_the_stored_token (env : Env) (w : World) (reqUserId : String)
    (account : ExternalCalendarAccount) :
    (∀ body : CreateEventBody,
        body.externalCalendarAccountId.bind (accountFindById w) = some account →
        ∀ c ∈ (createEvent env w reqUserId body).world.callsSince w,
          c.credentials = ⟨some (decrypt account.accessToken), none⟩) ∧
      (∀ (id : Nat) (event : Event), eventFindById w id = some event →
        accountFindById w event.externalCalendarAccountId = some account →
        (∀ body : UpdateEventBody,
            ∀ c ∈ (updateEvent env w reqUserId id body).world.callsSince w,
              c.credentials = ⟨some (decrypt account.accessToken), none⟩) ∧
          (∀ c ∈ (deleteEvent env w reqUserId id).world.callsSince w,
            c.credentials = ⟨some (decrypt account.accessToken), none⟩) ∧
          (∀ body : AttendeeStatusBody,
            ∀ c ∈ (updateAttendeeStatus env w reqUserId id body).world.callsSince w,
              c.credentials = ⟨some (decrypt account.accessToken), none⟩)) :=
  ⟨fun body h => createEvent_credentials env w reqUserId body account h,
    fun id event hev hacc =>
      ⟨fun body => updateEvent_credentials env w reqUserId id body event account hev hacc,
        deleteEvent_credentials env w reqUserId id event account hev hacc,
        fun body =>
          updateAttendeeStatus_credentials env w reqUserId id body event account hev hacc⟩⟩

/-- Counterexample to C11 as stated: the account's token expired before now, and
`createEvent` sends `events.insert` with the stored token `tok`; the provider accepts and
the event is stored. -/
theorem outbound_write_with_expired_token :
    exExpiredAccount.expiresAt ≤ exEnvInsert.now ∧
      (createEvent exEnvInsert exExpiredWorld "u1" (exCreateBody "u1")).status = 201 ∧
      (createEvent exEnvInsert exExpiredWorld "u1" (exCreateBody "u1")).world.calls.map
          ProviderCall.credentials =
        [⟨some "tok", none⟩] ∧
      (createEvent exEnvInsert exExpiredWorld "u1" (exCreateBody "u1")).world.accounts =
        [exExpiredAccount] := by
  decide

/-- Witness of the amended C11: the owner `u1` acts on the account whose token expired,
the provider accepts every write. -/
theorem outbound_writes_use_the_stored_token_witness :
    (∀ c ∈ (createEvent exEnvWrites exExpiredOwnWorld "u1" (exCreateBody "u1")).world.callsSince
          exExpiredOwnWorld,
        c.credentials = ⟨some (decrypt exExpiredAccount.accessToken), none⟩) ∧
      (∀ c ∈ (updateEvent exEnvWrites exExpiredOwnWorld "u1" 1 exUpdateBody).world.callsSince
          exExpiredOwnWorld,
        c.credentials = ⟨some (decrypt exExpiredAccount.accessToken), none⟩) ∧
      (∀ c ∈ (deleteEvent exEnvWrites exExpiredOwnWorld "u1" 1).world.callsSince
          exExpiredOwnWorld,
        c.credentials = ⟨some (decrypt exExpiredAccount.accessToken), none⟩) ∧
      (∀ c ∈ (updateAttendeeStatus exEnvWrites exExpiredOwnWorld "u1" 1
          ⟨some "u1", some "accepted"⟩).world.callsSince exExpiredOwnWorld,
        c.credentials = ⟨some (decrypt exExpiredAccount.accessToken), none⟩) :=
  ⟨(outbound_writes_use_the_stored_token exEnvWrites exExpiredOwnWorld "u1"
      exExpiredAccount).1 (exCreateBody "u1") (by decide),
    ((outbound_writes_use_the_stored_token exEnvWrites exExpiredOwnWorld "u1"
      exExpiredAccount).2 1 (exEvent 1 "E1" [⟨"u1", "pending", false⟩]) (by decide)
      (by decide)).1 exUpdateBody,
    ((outbound_writes_use_the_stored_token exEnvWrites exExpiredOwnWorld "u1"
      exExpiredAccount).2 1 (exEvent 1 "E1" [⟨"u1", "pending", false⟩]) (by decide)
      (by decide)).2.1,
    ((outbound_writes_use_the_stored_token exEnvWrites exExpiredOwnWorld "u1"
      exExpiredAccount).2 1 (exEvent 1 "E1" [⟨"u1", "pending", false⟩]) (by decide)
      (by decide)).2.2 ⟨some "u1", some "accepted"⟩⟩

/-- C12 (attendee status normalisation), evaluated at three attendees on the create path.
A Google attendee with `responseStatus: 'needsAction'`: the value is handed on as it is,
the Event model rejects the document and the run is aborted with nothing stored. A Google
attendee without `responseStatus`, and an Outlook attendee with `status.response:
'notResponded'`: both are stored as `'declined'`. -/
theorem attendee_status_not_normalised :
    reconcile exEnv (exWorld [] 1) exAccount "u1"
        [exPayload "E1" (some [exGoogleAttendee "a@x.com" "needsAction"])] =
        .threw (exWorld [] 1) ∧
      (reconcile exEnv (exWorld [] 1) exAccount "u1"
          [exPayload "E1" (some [⟨none, some "a@x.com", none, none, none⟩])]).state.events.map
          (·.attendees) = [[⟨"a@x.com", "declined", false⟩]] ∧
      (reconcile exEnv (exWorld [] 1) exAccount "u1"
          [exPayload "E1" (some [exOutlookAttendee "a@x.com" "notResponded"])]).state.events.map
          (·.attendees) = [[⟨"a@x.com", "declined", false⟩]] := by
  decide

/-- C13 (all-day detection), evaluated at a payload whose `start` carries a full
timestamp and whose own `isAllDay` flag is set. On the update path the event is stored
with `isAllDay = true`, although `start` carries a `dateTime` and no `date`; the create
path stores the same payload with `isAllDay = false`. -/
theorem all_day_from_the_payload_flag :
    ({ exPayload "E1" none with isAllDay := some true } : ExtEvent).start =
        some ⟨some "2024-05-01T10:00:00.000Z", none⟩ ∧
      (reconcile exEnv (exWorld [exEvent 1 "E1" []] 2) exAccount "u1"
          [{ exPayload "E1" none with isAllDay := some true }]).isDone = true ∧
      (reconcile exEnv (exWorld [exEvent 1 "E1" []] 2) exAccount "u1"
          [{ exPayload "E1" none with isAllDay := some true }]).state.events.map
          (·.isAllDay) = [true] ∧
      (reconcile exEnv (exWorld [] 1) exAccount "u1"
          [{ exPayload "E1" none with isAllDay := some true }]).state.events.map
          (·.isAllDay) = [false] := by
  decide

/-- C14 (organizer resolution), evaluated at a Google payload whose `organizer.email` is
the email of its attendee: the attendee is stored with `isOrganizer = false`. Lines 467
and 497 read the attendee's email in both shapes but the organizer only as
`organizer.emailAddress.address`. -/
theorem organizer_missed_on_google_payload :
    (reconcile exEnv (exWorld [] 1) exAccount "u1"
        [{ exPayload "E1" (some [exGoogleAttendee "boss@x.com" "accepted"]) with
            organizer := some ⟨none, some "boss@x.com"⟩ }]).state.events.map
        (·.attendees) = [[⟨"boss@x.com", "accepted", false⟩]] ∧
      (reconcile exEnv (exWorld [exEvent 1 "E1" []] 2) exAccount "u1"
        [{ exPayload "E1" (some [exGoogleAttendee "boss@x.com" "accepted"]) with
            organizer := some ⟨none, some "boss@x.com"⟩ }]).state.events.map
        (·.attendees) = [[⟨"boss@x.com", "accepted", false⟩]] := by
  decide

/-- C15, amended (uniqueness of account and external id). When no two stored events share
an account and a non-null `externalEventId`, and no list that the provider hands to the
run carries an id twice, the same holds of the stored events after the run of
`syncExternalCalendar`, whether its `try` block ended normally or in the `catch`. -/
theorem uniqueness_preserved_by_sync (env : Env) (fuel : Nat) (w w' : World)
    (accountId : Nat) (userId : String) (hkeys : w.KeysOk) (hunique : w.UniqueExternal)
    (hfetched : ∀ i r, env.eventsList i = some r →
      (((r.items.getD []).filter fun x => truthy (eventIdOf x)).map eventIdOf).Nodup)
    (hrun : syncExternalCalendar env fuel w accountId userId = some w') :
    w'.UniqueExternal := by
  unfold syncExternalCalendar at hrun
  cases ho : syncRun env fuel 0 w accountId userId with
  | none => simp [ho] at hrun
  | some o =>
    simp only [ho, Option.map_some', Option.some.injEq] at hrun
    subst hrun
    exact syncRun_unique env accountId userId hfetched fuel 0 w o hkeys hunique ho

/-- Counterexample to C15 as stated: the fetched list carries the id E1 twice; the run
stores two events with that id for the account. -/
theorem duplicate_fetched_ids_are_stored_twice :
    (exWorld [] 1).UniqueExternal ∧
      (syncExternalCalendar (exEnvFetch [exPayload "E1" none, exPayload "E1" none]) 1
          (exWorld [] 1) 1 "u1").map (fun w => w.events.map Event.key) =
        some [(1, 1, some "E1"), (2, 1, some "E1")] ∧
      (syncExternalCalendar (exEnvFetch [exPayload "E1" none, exPayload "E1" none]) 1
          (exWorld [] 1) 1 "u1").map (fun w => decide w.UniqueExternal) = some false := by
  decide

/-- Witness of the amended C15: local E1, E2, E3 and a fetch of E1, E3, E4. -/
theorem uniqueness_preserved_by_sync_witness :
    ∃ w', syncExternalCalendar
          (exEnvFetch [exPayload "E1" none, exPayload "E3" none, exPayload "E4" none]) 1
          (exWorld [exEvent 1 "E1" [], exEvent 2 "E2" [], exEvent 3 "E3" []] 4) 1 "u1" =
        some w' ∧ w'.UniqueExternal :=
  have h : (syncExternalCalendar
      (exEnvFetch [exPayload "E1" none, exPayload "E3" none, exPayload "E4" none]) 1
      (exWorld [exEvent 1 "E1" [], exEvent 2 "E2" [], exEvent 3 "E3" []] 4) 1 "u1").isSome =
      true := by decide
  ⟨_, (Option.some_get h).symm,
    uniqueness_preserved_by_sync
      (exEnvFetch [exPayload "E1" none, exPayload "E3" none, exPayload "E4" none]) 1
      (exWorld [exEvent 1 "E1" [], exEvent 2 "E2" [], exEvent 3 "E3" []] 4) _ 1 "u1"
      (by decide) (by decide)
      (by
        intro i r h
        cases h
        decide)
      (Option.some_get h).symm⟩

/-- C16 (the external id of a created event), evaluated at a request with
`sourceType: 'outlook'` on the caller's own account: the request is accepted with status
201, no provider request is sent, and the stored event has the source type `'outlook'`
and no `externalEventId`. -/
theorem external_id_absent_on_outlook_event :
    (createEvent exEnv (exWorld [] 1) "u1"
        { exCreateBody "u1" with sourceType := some "outlook" }).status = 201 ∧
      (createEvent exEnv (exWorld [] 1) "u1"
        { exCreateBody "u1" with sourceType := some "outlook" }).world.events.map
          (fun e => (e.sourceType, e.externalEventId)) = [("outlook", none)] ∧
      (createEvent exEnv (exWorld [] 1) "u1"
        { exCreateBody "u1" with sourceType := some "outlook" }).world.calls = [] := by
  decide

/-- C17: when the token of a Google account has expired and the refresh request fails, the
run ends in its `catch` block; the stored accounts (tokens, expiry and cursor) and the
stored events are those from before the run, and the only provider request of the run is
the refresh itself: no `events.list` request is sent. -/
theorem credential_failure_is_atomic (env : Env) (w : World) (accountId : Nat)
    (userId : String) (account : ExternalCalendarAccount) (fuel : Nat)
    (hfind : accountFindById w accountId = some account)
    (hexp : account.expiresAt ≤ env.now) (hg : account.calendarType = "google")
    (hfail : env.refreshAccessToken = none) :
    ∃ w', syncRun env (fuel + 1) 0 w accountId userId = some (.threw w') ∧
      syncExternalCalendar env (fuel + 1) w accountId userId = some w' ∧
      w'.accounts = w.accounts ∧ w'.events = w.events ∧ w'.nextId = w.nextId ∧
      w'.callsSince w =
        [ProviderCall.refreshAccessToken ⟨none, some (decrypt account.refreshToken)⟩] := by
  have hrun : syncRun env (fuel + 1) 0 w accountId userId =
      some (.threw ((setCredentials w ⟨none, some (decrypt account.refreshToken)⟩).send
        ProviderCall.refreshAccessToken)) := by
    rw [syncRun_succ env fuel 0 w accountId userId account hfind,
      refreshStep_failed hexp hg (Or.inl hfail)]
  refine ⟨_, hrun, ?_, rfl, rfl, rfl, ?_⟩
  · simp only [syncExternalCalendar, hrun, Option.map_some', Outcome.state]
  · apply callsSince_of_append
    simp [World.send, setCredentials]

/-- C17 (witness): the expired account in an environment where every provider call
throws. -/
theorem credential_failure_is_atomic_witness :
    ∃ w', syncRun exEnv (0 + 1) 0 exExpiredWorld 1 "u1" = some (.threw w') ∧
      syncExternalCalendar exEnv (0 + 1) exExpiredWorld 1 "u1" = some w' ∧
      w'.accounts = exExpiredWorld.accounts ∧ w'.events = exExpiredWorld.events ∧
      w'.nextId = exExpiredWorld.nextId ∧
      w'.callsSince exExpiredWorld =
        [ProviderCall.refreshAccessToken
          ⟨none, some (decrypt exExpiredAccount.refreshToken)⟩] :=
  credential_failure_is_atomic exEnv exExpiredWorld 1 "u1" exExpiredAccount 0 (by decide)
    (by decide) (by decide) (by decide)

/-- C18 (the tokens after a refresh), evaluated at an expired Google account whose
refresh is granted with a new access token and a new refresh token, reported without
`expires_in`. The new `expiresAt` is an invalid date, `account.save()` throws and the run
ends in its `catch` block: the only request sent is the refresh, and the stored account
is the one from before the run, whose tokens decode to the old `tok` and `ref`. -/
theorem granted_refresh_is_not_stored :
    exExpiredAccount.expiresAt ≤ exEnvGranted.now ∧
      (syncRun exEnvGranted 1 0 exExpiredWorld 1 "u1").map Outcome.isDone = some false ∧
      (syncRun exEnvGranted 1 0 exExpiredWorld 1 "u1").map (fun o => o.state.calls) =
        some [ProviderCall.refreshAccessToken ⟨none, some "ref"⟩] ∧
      (syncRun exEnvGranted 1 0 exExpiredWorld 1 "u1").map (fun o => o.state.accounts) =
        some [exExpiredAccount] ∧
      decrypt exExpiredAccount.accessToken = "tok" ∧
      decrypt exExpiredAccount.refreshToken = "ref" := by
  decide

/-- C19: a run of `syncExternalCalendar` in which some `events.list` request is not
answered with status 410 returns to its caller, whatever the outcome of its `try` block:
when the token refresh, the fetch or an event-store operation throws, the `catch` block
ends the call normally with the world the throw left, and the scheduler's loop goes on
with the remaining accounts from that world. -/
theorem sync_errors_are_swallowed (envOf : Nat → Env) (fuel n : Nat) (w : World)
    (account : ExternalCalendarAccount) (rest : List ExternalCalendarAccount)
    (hlast : ((envOf account._id).eventsList n).map (·.status) ≠ some 410)
    (hfuel : n < fuel) :
    ∃ o, syncRun (envOf account._id) fuel 0 w account._id account.userId = some o ∧
      syncExternalCalendar (envOf account._id) fuel w account._id account.userId =
        some o.state ∧
      syncAccounts envOf fuel w (account :: rest) = syncAccounts envOf fuel o.state rest := by
  obtain ⟨o, ho⟩ := syncRun_returns (envOf account._id) account._id account.userId n fuel 0 w
    (by rwa [Nat.zero_add]) hfuel
  have hs : syncExternalCalendar (envOf account._id) fuel w account._id account.userId =
      some o.state := by
    simp only [syncExternalCalendar, ho, Option.map_some']
  refine ⟨o, ho, hs, ?_⟩
  simp only [syncAccounts, hs]

/-- C19 (witness): a tick over two accounts; the refresh of the first account's token
fails, the run of the first account ends in its `catch` block, and the second account is
fetched in the same tick. -/
theorem sync_errors_are_swallowed_witness :
    (∃ o, syncRun (exEnvOf exExpiredAccount._id) 1 0 exTwoAccountsWorld exExpiredAccount._id
          exExpiredAccount.userId = some o ∧
        syncExternalCalendar (exEnvOf exExpiredAccount._id) 1 exTwoAccountsWorld
          exExpiredAccount._id exExpiredAccount.userId = some o.state ∧
        syncAccounts exEnvOf 1 exTwoAccountsWorld (exExpiredAccount :: [exSecondAccount]) =
          syncAccounts exEnvOf 1 o.state [exSecondAccount]) ∧
      (syncRun (exEnvOf 1) 1 0 exTwoAccountsWorld 1 "u1").map Outcome.isDone = some false ∧
      (cronTick exEnvOf 1 exTwoAccountsWorld).map (fun w => listCursors w.calls) =
        some [some "c0"] :=
  ⟨sync_errors_are_swallowed exEnvOf 1 0 exTwoAccountsWorld exExpiredAccount [exSecondAccount]
    (by decide) (by decide), by decide, by decide⟩

/-- C20 (amended): in a run of a Google account whose token check passes and whose first
`events.list` request is answered with a status other than 410, the run returns and the
stored account then carries the cursor of the answer (or the old cursor when the answer
has none), whether the reconciliation ended normally or threw: the cursor is saved before
the reconciliation starts. -/
theorem cursor_persisted_before_reconcile (env : Env) (w : World) (accountId : Nat)
    (userId : String) (account : ExternalCalendarAccount) (r : ListResponse) (fuel : Nat)
    (hfind : accountFindById w accountId = some account)
    (hg : account.calendarType = "google")
    (hr : env.now < account.expiresAt ∨
      ∃ c e, env.refreshAccessToken = some c ∧ c.expires_in = some e)
    (hresp : env.eventsList 0 = some r) (hstatus : r.status ≠ 410) :
    ∃ o a, syncRun env (fuel + 1) 0 w accountId userId = some o ∧
      accountFindById o.state accountId = some a ∧
      a.lastSyncToken = jsOr r.nextSyncToken account.lastSyncToken :=
  syncRun_fetched userId fuel hfind hg hr hresp hstatus

/-- C20 (counterexample): the provider answers with a new cursor `c1` and a payload
without `start`; the reconciliation throws on that payload, no event is stored, and the
stored cursor has moved from `c0` to `c1`. -/
theorem failed_reconcile_moves_the_cursor :
    (exWorld [] 1).accounts.map (·.lastSyncToken) = [some "c0"] ∧
      (syncRun exEnvBrokenFetch 1 0 (exWorld [] 1) 1 "u1").map Outcome.isDone = some false ∧
      (syncRun exEnvBrokenFetch 1 0 (exWorld [] 1) 1 "u1").map
          (fun o => (o.state.events, o.state.accounts.map (·.lastSyncToken))) =
        some ([], [some "c1"]) := by
  decide

/-- C20 (witness): the same failing run. -/
theorem cursor_persisted_before_reconcile_witness :
    ∃ o a, syncRun exEnvBrokenFetch (0 + 1) 0 (exWorld [] 1) 1 "u1" = some o ∧
      accountFindById o.state 1 = some a ∧
      a.lastSyncToken =
        jsOr (some "c1") exAccount.lastSyncToken :=
  cursor_persisted_before_reconcile exEnvBrokenFetch (exWorld [] 1) 1 "u1" exAccount
    ⟨200, some [{ exPayload "E1" none with start := none }], some "c1"⟩ 0 (by decide)
    (by decide) (Or.inl (by decide)) rfl (by decide)

/-- C21: the id the sync uses for a fetched payload is the payload's `id` when that is
present (and not empty), else its `iCalUId`; it is the `externalEventId` of the created
document. A payload with neither is discarded: the partition, and with it the whole
reconciliation, is the same as for the fetched list without that payload. -/
theorem identifier_extraction (env : Env) (w : World) (account : ExternalCalendarAccount)
    (userId : String) (x : ExtEvent) (pre post : List ExtEvent) :
    (truthy x.id = true → eventIdOf x = x.id) ∧
      (truthy x.id = false → eventIdOf x = x.iCalUId) ∧
      (∀ doc, createDoc env account userId x = some doc →
        doc.externalEventId = eventIdOf x) ∧
      (truthy x.id = false → truthy x.iCalUId = false →
        partitionEvents (existingEventIds w account._id) (pre ++ x :: post) =
            partitionEvents (existingEventIds w account._id) (pre ++ post) ∧
          reconcile env w account userId (pre ++ x :: post) =
            reconcile env w account userId (pre ++ post)) := by
  refine ⟨?_, ?_, ?_, ?_⟩
  · intro h
    simp [eventIdOf, jsOr, h]
  · intro h
    simp [eventIdOf, jsOr, h]
  · intro doc hdoc
    unfold createDoc at hdoc
    split at hdoc
    · simp only [Option.some.injEq] at hdoc
      subst hdoc
      rfl
    · simp at hdoc
  · intro h1 h2
    have hid : truthy (eventIdOf x) = false := by
      simp [eventIdOf, jsOr, h1, h2]
    have hp := partitionEvents_skip (existingEventIds w account._id) x hid pre post
    refine ⟨hp, ?_⟩
    unfold reconcile
    rw [hp]

/-- C21 (witness): a fetched list whose second payload has neither `id` nor `iCalUId`. -/
theorem identifier_extraction_witness :
    reconcile exEnv (exWorld [exEvent 1 "E1" []] 2) exAccount "u1"
        ([exPayload "E1" none] ++ { exPayload "E2" none with id := none } :: []) =
      reconcile exEnv (exWorld [exEvent 1 "E1" []] 2) exAccount "u1"
        ([exPayload "E1" none] ++ []) :=
  ((identifier_extraction exEnv (exWorld [exEvent 1 "E1" []] 2) exAccount "u1"
    { exPayload "E2" none with id := none } [exPayload "E1" none] []).2.2.2 rfl rfl).2

/-- C22: an event of the account that a reconciliation leaves in the store under an
`externalEventId` that was not among the account's local ids, that is an event the run
inserted, has `isNewlyAccepted = false`, whatever the payload reports about the owner. -/
theorem first_seen_event_is_not_newly_accepted (env : Env) (w : World)
    (account : ExternalCalendarAccount) (userId : String) (externalEvents : List ExtEvent)
    (e : Event)
    (he : e ∈ (reconcile env w account userId externalEvents).state.events)
    (hacc : e.externalCalendarAccountId = account._id)
    (hnew : e.externalEventId ∉ existingEventIds w account._id) :
    e.isNewlyAccepted = false :=
  reconcile_first_seen env w account userId externalEvents e he hacc hnew

/-- C22 (witness): the payload E2 is new and reports the owner `me@x.com` as accepted;
the event inserted for it is not newly accepted. -/
theorem first_seen_event_is_not_newly_accepted_witness :
    ({ exEvent 2 "E2" [⟨"me@x.com", "accepted", false⟩] with lastSynced := exEnv.now } : Event) ∈
        (reconcile exEnv (exWorld [exEvent 1 "E1" []] 2) exAccount "u1"
          [exPayload "E1" none,
            exPayload "E2" (some [exGoogleAttendee "me@x.com" "accepted"])]).state.events ∧
      ({ exEvent 2 "E2" [⟨"me@x.com", "accepted", false⟩] with
        lastSynced := exEnv.now } : Event).isNewlyAccepted = false :=
  ⟨by decide,
    first_seen_event_is_not_newly_accepted exEnv (exWorld [exEvent 1 "E1" []] 2) exAccount "u1"
      [exPayload "E1" none, exPayload "E2" (some [exGoogleAttendee "me@x.com" "accepted"])]
      { exEvent 2 "E2" [⟨"me@x.com", "accepted", false⟩] with lastSynced := exEnv.now }
      (by decide) (by decide) (by decide)⟩

/-- C23: for every non-empty token text `t`, a sequence of Unicode characters,
`decrypt (encrypt t) = t`. -/
theorem token_encoding_is_reversible (t : String) (ht : t ≠ "") :
    decrypt (encrypt (some t)) = t :=
  decrypt_encrypt t ht

/-- C23 (witness): a token with characters of one, two, three and four UTF-8 bytes. -/
theorem token_encoding_is_reversible_witness :
    decrypt (encrypt (some "ya29.a0-é€😀")) = "ya29.a0-é€😀" :=
  token_encoding_is_reversible "ya29.a0-é€😀" (by decide)

/-- C24: when the event id of an `updateEvent`, `deleteEvent` or `updateAttendeeStatus`
request, or the account id of a `refreshCalendar` request, is not found, the handler
fails with status 404 and leaves the world as it was: no provider request is sent and
neither store is written. -/
theorem not_found_is_surfaced_without_mutation (env : Env) (fuel : Nat) (w : World)
    (reqUserId : String) :
    (∀ id, eventFindById w id = none →
        (∀ body, updateEvent env w reqUserId id body = .failed 404 w) ∧
          deleteEvent env w reqUserId id = .failed 404 w ∧
          (∀ body, updateAttendeeStatus env w reqUserId id body = .failed 404 w)) ∧
      (∀ accountId, accountFindById w accountId = none →
        refreshCalendar env fuel w reqUserId accountId = some (.failed 404 w)) := by
  refine ⟨?_, ?_⟩
  · intro id h
    refine ⟨?_, ?_, ?_⟩
    · intro body
      simp [updateEvent, h, errorHandler]
    · simp [deleteEvent, h, errorHandler]
    · intro body
      simp [updateAttendeeStatus, h, errorHandler]
  · intro accountId h
    simp [refreshCalendar, h, errorHandler]

/-- C24 (witness): the event id 9 and the account id 9 do not exist. -/
theorem not_found_is_surfaced_without_mutation_witness :
    (updateEvent exEnvWrites exOwnWorld "u1" 9 exUpdateBody = .failed 404 exOwnWorld ∧
        deleteEvent exEnvWrites exOwnWorld "u1" 9 = .failed 404 exOwnWorld ∧
        updateAttendeeStatus exEnvWrites exOwnWorld "u1" 9 ⟨some "u1", some "accepted"⟩ =
          .failed 404 exOwnWorld) ∧
      refreshCalendar exEnvWrites 1 exOwnWorld "u1" 9 = some (.failed 404 exOwnWorld) :=
  ⟨⟨((not_found_is_surfaced_without_mutation exEnvWrites 1 exOwnWorld "u1").1 9
        (by decide)).1 exUpdateBody,
      ((not_found_is_surfaced_without_mutation exEnvWrites 1 exOwnWorld "u1").1 9
        (by decide)).2.1,
      ((not_found_is_surfaced_without_mutation exEnvWrites 1 exOwnWorld "u1").1 9
        (by decide)).2.2 ⟨some "u1", some "accepted"⟩⟩,
    (not_found_is_surfaced_without_mutation exEnvWrites 1 exOwnWorld "u1").2 9 (by decide)⟩

/-- C25: for every set of local ids (a list without repetition) and every fetched list,
`eventsToUpdate` is the fetched payloads that have an id which is a local id,
`eventsToCreate` the fetched payloads that have an id which is no local id, in the order
of the fetched list; no payload is in both; `eventsToDeleteIds` holds exactly the local
ids that are the id of no fetched payload, and none of them is the id of a payload to
create or to update. -/
theorem set_difference_partition (existing : List (Option String))
    (externalEvents : List ExtEvent) (hset : existing.Nodup) :
    (partitionEvents existing externalEvents).eventsToUpdate =
        externalEvents.filter (fun x => truthy (eventIdOf x) && existing.contains (eventIdOf x)) ∧
      (partitionEvents existing externalEvents).eventsToCreate =
        externalEvents.filter
          (fun x => truthy (eventIdOf x) && !existing.contains (eventIdOf x)) ∧
      (∀ x, ¬(x ∈ (partitionEvents existing externalEvents).eventsToUpdate ∧
        x ∈ (partitionEvents existing externalEvents).eventsToCreate)) ∧
      (∀ i, i ∈ (partitionEvents existing externalEvents).eventsToDeleteIds ↔
        i ∈ existing ∧ ∀ x ∈ externalEvents, truthy (eventIdOf x) = true → eventIdOf x ≠ i) ∧
      (∀ x, x ∈ (partitionEvents existing externalEvents).eventsToUpdate ∨
          x ∈ (partitionEvents existing externalEvents).eventsToCreate →
        eventIdOf x ∉ (partitionEvents existing externalEvents).eventsToDeleteIds) := by
  obtain ⟨hu, hc, hd⟩ := partitionEvents_eq existing externalEvents hset
  have hdel : ∀ i, i ∈ (partitionEvents existing externalEvents).eventsToDeleteIds ↔
      i ∈ existing ∧ ∀ x ∈ externalEvents, truthy (eventIdOf x) = true → eventIdOf x ≠ i := by
    intro i
    rw [hd, List.mem_filter]
    constructor
    · rintro ⟨hi, hany⟩
      refine ⟨hi, ?_⟩
      intro x hx ht heq
      simp only [Bool.not_eq_true', List.any_eq_false, Bool.and_eq_true, beq_iff_eq,
        not_and] at hany
      exact hany x hx ⟨ht, List.elem_iff.2 (heq ▸ hi)⟩ heq
    · rintro ⟨hi, hall⟩
      refine ⟨hi, ?_⟩
      simp only [Bool.not_eq_true', List.any_eq_false, Bool.and_eq_true, beq_iff_eq, not_and]
      intro x hx hcond
      exact hall x hx hcond.1
  refine ⟨hu, hc, ?_, hdel, ?_⟩
  · intro x hx
    rw [hu, hc, List.mem_filter, List.mem_filter] at hx
    obtain ⟨⟨_, h1⟩, ⟨_, h2⟩⟩ := hx
    simp only [Bool.and_eq_true, Bool.not_eq_true'] at h1 h2
    rw [h1.2] at h2
    exact absurd h2.2 (by simp)
  · intro x hx hmem
    have hxF : x ∈ externalEvents ∧ truthy (eventIdOf x) = true := by
      rcases hx with hx | hx
      · rw [hu, List.mem_filter] at hx
        simp only [Bool.and_eq_true] at hx
        exact ⟨hx.1, hx.2.1⟩
      · rw [hc, List.mem_filter] at hx
        simp only [Bool.and_eq_true] at hx
        exact ⟨hx.1, hx.2.1⟩
    exact ((hdel _).1 hmem).2 x hxF.1 hxF.2 rfl

/-- C25 (witness): the local ids E1, E2 and an absent one; the fetched payloads E1, E3 and
one without id. -/
theorem set_difference_partition_witness :
    (partitionEvents [some "E1", some "E2", none]
        [exPayload "E1" none, exPayload "E3" none,
          { exPayload "E4" none with id := none }]).eventsToUpdate = [exPayload "E1" none] ∧
      (partitionEvents [some "E1", some "E2", none]
        [exPayload "E1" none, exPayload "E3" none,
          { exPayload "E4" none with id := none }]).eventsToCreate = [exPayload "E3" none] ∧
      (partitionEvents [some "E1", some "E2", none]
        [exPayload "E1" none, exPayload "E3" none,
          { exPayload "E4" none with id := none }]).eventsToDeleteIds = [some "E2", none] ∧
      ∀ x, x ∈ (partitionEvents [some "E1", some "E2", none]
            [exPayload "E1" none, exPayload "E3" none,
              { exPayload "E4" none with id := none }]).eventsToUpdate ∨
          x ∈ (partitionEvents [some "E1", some "E2", none]
            [exPayload "E1" none, exPayload "E3" none,
              { exPayload "E4" none with id := none }]).eventsToCreate →
        eventIdOf x ∉ (partitionEvents [some "E1", some "E2", none]
          [exPayload "E1" none, exPayload "E3" none,
            { exPayload "E4" none with id := none }]).eventsToDeleteIds :=
  ⟨by decide, by decide, by decide,
    (set_difference_partition [some "E1", some "E2", none]
      [exPayload "E1" none, exPayload "E3" none, { exPayload "E4" none with id := none }]
      (by decide)).2.2.2.2⟩

/-- C26: every request that `createEvent` or `updateEvent` sends to the provider is an
`events.insert`, respectively an `events.patch`, whose resource is built from the ISO
strings of the request's `startTime` and `endTime`: when `isAllDay` is true, `start` and
`end` carry as `date` the part of the ISO string before `T` and no `dateTime`; otherwise
they carry as `dateTime` the full ISO string and no `date`. -/
theorem all_day_wire_translation (env : Env) (w : World) (reqUserId : String) :
    (∀ (body : CreateEventBody),
        ∀ c ∈ (createEvent env w reqUserId body).world.callsSince w,
          ∃ credentials calendarId resource isoStart isoEnd,
            c = ProviderCall.eventsInsert credentials calendarId resource ∧
            body.startTime.bind env.toISOString = some isoStart ∧
            body.endTime.bind env.toISOString = some isoEnd ∧
            (body.isAllDay = some true →
              (resource.start.date = some (beforeT isoStart) ∧ resource.start.dateTime = none) ∧
                resource.end_.date = some (beforeT isoEnd) ∧ resource.end_.dateTime = none) ∧
            (body.isAllDay ≠ some true →
              (resource.start.dateTime = some isoStart ∧ resource.start.date = none) ∧
                resource.end_.dateTime = some isoEnd ∧ resource.end_.date = none)) ∧
      (∀ (id : Nat) (body : UpdateEventBody),
        ∀ c ∈ (updateEvent env w reqUserId id body).world.callsSince w,
          ∃ credentials calendarId eventId resource isoStart isoEnd,
            c = ProviderCall.eventsPatch credentials calendarId eventId resource ∧
            body.startTime.bind env.toISOString = some isoStart ∧
            body.endTime.bind env.toISOString = some isoEnd ∧
            (body.isAllDay = some true →
              (resource.start.date = some (beforeT isoStart) ∧ resource.start.dateTime = none) ∧
                resource.end_.date = some (beforeT isoEnd) ∧ resource.end_.dateTime = none) ∧
            (body.isAllDay ≠ some true →
              (resource.start.dateTime = some isoStart ∧ resource.start.date = none) ∧
                resource.end_.dateTime = some isoEnd ∧ resource.end_.date = none)) := by
  constructor
  · intro body c hc
    obtain ⟨credentials, calendarId, resource, rfl, hres⟩ :=
      createEvent_calls env w reqUserId body c hc
    obtain ⟨hs, he⟩ := googleEvent_some hres
    obtain ⟨isoStart, h1, h2, h3⟩ := wireTime_some hs
    obtain ⟨isoEnd, h4, h5, h6⟩ := wireTime_some he
    exact ⟨credentials, calendarId, resource, isoStart, isoEnd, rfl, h1, h4,
      fun h => ⟨h2 h, h5 h⟩, fun h => ⟨h3 h, h6 h⟩⟩
  · intro id body c hc
    obtain ⟨credentials, calendarId, eventId, resource, rfl, hres⟩ :=
      updateEvent_calls env w reqUserId id body c hc
    obtain ⟨hs, he⟩ := googleEvent_some hres
    obtain ⟨isoStart, h1, h2, h3⟩ := wireTime_some hs
    obtain ⟨isoEnd, h4, h5, h6⟩ := wireTime_some he
    exact ⟨credentials, calendarId, eventId, resource, isoStart, isoEnd, rfl, h1, h4,
      fun h => ⟨h2 h, h5 h⟩, fun h => ⟨h3 h, h6 h⟩⟩

/-- C26 (witness): an all-day event is created; the request sent carries the dates
`2024-05-03` and no `dateTime`. -/
theorem all_day_wire_translation_witness :
    (createEvent exEnvInsert (exWorld [] 1) "u1"
        { exCreateBody "u1" with isAllDay := some true }).world.callsSince (exWorld [] 1) =
      [ProviderCall.eventsInsert ⟨some "tok", none⟩ "primary"
        ⟨some "Lunch", none, none, ⟨none, some "2024-05-03", exEnv.timeZone⟩,
          ⟨none, some "2024-05-03", exEnv.timeZone⟩, []⟩] ∧
    ∃ credentials calendarId resource isoStart isoEnd,
      ProviderCall.eventsInsert ⟨some "tok", none⟩ "primary"
          ⟨some "Lunch", none, none, ⟨none, some "2024-05-03", exEnv.timeZone⟩,
            ⟨none, some "2024-05-03", exEnv.timeZone⟩, []⟩ =
        ProviderCall.eventsInsert credentials calendarId resource ∧
      ({ exCreateBody "u1" with isAllDay := some true } : CreateEventBody).startTime.bind
          exEnvInsert.toISOString = some isoStart ∧
      ({ exCreateBody "u1" with isAllDay := some true } : CreateEventBody).endTime.bind
          exEnvInsert.toISOString = some isoEnd ∧
      (({ exCreateBody "u1" with isAllDay := some true } : CreateEventBody).isAllDay =
          some true →
        (resource.start.date = some (beforeT isoStart) ∧ resource.start.dateTime = none) ∧
          resource.end_.date = some (beforeT isoEnd) ∧ resource.end_.dateTime = none) ∧
      (({ exCreateBody "u1" with isAllDay := some true } : CreateEventBody).isAllDay ≠
          some true →
        (resource.start.dateTime = some isoStart ∧ resource.start.date = none) ∧
          resource.end_.dateTime = some isoEnd ∧ resource.end_.date = none) :=
  ⟨by decide,
    (all_day_wire_translation exEnvInsert (exWorld [] 1) "u1").1
      { exCreateBody "u1" with isAllDay := some true } _ (by decide)⟩

/-- C27 (the credentials of the fetch), evaluated at the account `exAccount`, whose token
`tok` has not expired. When the shared client holds the token of another account, the
`events.list` request of the run is sent with that token; when the client holds no
credentials, the request is sent without any. Two runs that differ only in the client's
prior credentials send different requests, and neither carries the account's own token. -/
theorem fetch_uses_the_prior_credentials_of_the_client :
    exEnv.now < exAccount.expiresAt ∧ decrypt exAccount.accessToken = "tok" ∧
      (syncRun (exEnvFetch []) 1 0
          { exWorld [] 1 with client := ⟨some "token-of-another-account", none⟩ } 1 "u1").map
          (fun o => o.state.calls) =
        some [ProviderCall.eventsList ⟨some "token-of-another-account", none⟩ "primary"
          (some "c0")] ∧
      (syncRun (exEnvFetch []) 1 0 (exWorld [] 1) 1 "u1").map (fun o => o.state.calls) =
        some [ProviderCall.eventsList ⟨none, none⟩ "primary" (some "c0")] := by
  decide

/-- C28 (locally authored events), evaluated: a custom event is created through
`createEvent` under the account 1 and stored without `externalEventId`; the next run of
`syncExternalCalendar` for that account deletes it, with an empty fetched list as with a
fetched list holding the remote event E1. -/
theorem sync_deletes_custom_events_of_the_account :
    (createEvent exEnv (exWorld [] 1) "u1"
        { exCreateBody "u1" with sourceType := some "custom" }).status = 201 ∧
      (createEvent exEnv (exWorld [] 1) "u1"
        { exCreateBody "u1" with sourceType := some "custom" }).world.events.map
          (fun e => (e.key, e.sourceType)) = [((1, 1, none), "custom")] ∧
      (syncExternalCalendar (exEnvFetch []) 1
          (createEvent exEnv (exWorld [] 1) "u1"
            { exCreateBody "u1" with sourceType := some "custom" }).world 1 "u1").map
          (fun w => w.events) = some [] ∧
      (syncExternalCalendar (exEnvFetch [exPayload "E1" none]) 1
          (createEvent exEnv (exWorld [] 1) "u1"
            { exCreateBody "u1" with sourceType := some "custom" }).world 1 "u1").map
          (fun w => w.events.map Event.key) = some [(2, 1, some "E1")] := by
  decide

/-- C29 (create and update normalise alike), evaluated at a payload whose `start` carries
a full timestamp and whose `isAllDay` flag is set. The create path and the update path
store the same title, description, start, end, location and attendees, but the create
path stores `isAllDay = false` and the update path `isAllDay = true`: the two stored
events differ in that field only. -/
theorem create_and_update_differ_on_all_day :
    (reconcile exEnv (exWorld [] 1) exAccount "u1"
        [{ exPayload "E1" (some [exGoogleAttendee "a@x.com" "accepted"]) with
          isAllDay := some true }]).state.events =
      [{ exEvent 1 "E1" [⟨"a@x.com", "accepted", false⟩] with
          isAllDay := false, lastSynced := exEnv.now }] ∧
    (reconcile exEnv (exWorld [exEvent 1 "E1" []] 2) exAccount "u1"
        [{ exPayload "E1" (some [exGoogleAttendee "a@x.com" "accepted"]) with
          isAllDay := some true }]).state.events =
      [{ exEvent 1 "E1" [⟨"a@x.com", "accepted", false⟩] with
          isAllDay := true, lastSynced := exEnv.now }] := by
  decide

end UnifiedCalendar
